import Mathlib

/-!
# Verification of the ai-sheets formula engine

A shallow embedding of `src/lib/formula-engine.ts` (the spreadsheet formula
evaluator) and proofs about it.

Modelling conventions:
* JavaScript strings are `List Char` (`Str`).
* JavaScript numbers are `JNum`: an exact rational together with the three
  IEEE special values `Infinity`, `-Infinity` and `NaN`.  Claims under study
  only depend on integer/decimal arithmetic and on the finite/infinite/NaN
  classification, never on binary-float rounding, so rationals are used for
  the finite case.  Host library calls whose exact float behaviour is
  irrelevant here (`Math.sqrt`, fractional `Math.pow`, the `Date` library)
  are abstracted as an explicit `Host` oracle parameter.
* Thrown JavaScript exceptions are `Except Err` with constructor `.thrown`;
  `try`/`catch` is `jsTry`.  General recursion is made total with a `fuel`
  parameter; running out of fuel is the distinguished error `.fuelOut`,
  which no modelled `catch` intercepts (it is an artefact of the embedding,
  not a JavaScript exception).
* The mutable `evaluatingCells : Set<string>` that is threaded by reference
  through the evaluator is modelled as explicit state `St`; `none` models
  the parameter being `undefined` (each `getCellValue` then starts from a
  fresh empty set, as the default parameter `= new Set()` does).
-/

set_option maxRecDepth 8000

namespace FormulaEngine

abbrev Str := List Char

/-- String literal to `Str`. -/
def txt (s : String) : Str := s.toList

/-- `[A-Z]` -/
def isUpperA (c : Char) : Bool := 65 ≤ c.toNat && c.toNat ≤ 90

/-- `[a-z]` -/
def isLowerA (c : Char) : Bool := 97 ≤ c.toNat && c.toNat ≤ 122

/-- `\d` -/
def isDigitA (c : Char) : Bool := 48 ≤ c.toNat && c.toNat ≤ 57

/-- JavaScript regex `\s` (the forms that occur in spreadsheet text). -/
def isWsChar (c : Char) : Bool :=
  c == ' ' || c == '\t' || c == '\n' || c == '\r' || c == '\x0b' || c == '\x0c'

/-- JavaScript regex `\w` = `[A-Za-z0-9_]`, used by the `\b` word boundary. -/
def isWordChar (c : Char) : Bool := isUpperA c || isLowerA c || isDigitA c || c == '_'

/-- `[A-Za-z]` -/
def isAlphaA (c : Char) : Bool := isUpperA c || isLowerA c

/-- Numeric value of a run of decimal digits (`parseInt` on an all-digit string). -/
def digitsToNat (s : Str) : Nat := s.foldl (fun a c => a * 10 + (c.toNat - 48)) 0

/-- Decimal digits of a natural number. -/
def natToDigits (n : Nat) : Str := Nat.toDigits 10 n

/-- `String.prototype.trim` (both ends). -/
def strTrim (s : Str) : Str :=
  ((s.dropWhile isWsChar).reverse.dropWhile isWsChar).reverse

/-- ASCII lower-casing, as `toLowerCase` acts on the characters in play. -/
def toLowerStr (s : Str) : Str := s.map Char.toLower

/-- ASCII upper-casing, as `toUpperCase` acts on the characters in play. -/
def toUpperStr (s : Str) : Str := s.map Char.toUpper

/-- Split on a single character, keeping empty pieces (JS `split`). -/
def splitOnChar (s : Str) (d : Char) : List Str :=
  match s with
  | [] => [[]]
  | c :: rest =>
      let r := splitOnChar rest d
      if c = d then [] :: r
      else match r with
           | [] => [[c]]
           | p :: t => (c :: p) :: t

/-- Does `pat` occur as a contiguous substring (JS `includes`)? -/
def strContainsSub (s pat : Str) : Bool :=
  match s with
  | [] => pat.isPrefixOf ([] : Str)
  | _ :: rest => pat.isPrefixOf s || strContainsSub rest pat

/-- Split on a substring delimiter, keeping empty pieces (JS `split`).
The auxiliary fuel keeps the recursion structural; `fuel = s.length` is
always enough because each step consumes at least one character. -/
def splitOnSubAux (pat : Str) : Nat → Str → List Str
  | _, [] => [[]]
  | 0, s => [s]
  | fuel + 1, c :: rest =>
      if pat.isPrefixOf (c :: rest) && !pat.isEmpty then
        [] :: splitOnSubAux pat fuel ((c :: rest).drop pat.length)
      else
        match splitOnSubAux pat fuel rest with
        | [] => [[c]]
        | p :: t => (c :: p) :: t

def splitOnSub (s pat : Str) : List Str := splitOnSubAux pat s.length s

/-! ## JavaScript numbers

Finite numbers are unnormalised fractions `num / den` with `den > 0` for
every value the evaluator constructs.  No gcd normalisation is performed
(keeping every operation kernel-computable); all comparisons go through
cross-multiplication, never through structural equality. -/

/-- An exact (unnormalised) fraction. -/
structure Q where
  num : Int
  den : Int
deriving DecidableEq, Repr

instance : OfNat Q n := ⟨⟨n, 1⟩⟩

/-- Build a fraction, keeping the denominator positive. -/
def qMk (n d : Int) : Q := if d < 0 then ⟨-n, -d⟩ else ⟨n, d⟩

def qOfInt (n : Int) : Q := ⟨n, 1⟩

def qAdd (a b : Q) : Q := ⟨a.num * b.den + b.num * a.den, a.den * b.den⟩

def qNeg (a : Q) : Q := ⟨-a.num, a.den⟩

def qSub (a b : Q) : Q := qAdd a (qNeg b)

def qMul (a b : Q) : Q := ⟨a.num * b.num, a.den * b.den⟩

/-- Division; callers guard against a zero divisor. -/
def qDiv (a b : Q) : Q := qMk (a.num * b.den) (a.den * b.num)

/-- Value equality (cross-multiplication). -/
def qEq (a b : Q) : Bool := a.num * b.den == b.num * a.den

/-- Value order (valid because denominators are positive). -/
def qLt (a b : Q) : Bool := a.num * b.den < b.num * a.den

def qLe (a b : Q) : Bool := qLt a b || qEq a b

def qAbs (a : Q) : Q := ⟨(a.num.natAbs : Int), a.den⟩

def qFloor (a : Q) : Int := Int.fdiv a.num a.den

def qCeil (a : Q) : Int := -(Int.fdiv (-a.num) a.den)

/-- Truncation toward zero. -/
def qTrunc (a : Q) : Int := if qLt a 0 then qCeil a else qFloor a

/-- Is the value an integer? -/
def qIsInt (a : Q) : Bool := a.num % a.den == 0

/-- The integer value (exact when `qIsInt`). -/
def qToInt (a : Q) : Int := Int.ediv a.num a.den

def qPowNat (a : Q) (n : Nat) : Q := ⟨a.num ^ n, a.den ^ n⟩

/-- Integer power (negative exponents invert; callers guard `0^negative`). -/
def qPowInt (a : Q) (n : Int) : Q :=
  if 0 ≤ n then qPowNat a n.toNat
  else qMk (a.den ^ (-n).toNat) (a.num ^ (-n).toNat)

/-- A JavaScript number: an exact rational, or one of the IEEE specials. -/
inductive JNum where
  | fin (q : Q)
  | inf
  | negInf
  | nan
deriving DecidableEq, Repr

namespace JNum

def isNaN : JNum → Bool
  | .nan => true
  | _ => false

def isFinite : JNum → Bool
  | .fin _ => true
  | _ => false

def neg : JNum → JNum
  | .fin q => .fin (qNeg q)
  | .inf => .negInf
  | .negInf => .inf
  | .nan => .nan

def add : JNum → JNum → JNum
  | .nan, _ => .nan
  | _, .nan => .nan
  | .fin a, .fin b => .fin (qAdd a b)
  | .inf, .negInf => .nan
  | .negInf, .inf => .nan
  | .inf, _ => .inf
  | _, .inf => .inf
  | .negInf, _ => .negInf
  | _, .negInf => .negInf

def sub (a b : JNum) : JNum := add a (neg b)

def mul : JNum → JNum → JNum
  | .nan, _ => .nan
  | _, .nan => .nan
  | .fin a, .fin b => .fin (qMul a b)
  | .inf, .inf => .inf
  | .inf, .negInf => .negInf
  | .negInf, .inf => .negInf
  | .negInf, .negInf => .inf
  | .inf, .fin b => if qLt 0 b then .inf else if qLt b 0 then .negInf else .nan
  | .fin a, .inf => if qLt 0 a then .inf else if qLt a 0 then .negInf else .nan
  | .negInf, .fin b => if qLt 0 b then .negInf else if qLt b 0 then .inf else .nan
  | .fin a, .negInf => if qLt 0 a then .negInf else if qLt a 0 then .inf else .nan

/-- IEEE division.  The model has no signed zero, so a zero divisor counts
as `+0`: `x/0` is `±Infinity` by the sign of `x`, and `0/0` is `NaN`. -/
def div : JNum → JNum → JNum
  | .nan, _ => .nan
  | _, .nan => .nan
  | .fin a, .fin b =>
      if qEq b 0 then (if qLt 0 a then .inf else if qLt a 0 then .negInf else .nan)
      else .fin (qDiv a b)
  | .fin _, .inf => .fin 0
  | .fin _, .negInf => .fin 0
  | .inf, .fin b => if qLt b 0 then .negInf else .inf
  | .negInf, .fin b => if qLt b 0 then .inf else .negInf
  | .inf, _ => .nan
  | .negInf, _ => .nan

/-- IEEE remainder as in JS `%` (result takes the dividend's sign). -/
def mod : JNum → JNum → JNum
  | .nan, _ => .nan
  | _, .nan => .nan
  | .fin a, .fin b =>
      if qEq b 0 then .nan else .fin (qSub a (qMul b (qOfInt (qTrunc (qDiv a b)))))
  | .fin a, .inf => .fin a
  | .fin a, .negInf => .fin a
  | .inf, _ => .nan
  | .negInf, _ => .nan

/-- `<` with NaN never comparing. -/
def lt : JNum → JNum → Bool
  | .nan, _ => false
  | _, .nan => false
  | .fin a, .fin b => qLt a b
  | .fin _, .inf => true
  | .fin _, .negInf => false
  | .negInf, .fin _ => true
  | .negInf, .inf => true
  | .inf, _ => false
  | .negInf, .negInf => false

def gt (a b : JNum) : Bool := lt b a

/-- Strict `===` on numbers: NaN is not equal to anything, including itself. -/
def eqJS : JNum → JNum → Bool
  | .fin a, .fin b => qEq a b
  | .inf, .inf => true
  | .negInf, .negInf => true
  | _, _ => false

def le (a b : JNum) : Bool := lt a b || eqJS a b

def ge (a b : JNum) : Bool := le b a

def absJ : JNum → JNum
  | .fin q => .fin (qAbs q)
  | .inf => .inf
  | .negInf => .inf
  | .nan => .nan

/-- `Math.max` of two numbers (NaN-propagating). -/
def maxJ (a b : JNum) : JNum :=
  if a.isNaN || b.isNaN then .nan else if lt a b then b else a

/-- `Math.min` of two numbers (NaN-propagating). -/
def minJ (a b : JNum) : JNum :=
  if a.isNaN || b.isNaN then .nan else if lt b a then b else a

/-- `Math.round` (half-up toward `+∞`). -/
def roundJ : JNum → JNum
  | .fin q => .fin (qOfInt (qFloor (qAdd q (qMk 1 2))))
  | x => x

/-- `Math.ceil`. -/
def ceilJ : JNum → JNum
  | .fin q => .fin (qOfInt (qCeil q))
  | x => x

/-- `Math.floor`. -/
def floorJ : JNum → JNum
  | .fin q => .fin (qOfInt (qFloor q))
  | x => x

end JNum

/-! ## Number printing and parsing -/

/-- Least `k ≤ cap` with `d ∣ 10^k`, if any (decimal-termination search). -/
def decExponent (d : Nat) : Nat → Option Nat
  | 0 => if d ∣ 1 then some 0 else none
  | cap + 1 =>
      match decExponent d cap with
      | some k => some k
      | none => if d ∣ 10 ^ (cap + 1) then some (cap + 1) else none

/-- Decimal digits of `n`, left-padded with zeros to width `w`. -/
def padDigits (n w : Nat) : Str :=
  let ds := natToDigits n
  List.replicate (w - ds.length) '0' ++ ds

/-- Drop trailing `'0'` characters. -/
def dropTrailingZeros (s : Str) : Str := (s.reverse.dropWhile (· == '0')).reverse

/-- Render a nonnegative fraction with `k` decimal places (trailing zeros
stripped), as JS renders terminating decimals. -/
def qRender (n d k : Nat) : Str :=
  let scaled := n * 10 ^ k / d
  let intPart := natToDigits (scaled / 10 ^ k)
  let fracPart := dropTrailingZeros (padDigits (scaled % 10 ^ k) k)
  if fracPart.isEmpty then intPart else intPart ++ '.' :: fracPart

/-- `String(number)`.  Terminating decimals are rendered exactly, as JS
does; for a non-terminating fraction (which can only arise where the real
engine would hold an inexact binary double) we print 17 decimal places,
approximating the host's shortest-round-trip printing.  Very large
magnitudes (where JS switches to exponent notation) do not arise in the
workbooks under study. -/
def numToStr : JNum → Str
  | .nan => txt "NaN"
  | .inf => txt "Infinity"
  | .negInf => txt "-Infinity"
  | .fin q =>
      let n := q.num.natAbs
      let d := q.den.natAbs
      let k := (decExponent d 64).getD 17
      let core := qRender n d k
      if qLt q 0 then '-' :: core else core

/-- Split an optional leading sign: `(is-negative, remainder)`. -/
def signSplit (t : Str) : Bool × Str :=
  if t.head? == some '+' then (false, t.drop 1)
  else if t.head? == some '-' then (true, t.drop 1)
  else (false, t)

/-- Parse an unsigned decimal-literal prefix: digits, an optional fraction,
an optional exponent (consumed only when at least one digit follows). -/
def parseDecCore (s : Str) : Option Q :=
  let intDigits := s.takeWhile isDigitA
  let rest1 := s.drop intDigits.length
  let fracDigits :=
    if rest1.head? == some '.' then (rest1.drop 1).takeWhile isDigitA else []
  let rest2 :=
    if rest1.head? == some '.' then (rest1.drop 1).drop fracDigits.length else rest1
  if intDigits.isEmpty && fracDigits.isEmpty then none
  else
    let mantissa : Q :=
      qAdd (qOfInt (digitsToNat intDigits))
        (qMk (digitsToNat fracDigits) ((10 : Int) ^ fracDigits.length))
    if rest2.head? == some 'e' || rest2.head? == some 'E' then
      let esign : Int :=
        if (rest2.drop 1).head? == some '-' then -1 else 1
      let t2 :=
        if (rest2.drop 1).head? == some '+' || (rest2.drop 1).head? == some '-' then
          rest2.drop 2
        else rest2.drop 1
      let expDigits := t2.takeWhile isDigitA
      if expDigits.isEmpty then some mantissa
      else some (qMul mantissa (qPowInt ⟨10, 1⟩ (esign * digitsToNat expDigits)))
    else some mantissa

/-- `Number.parseFloat`: skip leading whitespace, optional sign, and parse
the longest numeric-literal prefix (`Infinity` included); NaN otherwise. -/
def jsParseFloat (s : Str) : JNum :=
  let t := s.dropWhile isWsChar
  let neg := (signSplit t).1
  let t2 := (signSplit t).2
  if (txt "Infinity").isPrefixOf t2 then
    (if neg then .negInf else .inf)
  else
    match parseDecCore t2 with
    | some q => .fin (if neg then qNeg q else q)
    | none => .nan

/-- `Number.parseInt` with radix 10: skip whitespace, optional sign, then a
digit run; NaN when there is no digit. -/
def jsParseInt (s : Str) : JNum :=
  let t := s.dropWhile isWsChar
  let neg := (signSplit t).1
  let t2 := (signSplit t).2
  let ds := t2.takeWhile isDigitA
  if ds.isEmpty then .nan
  else .fin (if neg then qNeg (qOfInt (digitsToNat ds)) else qOfInt (digitsToNat ds))

/-! ## Data model (`src/types/workbook.ts`) -/

/-- A runtime scalar: `number | string | boolean | null`.  Stored cell
values use only `num`/`str`/`null`; booleans arise during evaluation. -/
inductive Value where
  | num (x : JNum)
  | str (s : Str)
  | bool (b : Bool)
  | null
deriving DecidableEq, Repr

/-- `interface Cell { value: string | number | null; formula?: string }` -/
structure Cell where
  value : Value
  formula : Option Str
deriving DecidableEq, Repr

/-- `interface Sheet { id: string; name: string; data: Cell[][] }` -/
structure Sheet where
  id : Str
  name : Str
  data : List (List Cell)
deriving DecidableEq, Repr

/-- `interface Workbook { sheets: Sheet[] }` (id/name fields unused here). -/
structure Workbook where
  sheets : List Sheet
deriving DecidableEq, Repr

/-- `data[row]?.[col]`: `undefined` (here `none`) out of range, including
negative indices. -/
def cellAt (data : List (List Cell)) (row col : Int) : Option Cell :=
  if row < 0 || col < 0 then none
  else (data.get? row.toNat).bind (fun r => r.get? col.toNat)

/-- JavaScript truthiness. -/
def truthy : Value → Bool
  | .num x => !(JNum.eqJS x (.fin 0)) && !x.isNaN
  | .str s => !s.isEmpty
  | .bool b => b
  | .null => false

/-- `x || fallback` where the fallback is the number `0`
(`cell.value || 0`). -/
def truthyOr0 (v : Value) : Value := if truthy v then v else .num (.fin 0)

/-- `x || fallback` where the fallback is `""`. -/
def truthyOrEmpty (v : Value) : Value := if truthy v then v else .str []

/-- Strict equality `===` on runtime values. -/
def jsStrictEq : Value → Value → Bool
  | .num a, .num b => JNum.eqJS a b
  | .str a, .str b => a == b
  | .bool a, .bool b => a == b
  | .null, .null => true
  | _, _ => false

/-- `===` where the left side may be `undefined` (a missing cell); the
right side is an evaluator result, which is never `undefined`. -/
def jsStrictEqO : Option Value → Value → Bool
  | none, _ => false
  | some a, b => jsStrictEq a b

/-- Does the value look like an error sentinel (a string starting `#`)?
This is the engine's `typeof v === 'string' && v.startsWith('#')` test. -/
def isErrStr : Value → Bool
  | .str ('#' :: _) => true
  | _ => false

/-! ## Coercions (`toNumber`, `toString`) -/

/-- `toNumber` (formula-engine.ts:145): strips `[$,\s]`, handles a `%`
suffix, parses; NaN parses map to 0; non-number/non-string inputs map
to 0; a number passes through unchanged (including NaN). -/
def toNumber : Value → JNum
  | .num x => x
  | .str s =>
      let cleanValue := s.filter (fun c => !(c == '$' || c == ',' || isWsChar c))
      if cleanValue.getLast? == some '%' then
        let percentNum := jsParseFloat (cleanValue.dropLast)
        if percentNum.isNaN then .fin 0 else JNum.div percentNum (.fin ⟨100, 1⟩)
      else
        let num := jsParseFloat cleanValue
        if num.isNaN then .fin 0 else num
  | _ => .fin 0

/-- `toNumber` on a possibly-`undefined` value (`undefined` → 0, the
function's final `return 0`). -/
def toNumberO : Option Value → JNum
  | none => .fin 0
  | some v => toNumber v

/-- `toString` (formula-engine.ts:164): null/undefined → `""`, otherwise
`String(value)`. -/
def toStringJS : Value → Str
  | .null => []
  | .num x => numToStr x
  | .str s => s
  | .bool b => if b then txt "true" else txt "false"

def toStringO : Option Value → Str
  | none => []
  | some v => toStringJS v

/-! ## Reference parsing -/

/-- An exception channel: a real JS `throw`, or fuel exhaustion (an
artefact of the embedding that no modelled `catch` intercepts). -/
inductive Err where
  | thrown
  | fuelOut
deriving DecidableEq, Repr

/-- `cellToIndices` (formula-engine.ts:4): strip every `$`, match
`^([A-Z]+)(\d+)$`, fold the letters in bijective base 26, and return
zero-based indices.  Row `0` yields `-1`, hence the `Int` row.  A failed
match is the thrown `Invalid cell reference` error. -/
def cellToIndices (cell : Str) : Except Err (Int × Int) :=
  let cleanCell := cell.filter (fun c => !(c == '$'))
  let colStr := cleanCell.takeWhile isUpperA
  let rowStr := cleanCell.drop colStr.length
  if colStr.isEmpty || rowStr.isEmpty || !(rowStr.all isDigitA) then .error .thrown
  else
    let col : Int := (colStr.foldl (fun a c => a * 26 + (c.toNat - 64)) 0 : Nat) - 1
    let row : Int := (digitsToNat rowStr : Int) - 1
    .ok (row, col)

/-- Result of `parseSheetReference`. -/
structure SheetRef where
  targetSheetId : Option Str
  cellRef : Str
deriving DecidableEq, Repr

/-- Match `^'([^']+)'\.(.+)$`. -/
def matchQuotedSheet : Str → Option (Str × Str)
  | '\'' :: rest =>
      let name := rest.takeWhile (fun c => !(c == '\''))
      (match rest.drop name.length with
       | '\'' :: '.' :: tl => if name.isEmpty || tl.isEmpty then none else some (name, tl)
       | _ => none)
  | _ => none

/-- `parseSheetReference` (formula-engine.ts:25): quoted
`'Sheet Name'.Ref`, or unquoted `Name.Ref` via a 2-way dot split; resolve
the sheet by exact name, `none` when absent or malformed. -/
def parseSheetReference (sheetRef : Str) (workbook : Workbook) : SheetRef :=
  let parsed : Option (Str × Str) :=
    if sheetRef.contains '\'' then matchQuotedSheet sheetRef
    else
      match splitOnChar sheetRef '.' with
      | [a, b] => some (a, b)
      | _ => none
  match parsed with
  | none => ⟨none, []⟩
  | some (sheetName, cellRef) =>
      ⟨(workbook.sheets.find? (fun sheet => sheet.name == sheetName)).map Sheet.id, cellRef⟩

/-- An inclusive rectangle of zero-based indices. -/
structure RangeT where
  startRow : Int
  startCol : Int
  endRow : Int
  endCol : Int
deriving DecidableEq, Repr

/-- `parseRange` (formula-engine.ts:52): split on `:` (extra pieces beyond
the second are discarded, as array destructuring does); no `:` gives the
degenerate single-cell range. -/
def parseRange (range : Str) : Except Err RangeT :=
  if range.contains ':' then
    let parts := splitOnChar range ':'
    match cellToIndices (parts.getD 0 []), cellToIndices (parts.getD 1 []) with
    | .ok s, .ok e => .ok ⟨s.1, s.2, e.1, e.2⟩
    | .error er, _ => .error er
    | _, .error er => .error er
  else
    match cellToIndices range with
    | .ok i => .ok ⟨i.1, i.2, i.1, i.2⟩
    | .error er => .error er

/-- Inclusive `Int` index interval as a list (`for (i = a; i <= b; i++)`). -/
def idxRange (a b : Int) : List Int :=
  if b < a then [] else (List.range (b - a + 1).toNat).map (fun i => a + (i : Int))

/-! ## Argument/part splitting (`parseArguments`, `smartSplit`) -/

/-- The quote/paren-aware scanner shared by `parseArguments` and
`smartSplit`: split on `delim` at parenthesis depth 0 outside quotes.
Interior pieces are always kept (even when empty); the treatment of the
trailing piece differs between the two callers. -/
def splitScan (delim : Char) (doTrim : Bool) :
    Str → Str → Int → Bool → Option Char → List Str
  | [], current, _, _, _ =>
      let last := if doTrim then strTrim current else current
      if last.isEmpty then [] else [last]
  | c :: rest, current, parenCount, inQuotes, prev =>
      -- the quote toggle happens before the depth/delimiter logic
      let inQuotes' :=
        if c == '"' && !(prev == some '\\') then !inQuotes else inQuotes
      if !inQuotes' then
        let parenCount' :=
          if c == '(' then parenCount + 1
          else if c == ')' then parenCount - 1 else parenCount
        if c == delim && parenCount == 0 then
          (if doTrim then strTrim current else current) ::
            splitScan delim doTrim rest [] parenCount inQuotes' (some c)
        else
          splitScan delim doTrim rest (current ++ [c]) parenCount' inQuotes' (some c)
      else
        splitScan delim doTrim rest (current ++ [c]) parenCount inQuotes' (some c)

/-- `parseArguments` (formula-engine.ts:170): split on top-level commas,
trimming every piece; the final piece is kept only when nonempty. -/
def parseArguments (argsStr : Str) : List Str :=
  splitScan ',' true argsStr [] 0 false none

/-- `smartSplit` (formula-engine.ts:467): same scan for an arbitrary
delimiter, no trimming; the final piece is kept only when nonempty. -/
def smartSplit (expr : Str) (delimiter : Char) : List Str :=
  splitScan delimiter false expr [] 0 false none

/-! ## Regex-shaped scanners

The engine leans on a handful of concrete JS regexes; each is embedded as
a direct scanner with the same greedy-match behaviour (none of these
patterns has rescuing backtracking: every quantified class is disjoint
from what must follow it). -/

/-- Match `\$?[A-Z]+\$?\d+` at the head; returns (matched, rest). -/
def matchCellRefAt (s : Str) : Option (Str × Str) :=
  let core : Str → Option (Str × Str) := fun u =>
    let letters := u.takeWhile isUpperA
    if letters.isEmpty then none
    else
      match u.drop letters.length with
      | '$' :: v =>
          let digits := v.takeWhile isDigitA
          if digits.isEmpty then none
          else some (letters ++ '$' :: digits, v.drop digits.length)
      | v =>
          let digits := v.takeWhile isDigitA
          if digits.isEmpty then none
          else some (letters ++ digits, v.drop digits.length)
  match s with
  | '$' :: t => (core t).map (fun (m, r) => ('$' :: m, r))
  | _ => core s

/-- Global scan for a head-matcher: leftmost matches, resuming after each
match (`String.prototype.match` with the `g` flag). -/
def globalScan (m : Str → Option (Str × Str)) : Nat → Str → List Str
  | 0, _ => []
  | _, [] => []
  | fuel + 1, s@(_ :: rest) =>
      match m s with
      | some (found, after) =>
          -- a regex match is nonempty here, so `after` is shorter than `s`
          found :: globalScan m fuel after
      | none => globalScan m fuel rest

/-- `result.match(/\$?[A-Z]+\$?\d+/g) || []` (formula-engine.ts:301). -/
def cellRefMatches (s : Str) : List Str := globalScan matchCellRefAt s.length s

/-- Match the sheet-reference alternation
`'[^']+'\.\$?[A-Z]+\$?\d+|[A-Za-z][A-Za-z0-9_]*\.\$?[A-Z]+\$?\d+`
at the head. -/
def matchSheetRefAt (s : Str) : Option (Str × Str) :=
  match s with
  | '\'' :: t =>
      let name := t.takeWhile (fun c => !(c == '\''))
      if name.isEmpty then none
      else
        (match t.drop name.length with
         | '\'' :: '.' :: u =>
             (matchCellRefAt u).map
               (fun (m, r) => ('\'' :: name ++ '\'' :: '.' :: m, r))
         | _ => none)
  | c :: t =>
      if isAlphaA c then
        let ident := t.takeWhile (fun d => isAlphaA d || isDigitA d || d == '_')
        match t.drop ident.length with
        | '.' :: u =>
            (matchCellRefAt u).map (fun (m, r) => (c :: ident ++ '.' :: m, r))
        | _ => none
      else none
  | [] => none

/-- `result.match(/'[^']+'\.\$?[A-Z]+\$?\d+|[A-Za-z][A-Za-z0-9_]*\.\$?[A-Z]+\$?\d+/g) || []`
(formula-engine.ts:268). -/
def sheetRefMatches (s : Str) : List Str := globalScan matchSheetRefAt s.length s

/-- `\b` between a previous character (none at the edges) and a next one:
exactly one side is a word character. -/
def wordBoundary (prev next : Option Char) : Bool :=
  (prev.elim false isWordChar) != (next.elim false isWordChar)

/-- `subject.replace(new RegExp('\\b' + escaped(pat) + '\\b', 'g'), repl)`:
global replacement of the literal `pat` (the source escapes it precisely so
the regex treats it literally) where both ends sit on `\b` word boundaries.
Matches are located in the original subject, left to right,
non-overlapping. -/
def replaceWordBounded (pat repl : Str) : Nat → Option Char → Str → Str
  | 0, _, s => s
  | _, _, [] => []
  | fuel + 1, prev, s@(c :: rest) =>
      if pat.isPrefixOf s && !pat.isEmpty
          && wordBoundary prev pat.head?
          && wordBoundary pat.getLast? ((s.drop pat.length).head?) then
        repl ++ replaceWordBounded pat repl fuel pat.getLast? (s.drop pat.length)
      else
        c :: replaceWordBounded pat repl fuel (some c) rest

/-- Entry point for the word-bounded global replace. -/
def replaceWB (subject pat repl : Str) : Str :=
  replaceWordBounded pat repl subject.length none subject

/-- Scan forward from depth 1 for the matching `)`; returns the text
before it and the text after it (formula-engine.ts:241/424 inner loop). -/
def scanClose : Str → Nat → Option (Str × Str)
  | [], _ => none
  | c :: t, depth =>
      if c == '(' then (scanClose t (depth + 1)).map (fun (i, r) => (c :: i, r))
      else if c == ')' then
        if depth == 1 then some ([], t)
        else (scanClose t (depth - 1)).map (fun (i, r) => (c :: i, r))
      else (scanClose t depth).map (fun (i, r) => (c :: i, r))

/-- `expr.match(/^([A-Z]+)\(/)` plus the whole-expression check of
`evaluateExpression` (formula-engine.ts:231-252): the leading uppercase
run, an `(`, and a balanced close that lands exactly at the end. -/
def wholeFunc (expr : Str) : Option (Str × Str) :=
  let funcName := expr.takeWhile isUpperA
  if funcName.isEmpty then none
  else
    match expr.drop funcName.length with
    | '(' :: t =>
        match scanClose t 1 with
        | some (argsStr, after) => if after.isEmpty then some (funcName, argsStr) else none
        | none => none
    | _ => none

/-- The scan of `replaceFunctionCalls` (formula-engine.ts:413-460): the
first position carrying `[A-Z]+\(` with a balanced close; positions whose
parentheses are unbalanced are simply stepped past. -/
def findCall : Nat → Str → Option (Str × Str × Str × Str)
  | 0, _ => none
  | _, [] => none
  | fuel + 1, s@(c :: rest) =>
      let funcName := s.takeWhile isUpperA
      let matched : Option (Str × Str × Str) :=
        if funcName.isEmpty then none
        else
          match s.drop funcName.length with
          | '(' :: t =>
              match scanClose t 1 with
              | some (argsStr, after) => some (funcName, argsStr, after)
              | none => none
          | _ => none
      match matched with
      | some (funcName, argsStr, after) => some ([], funcName, argsStr, after)
      | none =>
          (findCall fuel rest).map (fun (pre, n, a, suf) => (c :: pre, n, a, suf))

/-- Find the first balanced `NAME(...)` call anywhere in `expr`:
`(prefix, name, argsText, suffix)`. -/
def findFirstCall (expr : Str) : Option (Str × Str × Str × Str) :=
  findCall expr.length expr

/-! ## The host oracle

Host-library calls whose IEEE/calendar behaviour the engine simply
inherits (`Math.sqrt`, fractional exponents in `Math.pow`/`**`, and the
`Date` library used by the date functions) are abstracted as an oracle;
every general theorem quantifies over it. -/

structure Host where
  /-- `Math.sqrt` on an arbitrary number. -/
  sqrtFn : JNum → JNum
  /-- `Math.pow`/`**` when the exponent is finite but not an integer. -/
  powFracFn : JNum → JNum → JNum
  /-- `Math.floor((today@00:00 − 1900-01-01) / 86400000)` for `TODAY()`. -/
  todayDays : Int
  /-- The same whole-day count at the instant `NOW()` is called. -/
  nowDays : Int
  /-- `(hours*3600 + minutes*60 + seconds) / 86400` at that instant. -/
  nowDayFrac : Q
  /-- `Math.floor((new Date(y, m-1, d) − 1900-01-01) / 86400000)`. -/
  mkDateDays : JNum → JNum → JNum → JNum
  /-- `new Date(1900, 0, serial - 1).getFullYear()`. -/
  serialToYear : JNum → JNum
  /-- `new Date(1900, 0, serial - 1).getMonth() + 1`. -/
  serialToMonth : JNum → JNum
  /-- `new Date(1900, 0, serial - 1).getDate()`. -/
  serialToDay : JNum → JNum

/-- A trivial concrete oracle (used only to instantiate witnesses whose
evaluations never reach an oracle call). -/
def host0 : Host :=
  ⟨fun _ => .nan, fun _ _ => .nan, 0, 0, ⟨0, 1⟩,
   fun _ _ _ => .nan, fun _ => .nan, fun _ => .nan, fun _ => .nan⟩

/-- JS exponentiation (`**` and `Math.pow`).  Exact for integer exponents;
fractional finite exponents defer to the host oracle. -/
def jsPow (host : Host) (a b : JNum) : JNum :=
  match b with
  | .fin e =>
      if qEq e 0 then .fin 1          -- x ** 0 === 1, even for NaN x
      else
        match a with
        | .nan => .nan
        | .inf => if qLt 0 e then .inf else .fin 0
        | .negInf =>
            if qLt 0 e then (if qIsInt e && qToInt e % 2 == 1 then .negInf else .inf)
            else .fin 0
        | .fin x =>
            if qIsInt e then
              let n := qToInt e
              if qEq x 0 && n < 0 then .inf
              else if qLt x 0 && n < 0 && x.num ^ (-n).toNat == 0 then .inf
              else .fin (qPowInt x n)
            else host.powFracFn a b
  | .inf =>
      match a with
      | .nan => .nan
      | _ =>
          let m := JNum.absJ a
          if JNum.eqJS m (.fin 1) then .nan
          else if JNum.lt m (.fin 1) then .fin 0 else .inf
  | .negInf =>
      match a with
      | .nan => .nan
      | _ =>
          let m := JNum.absJ a
          if JNum.eqJS m (.fin 1) then .nan
          else if JNum.lt m (.fin 1) then .inf else .fin 0
  | .nan => .nan

/-! ## The arithmetic evaluator (`evaluateArithmetic`)

`new Function('return ' + expr)()` runs the host's expression grammar over
what survives the sanitisation and the character whitelist
`[\d+\-*/.()$%, ]` (plus `**` from `^`).  That surviving grammar —
decimal literals, `+ - * / % **`, unary sign, parentheses and the comma
operator — is embedded as a tokenizer and recursive-descent parser with
JavaScript's precedence rules; any surviving `$` is an unresolved
identifier, i.e. an error.  `--`/`++` pairs are the JS increment tokens,
a syntax error in this grammar, as in the host. -/

inductive Tok where
  | num (q : Q)
  | plus | minus | star | slash | starStar | percent
  | lparen | rparen | comma
deriving DecidableEq, Repr

/-- Lex a numeric literal: `\d+(\.\d*)?` or `\.\d+`. -/
def lexNumber (s : Str) : Option (Q × Str) :=
  let intDigits := s.takeWhile isDigitA
  let rest1 := s.drop intDigits.length
  match rest1 with
  | '.' :: t =>
      let fracDigits := t.takeWhile isDigitA
      if intDigits.isEmpty && fracDigits.isEmpty then none
      else some (qAdd (qOfInt (digitsToNat intDigits))
                   (qMk (digitsToNat fracDigits) ((10 : Int) ^ fracDigits.length)),
                 t.drop fracDigits.length)
  | _ =>
      if intDigits.isEmpty then none
      else some (qOfInt (digitsToNat intDigits), rest1)

def lexTokens : Nat → Str → Except Err (List Tok)
  | 0, _ => .error .fuelOut
  | _, [] => .ok []
  | fuel + 1, s@(c :: rest) =>
      if isDigitA c || c == '.' then
        match lexNumber s with
        | some (q, after) => (lexTokens fuel after).map (fun ts => .num q :: ts)
        | none => .error .thrown
      else if c == '+' then
        match rest with
        | '+' :: _ => .error .thrown      -- `++`
        | _ => (lexTokens fuel rest).map (fun ts => .plus :: ts)
      else if c == '-' then
        match rest with
        | '-' :: _ => .error .thrown      -- `--`
        | _ => (lexTokens fuel rest).map (fun ts => .minus :: ts)
      else if c == '*' then
        match rest with
        | '*' :: rest2 => (lexTokens fuel rest2).map (fun ts => .starStar :: ts)
        | _ => (lexTokens fuel rest).map (fun ts => .star :: ts)
      else if c == '/' then (lexTokens fuel rest).map (fun ts => .slash :: ts)
      else if c == '%' then (lexTokens fuel rest).map (fun ts => .percent :: ts)
      else if c == '(' then (lexTokens fuel rest).map (fun ts => .lparen :: ts)
      else if c == ')' then (lexTokens fuel rest).map (fun ts => .rparen :: ts)
      else if c == ',' then (lexTokens fuel rest).map (fun ts => .comma :: ts)
      else if c == ' ' then lexTokens fuel rest
      else .error .thrown                 -- `$` (unresolved identifier) or anything else

/-- Grammar level of the expression parser (defunctionalised so that the
whole parser is a single fuel-indexed structural recursion, hence
kernel-computable). -/
inductive PMode where
  | commaSeq
  | commaMore (v : JNum)
  | addSub
  | addMore (v : JNum)
  | mulDiv
  | mulMore (v : JNum)
  | expo
  | unary
  | primary
deriving Repr

/-- The recursive-descent parser/evaluator for the surviving JS expression
grammar.  Precedence: comma < additive < multiplicative (`* / %`) <
exponent (`**`, right-associative, refusing an unparenthesised unary left
operand) < unary sign < primary. -/
def parseLvl (host : Host) : Nat → PMode → List Tok → Except Err (JNum × List Tok)
  | 0, _, _ => .error .fuelOut
  | fuel + 1, mode, ts =>
      match mode with
      | .commaSeq => do
          let (v, ts1) ← parseLvl host fuel .addSub ts
          parseLvl host fuel (.commaMore v) ts1
      | .commaMore v =>
          (match ts with
           | .comma :: rest => do
               let (v2, ts2) ← parseLvl host fuel .addSub rest
               parseLvl host fuel (.commaMore v2) ts2
           | _ => .ok (v, ts))
      | .addSub => do
          let (v, ts1) ← parseLvl host fuel .mulDiv ts
          parseLvl host fuel (.addMore v) ts1
      | .addMore v =>
          (match ts with
           | .plus :: rest => do
               let (v2, ts2) ← parseLvl host fuel .mulDiv rest
               parseLvl host fuel (.addMore (JNum.add v v2)) ts2
           | .minus :: rest => do
               let (v2, ts2) ← parseLvl host fuel .mulDiv rest
               parseLvl host fuel (.addMore (JNum.sub v v2)) ts2
           | _ => .ok (v, ts))
      | .mulDiv => do
          let (v, ts1) ← parseLvl host fuel .expo ts
          parseLvl host fuel (.mulMore v) ts1
      | .mulMore v =>
          (match ts with
           | .star :: rest => do
               let (v2, ts2) ← parseLvl host fuel .expo rest
               parseLvl host fuel (.mulMore (JNum.mul v v2)) ts2
           | .slash :: rest => do
               let (v2, ts2) ← parseLvl host fuel .expo rest
               parseLvl host fuel (.mulMore (JNum.div v v2)) ts2
           | .percent :: rest => do
               let (v2, ts2) ← parseLvl host fuel .expo rest
               parseLvl host fuel (.mulMore (JNum.mod v v2)) ts2
           | _ => .ok (v, ts))
      | .expo =>
          (match ts with
           | .plus :: _ | .minus :: _ => do
               let (v, ts1) ← parseLvl host fuel .unary ts
               (match ts1 with
                | .starStar :: _ => .error .thrown   -- `-x ** y` is a SyntaxError
                | _ => .ok (v, ts1))
           | _ => do
               let (p, ts1) ← parseLvl host fuel .primary ts
               (match ts1 with
                | .starStar :: rest => do
                    let (rhs, ts2) ← parseLvl host fuel .expo rest
                    .ok (jsPow host p rhs, ts2)
                | _ => .ok (p, ts1)))
      | .unary =>
          (match ts with
           | .plus :: rest => parseLvl host fuel .unary rest
           | .minus :: rest => do
               let (v, ts1) ← parseLvl host fuel .unary rest
               .ok (JNum.neg v, ts1)
           | _ => parseLvl host fuel .primary ts)
      | .primary =>
          (match ts with
           | .num q :: rest => .ok (.fin q, rest)
           | .lparen :: rest => do
               let (v, ts1) ← parseLvl host fuel .commaSeq rest
               (match ts1 with
                | .rparen :: ts2 => .ok (v, ts2)
                | _ => .error .thrown)
           | _ => .error .thrown)

/-- `new Function('return ' + expr)()` on the sanitised text: lex, parse
the full token list, and require every token to be consumed. -/
def jsEvalStr (host : Host) (s : Str) : Except Err JNum := do
  let ts ← lexTokens (s.length + 1) s
  let (v, rest) ← parseLvl host (8 * ts.length + 16) .commaSeq ts
  if rest.isEmpty then .ok v else .error .thrown

/-- `/^-?\d+(\.\d+)?$/` -/
def isPlainNumber (s : Str) : Bool :=
  let t := match s with | '-' :: r => r | r => r
  let ds := t.takeWhile isDigitA
  if ds.isEmpty then false
  else
    match t.drop ds.length with
    | [] => true
    | '.' :: u => !(u.takeWhile isDigitA).isEmpty && (u.dropWhile isDigitA).isEmpty
    | _ => false

/-- `/^\d+(\.\d+)?$/` (no sign). -/
def isUnsignedNumber (s : Str) : Bool :=
  let ds := s.takeWhile isDigitA
  if ds.isEmpty then false
  else
    match s.drop ds.length with
    | [] => true
    | '.' :: u => !(u.takeWhile isDigitA).isEmpty && (u.dropWhile isDigitA).isEmpty
    | _ => false

/-- `expr.replace(/\$([0-9,]+(\.\d+)?)/g, m => digitsWithoutCommas)`:
currency markers collapse to plain numerals.  (The anchored variant on the
next source line can never fire after this global pass and is omitted.) -/
def currencyReplace : Nat → Str → Str
  | 0, s => s
  | _, [] => []
  | fuel + 1, c :: rest =>
      if c == '$' then
        let run := rest.takeWhile (fun d => isDigitA d || d == ',')
        if run.isEmpty then c :: currencyReplace fuel rest
        else
          let afterRun := rest.drop run.length
          let (frac, after) :=
            match afterRun with
            | '.' :: t =>
                let ds := t.takeWhile isDigitA
                if ds.isEmpty then (([] : Str), afterRun)
                else ('.' :: ds, t.drop ds.length)
            | _ => ([], afterRun)
          (run.filter (fun d => !(d == ','))) ++ frac ++ currencyReplace fuel after
      else c :: currencyReplace fuel rest

/-- `expr.replace(/(\d+(\.\d+)?)\s*%/g, m => String(parseFloat(m)/100))`
(whitespace is already gone).  (Its anchored sibling is likewise dead.) -/
def percentReplace : Nat → Str → Str
  | 0, s => s
  | _, [] => []
  | fuel + 1, c :: rest =>
      if isDigitA c then
        let intRun := c :: rest.takeWhile isDigitA
        let afterInt := rest.drop (intRun.length - 1)
        let (numTxt, after) :=
          match afterInt with
          | '.' :: t =>
              let ds := t.takeWhile isDigitA
              if ds.isEmpty then (intRun, afterInt)
              else (intRun ++ '.' :: ds, t.drop ds.length)
          | _ => (intRun, afterInt)
        match after with
        | '%' :: tail =>
            numToStr (JNum.div (jsParseFloat numTxt) (.fin ⟨100, 1⟩)) ++
              percentReplace fuel tail
        | _ => c :: percentReplace fuel rest
      else c :: percentReplace fuel rest

/-- `expr.replace(/\^/g, '**')`. -/
def caretReplace (s : Str) : Str :=
  s.flatMap (fun c => if c == '^' then ['*', '*'] else [c])

/-- The whitelist `/^[\d+\-*\/.()$%, ]*$/` (post-`**` text re-checks the
same class since `*` is listed). -/
def validArithChar (c : Char) : Bool :=
  isDigitA c || c == '+' || c == '-' || c == '*' || c == '/' || c == '.' ||
    c == '(' || c == ')' || c == '$' || c == '%' || c == ',' || c == ' '

/-- The explicit parenthesis-balance scan (depth below zero fails at
once; nonzero at the end fails). -/
def parensBalanced : Str → Int → Bool
  | [], depth => depth == 0
  | c :: rest, depth =>
      let depth' := if c == '(' then depth + 1 else if c == ')' then depth - 1 else depth
      if depth' < 0 then false else parensBalanced rest depth'

/-- `evaluateArithmetic` (formula-engine.ts:498): strip whitespace, pass
plain numbers straight through, sanitise currency/percent/`^`, whitelist
the characters, check parenthesis balance, evaluate, and classify the
result (`±Infinity` → `#DIV/0!`, other non-finite → `#NUM!`). -/
def evaluateArithmetic (host : Host) (expr0 : Str) : Value :=
  let expr := expr0.filter (fun c => !isWsChar c)
  if isPlainNumber expr then .num (jsParseFloat expr)
  else if expr.isEmpty then .num (.fin 0)
  else
    let expr := currencyReplace expr.length expr
    let expr := percentReplace expr.length expr
    let expr := caretReplace expr
    if !(expr.all validArithChar) then .str (txt "#ERROR!")
    else if !(parensBalanced expr 0) then .str (txt "#ERROR!")
    else
      match jsEvalStr host expr with
      | .error _ => .str (txt "#ERROR!")
      | .ok result =>
          if !result.isFinite then
            if result == .inf || result == .negInf then .str (txt "#DIV/0!")
            else .str (txt "#NUM!")
          else .num result

/-! ## The evaluation monad

State is the engine's shared `evaluatingCells` set (insertion-ordered, as
a JS `Set` is), or `none` when the parameter is `undefined`.  A result is
either a value or an exception, and the state survives exceptions, exactly
as mutation through a reference does. -/

abbrev St := Option (List Str)

def EvalM (α : Type) : Type := St → Except Err α × St

instance : Monad EvalM where
  pure a := fun s => (.ok a, s)
  bind m k := fun s =>
    match m s with
    | (.ok a, s1) => k a s1
    | (.error e, s1) => (.error e, s1)

def throwJS {α : Type} : EvalM α := fun s => (.error .thrown, s)

def throwFuel {α : Type} : EvalM α := fun s => (.error .fuelOut, s)

/-- `try { m } catch { handler }`: a JS `catch` sees only real exceptions,
never the embedding's fuel marker. -/
def jsTry {α : Type} (m handler : EvalM α) : EvalM α := fun s =>
  match m s with
  | (.error .thrown, s1) => handler s1
  | r => r

/-- Run a computation and reify its outcome (used where the source wants
to branch on success/throw while keeping later mutations). -/
def attempt {α : Type} (m : EvalM α) : EvalM (Except Err α) := fun s =>
  let r := m s
  (.ok r.1, r.2)

def getSt : EvalM St := fun s => (.ok s, s)

def setSt (s1 : St) : EvalM Unit := fun _ => (.ok (), s1)

/-- Call a function passing a *different* `evaluatingCells` argument (in
particular `none` when the source omits the argument); the caller's own
set is untouched by whatever the callee does. -/
def withSt {α : Type} (tmp : St) (m : EvalM α) : EvalM α := fun s => ((m tmp).1, s)

def liftEx {α : Type} : Except Err α → EvalM α
  | .ok a => pure a
  | .error e => fun s => (.error e, s)

/-- The three entry points that can re-enter one another with no
structurally decreasing argument; the fuelled interpreter `exec` ties the
knot over this type. -/
inductive Call where
  | formula (f sheetId : Str)
  | expr (e sheetId : Str)
  | rfc (e sheetId : Str)

/-- Shorthands for recursive entry (`recur` is the interpreter at smaller
fuel). -/
def recExpr (recur : Call → EvalM Value) (e sheetId : Str) : EvalM Value :=
  recur (.expr e sheetId)

def recFormula (recur : Call → EvalM Value) (f sheetId : Str) : EvalM Value :=
  recur (.formula f sheetId)

/-- The `rfc` call always produces a string (see `exec`); the fallback
alternative is unreachable. -/
def recRfcStr (recur : Call → EvalM Value) (e sheetId : Str) : EvalM Str := do
  match (← recur (.rfc e sheetId)) with
  | .str s => pure s
  | _ => pure []

/-! ## `getCellValue` and `getCellValues` -/

/-- `getCellValue` (formula-engine.ts:110).  Resolution order is the
source's: parse the reference, find the sheet (else 0), find the cell
(else 0), then the circular-reference guard, then formula evaluation with
the key held in the set (removed again on both the success and the caught
path), else the literal value with falsy values collapsing to 0; any
thrown error inside is caught to 0. -/
def getCellValueCore (wb : Workbook) (recur : Call → EvalM Value)
    (sheetId cellRef : Str) : EvalM Value :=
  jsTry
    (do
      let rc ← liftEx (cellToIndices cellRef)
      match wb.sheets.find? (fun s => s.id == sheetId) with
      | none => pure (.num (.fin 0))
      | some sheet =>
        match cellAt sheet.data rc.1 rc.2 with
        | none => pure (.num (.fin 0))
        | some cell => do
          let cellKey := sheetId ++ ':' :: cellRef
          let os ← getSt
          let cells := os.getD []
          if cellKey ∈ cells then
            pure (.str (txt "#CIRCULAR!"))
          else
            match cell.formula with
            | some f => do
                setSt (some (cells ++ [cellKey]))
                let r ← attempt (recFormula recur f sheetId)
                let os2 ← getSt
                let cells2 := (os2.getD []).erase cellKey
                setSt (os.map (fun _ => cells2))
                (match r with
                 | .ok result => pure result
                 | .error .thrown => pure (.str (txt "#ERROR!"))
                 | .error .fuelOut => throwFuel)
            | none => pure (truthyOr0 cell.value))
    (pure (.num (.fin 0)))

/-- The row-major cell walk of `getCellValues` (formula-engine.ts:81-105):
formula cells are re-evaluated (with an omitted, i.e. fresh, set; a throw
falls back to the stored value); numbers are kept, strings only when
`parseFloat` succeeds. -/
def getCellValuesLoop (recur : Call → EvalM Value) (sheet : Sheet)
    (sheetId : Str) : List (Int × Int) → EvalM (List JNum)
  | [] => pure []
  | (row, col) :: rest => do
      match cellAt sheet.data row col with
      | none => getCellValuesLoop recur sheet sheetId rest
      | some cell => do
          let cellValue ←
            match cell.formula with
            | some f => jsTry (withSt none (recFormula recur f sheetId)) (pure cell.value)
            | none => pure cell.value
          let restVals ← getCellValuesLoop recur sheet sheetId rest
          match cellValue with
          | .num x => pure (x :: restVals)
          | .str str =>
              let n := jsParseFloat str
              if n.isNaN then pure restVals else pure (n :: restVals)
          | _ => pure restVals

/-- `getCellValues` (formula-engine.ts:76). -/
def getCellValues (wb : Workbook) (recur : Call → EvalM Value)
    (sheetId : Str) (range : RangeT) : EvalM (List JNum) :=
  match wb.sheets.find? (fun s => s.id == sheetId) with
  | none => pure []
  | some sheet =>
      getCellValuesLoop recur sheet sheetId
        ((idxRange range.startRow range.endRow).flatMap
          (fun r => (idxRange range.startCol range.endCol).map (fun c => (r, c))))

/-! ## Conditions (`evaluateCondition`) -/

/-- The comparison operators, in the source's trial order. -/
def comparisonOps : List Str :=
  [txt ">=", txt "<=", txt "<>", txt "!=", txt "=", txt ">", txt "<"]

/-- Apply one comparison operator to two evaluated sides. -/
def applyCmp (op : Str) (left right : Value) : Bool :=
  if op = txt ">=" then JNum.ge (toNumber left) (toNumber right)
  else if op = txt "<=" then JNum.le (toNumber left) (toNumber right)
  else if op = txt "<>" || op = txt "!=" then !(jsStrictEq left right)
  else if op = txt "=" then jsStrictEq left right
  else if op = txt ">" then JNum.gt (toNumber left) (toNumber right)
  else if op = txt "<" then JNum.lt (toNumber left) (toNumber right)
  else false

/-- The operator-trial loop of `evaluateCondition` (formula-engine.ts:879):
the first operator that occurs *and* splits the text into exactly two
pieces decides; an error on either side compares as `false`. -/
def condOpLoop (recur : Call → EvalM Value) (expr sheetId : Str) :
    List Str → EvalM (Option Bool)
  | [] => pure none
  | op :: restOps =>
      if strContainsSub expr op then
        let parts := splitOnSub expr op
        if parts.length == 2 then do
          let left ← recExpr recur (strTrim (parts.getD 0 [])) sheetId
          let right ← recExpr recur (strTrim (parts.getD 1 [])) sheetId
          if isErrStr left || isErrStr right then pure (some false)
          else pure (some (applyCmp op left right))
        else condOpLoop recur expr sheetId restOps
      else condOpLoop recur expr sheetId restOps

/-- `evaluateCondition`: comparison if possible, else plain truthiness
(errors are falsy). -/
def evaluateCondition (recur : Call → EvalM Value) (expr sheetId : Str) :
    EvalM Bool := do
  match ← condOpLoop recur expr sheetId comparisonOps with
  | some b => pure b
  | none => do
      let result ← recExpr recur expr sheetId
      if isErrStr result then pure false else pure (truthy result)

/-! ## Function library: statistical -/

/-- `arg.match(/[A-Z]+\d+/)`: an unanchored cell-reference shape, i.e.
some uppercase letter immediately followed by a digit. -/
def hasCellRefSub (s : Str) : Bool :=
  (s.zip (s.drop 1)).any (fun p => isUpperA p.1 && isDigitA p.2)

/-- Argument resolution shared by the aggregate loops: a cell-shaped
argument goes through `getCellValue` (with the set argument omitted),
anything else through `parseFloat`. -/
def aggArgValue (wb : Workbook) (recur : Call → EvalM Value)
    (sheetId arg : Str) : EvalM Value :=
  if hasCellRefSub arg then withSt none (getCellValueCore wb recur sheetId arg)
  else pure (.num (jsParseFloat arg))

/-- `sumFunction` (formula-engine.ts:733). -/
def sumLoop (wb : Workbook) (recur : Call → EvalM Value) (sheetId : Str) :
    List Str → JNum → EvalM JNum
  | [], acc => pure acc
  | arg :: rest, acc =>
      if arg.contains ':' then do
        let range ← liftEx (parseRange arg)
        let values ← getCellValues wb recur sheetId range
        sumLoop wb recur sheetId rest (JNum.add acc (values.foldl JNum.add (.fin 0)))
      else do
        let value ← aggArgValue wb recur sheetId arg
        sumLoop wb recur sheetId rest (JNum.add acc (toNumber value))

def sumFunction (wb : Workbook) (recur : Call → EvalM Value)
    (args : List Str) (sheetId : Str) : EvalM Value := do
  let s ← sumLoop wb recur sheetId args (.fin 0)
  pure (.num s)

/-- `averageFunction` (formula-engine.ts:750). -/
def averageLoop (wb : Workbook) (recur : Call → EvalM Value) (sheetId : Str) :
    List Str → JNum → Nat → EvalM (JNum × Nat)
  | [], acc, count => pure (acc, count)
  | arg :: rest, acc, count =>
      if arg.contains ':' then do
        let range ← liftEx (parseRange arg)
        let values ← getCellValues wb recur sheetId range
        averageLoop wb recur sheetId rest
          (JNum.add acc (values.foldl JNum.add (.fin 0))) (count + values.length)
      else do
        let value ← aggArgValue wb recur sheetId arg
        if !(toNumber value).isNaN then
          averageLoop wb recur sheetId rest (JNum.add acc (toNumber value)) (count + 1)
        else
          averageLoop wb recur sheetId rest acc count

def averageFunction (wb : Workbook) (recur : Call → EvalM Value)
    (args : List Str) (sheetId : Str) : EvalM Value := do
  let (s, count) ← averageLoop wb recur sheetId args (.fin 0) 0
  pure (.num (if count > 0 then JNum.div s (.fin (qOfInt count)) else .fin 0))

/-- `countFunction` (formula-engine.ts:770). -/
def countLoop (wb : Workbook) (recur : Call → EvalM Value) (sheetId : Str) :
    List Str → Nat → EvalM Nat
  | [], count => pure count
  | arg :: rest, count =>
      if arg.contains ':' then do
        let range ← liftEx (parseRange arg)
        let values ← getCellValues wb recur sheetId range
        countLoop wb recur sheetId rest (count + values.length)
      else do
        let value ← aggArgValue wb recur sheetId arg
        countLoop wb recur sheetId rest (if !(toNumber value).isNaN then count + 1 else count)

def countFunction (wb : Workbook) (recur : Call → EvalM Value)
    (args : List Str) (sheetId : Str) : EvalM Value := do
  let count ← countLoop wb recur sheetId args 0
  pure (.num (.fin (qOfInt count)))

/-- Is a (possibly missing) stored value non-null, non-undefined and not
`""`?  (`countA`'s cell test.) -/
def countableA : Option Value → Bool
  | none => false
  | some .null => false
  | some (.str []) => false
  | some _ => true

/-- `countAFunction` (formula-engine.ts:784): range arguments scan raw
stored values; scalar arguments count the *string* itself unless it is
cell-shaped, in which case the resolved value is tested. -/
def countALoop (wb : Workbook) (recur : Call → EvalM Value) (sheetId : Str) :
    List Str → Nat → EvalM Nat
  | [], count => pure count
  | arg :: rest, count =>
      if arg.contains ':' then do
        let range ← liftEx (parseRange arg)
        match wb.sheets.find? (fun s => s.id == sheetId) with
        | none => countALoop wb recur sheetId rest count
        | some sheet =>
            let cells := (idxRange range.startRow range.endRow).flatMap
              (fun r => (idxRange range.startCol range.endCol).map (fun c => (r, c)))
            let add := (cells.filter
              (fun rc => countableA ((cellAt sheet.data rc.1 rc.2).map Cell.value))).length
            countALoop wb recur sheetId rest (count + add)
      else do
        let value ←
          if hasCellRefSub arg then withSt none (getCellValueCore wb recur sheetId arg)
          else pure (.str arg)
        countALoop wb recur sheetId rest (if countableA (some value) then count + 1 else count)

def countAFunction (wb : Workbook) (recur : Call → EvalM Value)
    (args : List Str) (sheetId : Str) : EvalM Value := do
  let count ← countALoop wb recur sheetId args 0
  pure (.num (.fin (qOfInt count)))

/-- `maxFunction` (formula-engine.ts:808). -/
def maxLoop (wb : Workbook) (recur : Call → EvalM Value) (sheetId : Str) :
    List Str → JNum → EvalM JNum
  | [], acc => pure acc
  | arg :: rest, acc =>
      if arg.contains ':' then do
        let range ← liftEx (parseRange arg)
        let values ← getCellValues wb recur sheetId range
        if values.length > 0 then
          maxLoop wb recur sheetId rest (JNum.maxJ acc (values.foldl JNum.maxJ .negInf))
        else maxLoop wb recur sheetId rest acc
      else do
        let value ← aggArgValue wb recur sheetId arg
        maxLoop wb recur sheetId rest (JNum.maxJ acc (toNumber value))

def maxFunction (wb : Workbook) (recur : Call → EvalM Value)
    (args : List Str) (sheetId : Str) : EvalM Value := do
  let m ← maxLoop wb recur sheetId args .negInf
  pure (.num (if JNum.eqJS m .negInf then .fin 0 else m))

/-- `minFunction` (formula-engine.ts:825). -/
def minLoop (wb : Workbook) (recur : Call → EvalM Value) (sheetId : Str) :
    List Str → JNum → EvalM JNum
  | [], acc => pure acc
  | arg :: rest, acc =>
      if arg.contains ':' then do
        let range ← liftEx (parseRange arg)
        let values ← getCellValues wb recur sheetId range
        if values.length > 0 then
          minLoop wb recur sheetId rest (JNum.minJ acc (values.foldl JNum.minJ .inf))
        else minLoop wb recur sheetId rest acc
      else do
        let value ← aggArgValue wb recur sheetId arg
        minLoop wb recur sheetId rest (JNum.minJ acc (toNumber value))

def minFunction (wb : Workbook) (recur : Call → EvalM Value)
    (args : List Str) (sheetId : Str) : EvalM Value := do
  let m ← minLoop wb recur sheetId args .inf
  pure (.num (if JNum.eqJS m .inf then .fin 0 else m))

/-- The value-collection loop of `stdevFunction` (formula-engine.ts:843):
ranges append their numeric cells, scalars append when numeric. -/
def stdevCollect (wb : Workbook) (recur : Call → EvalM Value) (sheetId : Str) :
    List Str → List JNum → EvalM (List JNum)
  | [], acc => pure acc
  | arg :: rest, acc =>
      if arg.contains ':' then do
        let range ← liftEx (parseRange arg)
        let values ← getCellValues wb recur sheetId range
        stdevCollect wb recur sheetId rest (acc ++ values)
      else do
        let value ← aggArgValue wb recur sheetId arg
        if !(toNumber value).isNaN then
          stdevCollect wb recur sheetId rest (acc ++ [toNumber value])
        else stdevCollect wb recur sheetId rest acc

/-- `stdevFunction` (formula-engine.ts:842): sample formula, 0 under two
values, `Math.sqrt` at the end (host oracle). -/
def stdevFunction (host : Host) (wb : Workbook) (recur : Call → EvalM Value)
    (args : List Str) (sheetId : Str) : EvalM Value := do
  let values ← stdevCollect wb recur sheetId args []
  if values.length < 2 then pure (.num (.fin 0))
  else
    let mean := JNum.div (values.foldl JNum.add (.fin 0)) (.fin (qOfInt values.length))
    let variance := JNum.div
      (values.foldl (fun a b => JNum.add a (jsPow host (JNum.sub b mean) (.fin 2))) (.fin 0))
      (.fin (qOfInt (values.length - 1)))
    pure (.num (host.sqrtFn variance))

/-- `varFunction` (formula-engine.ts:861): literally `stdev * stdev`. -/
def varFunction (host : Host) (wb : Workbook) (recur : Call → EvalM Value)
    (args : List Str) (sheetId : Str) : EvalM Value := do
  let sd ← stdevFunction host wb recur args sheetId
  match sd with
  | .num x => pure (.num (JNum.mul x x))
  | v => pure v

/-! ## Function library: logical -/

/-- `ifFunction` (formula-engine.ts:868).  Note that both branch
arguments are evaluated before the selection. -/
def ifFunction (recur : Call → EvalM Value)
    (args : List Str) (sheetId : Str) : EvalM Value := do
  if args.length < 2 then throwJS
  else do
    let condition ← evaluateCondition recur (args.getD 0 []) sheetId
    let trueValue ←
      if !(args.getD 1 []).isEmpty then recExpr recur (args.getD 1 []) sheetId
      else pure (.bool true)
    let falseValue ←
      if !(args.getD 2 []).isEmpty then recExpr recur (args.getD 2 []) sheetId
      else pure (.bool false)
    pure (if condition then trueValue else falseValue)

/-- `andFunction` (formula-engine.ts:920): stop at the first falsy value. -/
def andLoop (recur : Call → EvalM Value) (sheetId : Str) : List Str → EvalM Bool
  | [] => pure true
  | arg :: rest => do
      let value ← recExpr recur arg sheetId
      if !(truthy value) then pure false else andLoop recur sheetId rest

def andFunction (recur : Call → EvalM Value)
    (args : List Str) (sheetId : Str) : EvalM Value := do
  let b ← andLoop recur sheetId args
  pure (.bool b)

/-- `orFunction` (formula-engine.ts:928): stop at the first truthy value. -/
def orLoop (recur : Call → EvalM Value) (sheetId : Str) : List Str → EvalM Bool
  | [] => pure false
  | arg :: rest => do
      let value ← recExpr recur arg sheetId
      if truthy value then pure true else orLoop recur sheetId rest

def orFunction (recur : Call → EvalM Value)
    (args : List Str) (sheetId : Str) : EvalM Value := do
  let b ← orLoop recur sheetId args
  pure (.bool b)

/-- `notFunction` (formula-engine.ts:936). -/
def notFunction (recur : Call → EvalM Value)
    (args : List Str) (sheetId : Str) : EvalM Value := do
  if args.length != 1 then throwJS
  else do
    let value ← recExpr recur (args.getD 0 []) sheetId
    pure (.bool (!(truthy value)))

/-! ## Function library: lookup -/

/-- Index a row with a JS number (fractional/NaN subscripts read as
`undefined`). -/
def cellAtJ (data : List (List Cell)) (row : Int) (col : JNum) : Option Cell :=
  match col with
  | .fin q => if qIsInt q then cellAt data row (qToInt q) else none
  | _ => none

/-- `value || ""` over a possibly missing cell value. -/
def valueOrEmpty : Option Value → Value
  | none => .str []
  | some v => truthyOrEmpty v

/-- The row scan of `vlookupFunction` (formula-engine.ts:956): raw stored
values in the first column, strict equality or (without the exact flag) a
case-insensitive substring test; on a hit inside the column bound, the
target's raw value (`|| ""`), otherwise keep scanning; `#N/A` at the end. -/
def vlookupScan (sheet : Sheet) (tableRange : RangeT) (lookupValue : Value)
    (colIndex : JNum) (exactMatch : Value) : List Int → Value
  | [] => .str (txt "#N/A")
  | row :: rest =>
      let cellValue := (cellAt sheet.data row tableRange.startCol).map Cell.value
      if jsStrictEqO cellValue lookupValue ||
          (!(truthy exactMatch) &&
            strContainsSub (toLowerStr (toStringO cellValue))
              (toLowerStr (toStringJS lookupValue))) then
        let returnCol := JNum.add (.fin (qOfInt tableRange.startCol)) colIndex
        if JNum.le returnCol (.fin (qOfInt tableRange.endCol)) then
          valueOrEmpty ((cellAtJ sheet.data row returnCol).map Cell.value)
        else vlookupScan sheet tableRange lookupValue colIndex exactMatch rest
      else vlookupScan sheet tableRange lookupValue colIndex exactMatch rest

/-- `vlookupFunction` (formula-engine.ts:944). -/
def vlookupFunction (wb : Workbook) (recur : Call → EvalM Value)
    (args : List Str) (sheetId : Str) : EvalM Value := do
  if args.length < 3 then throwJS
  else do
    let lookupValue ← withSt none (recExpr recur (args.getD 0 []) sheetId)
    let tableRange ← liftEx (parseRange (args.getD 1 []))
    let colIndex := JNum.sub (jsParseInt (args.getD 2 [])) (.fin 1)
    let exactMatch ←
      if !(args.getD 3 []).isEmpty then withSt none (recExpr recur (args.getD 3 []) sheetId)
      else pure (.bool false)
    match wb.sheets.find? (fun s => s.id == sheetId) with
    | none => pure (.str (txt "#N/A"))
    | some sheet =>
        pure (vlookupScan sheet tableRange lookupValue colIndex exactMatch
          (idxRange tableRange.startRow tableRange.endRow))

/-- The column scan of `hlookupFunction` (formula-engine.ts:981). -/
def hlookupScan (sheet : Sheet) (tableRange : RangeT) (lookupValue : Value)
    (rowIndex : JNum) (exactMatch : Value) : List Int → Value
  | [] => .str (txt "#N/A")
  | col :: rest =>
      let cellValue := (cellAt sheet.data tableRange.startRow col).map Cell.value
      if jsStrictEqO cellValue lookupValue ||
          (!(truthy exactMatch) &&
            strContainsSub (toLowerStr (toStringO cellValue))
              (toLowerStr (toStringJS lookupValue))) then
        let returnRow := JNum.add (.fin (qOfInt tableRange.startRow)) rowIndex
        if JNum.le returnRow (.fin (qOfInt tableRange.endRow)) then
          (match returnRow with
           | .fin q =>
               if qIsInt q then
                 valueOrEmpty ((cellAt sheet.data (qToInt q) col).map Cell.value)
               else .str []
           | _ => .str [])
        else hlookupScan sheet tableRange lookupValue rowIndex exactMatch rest
      else hlookupScan sheet tableRange lookupValue rowIndex exactMatch rest

/-- `hlookupFunction` (formula-engine.ts:969). -/
def hlookupFunction (wb : Workbook) (recur : Call → EvalM Value)
    (args : List Str) (sheetId : Str) : EvalM Value := do
  if args.length < 3 then throwJS
  else do
    let lookupValue ← withSt none (recExpr recur (args.getD 0 []) sheetId)
    let tableRange ← liftEx (parseRange (args.getD 1 []))
    let rowIndex := JNum.sub (jsParseInt (args.getD 2 [])) (.fin 1)
    let exactMatch ←
      if !(args.getD 3 []).isEmpty then withSt none (recExpr recur (args.getD 3 []) sheetId)
      else pure (.bool false)
    match wb.sheets.find? (fun s => s.id == sheetId) with
    | none => pure (.str (txt "#N/A"))
    | some sheet =>
        pure (hlookupScan sheet tableRange lookupValue rowIndex exactMatch
          (idxRange tableRange.startCol tableRange.endCol))

/-- `indexFunction` (formula-engine.ts:994): 1-based offsets into the
range; negative offsets and out-of-range targets give `#REF!`; a formula
in the target cell is evaluated (set argument omitted); everything is
inside a `try` that yields `#REF!`. -/
def indexFunction (wb : Workbook) (recur : Call → EvalM Value)
    (args : List Str) (sheetId : Str) : EvalM Value := do
  if args.length < 2 then throwJS
  else
    jsTry
      (do
        let range ← liftEx (parseRange (args.getD 0 []))
        let rowNumResult ← withSt none (recExpr recur (args.getD 1 []) sheetId)
        if isErrStr rowNumResult then pure rowNumResult
        else do
          let rowNum := JNum.sub (toNumber rowNumResult) (.fin 1)
          let colNum ←
            if !(args.getD 2 []).isEmpty then do
              let c ← withSt none (recExpr recur (args.getD 2 []) sheetId)
              pure (JNum.sub (toNumber c) (.fin 1))
            else pure (JNum.fin 0)
          match wb.sheets.find? (fun s => s.id == sheetId) with
          | none => pure (.str (txt "#REF!"))
          | some sheet =>
              if JNum.lt rowNum (.fin 0) || JNum.lt colNum (.fin 0) then
                pure (.str (txt "#REF!"))
              else
                let targetRow := JNum.add (.fin (qOfInt range.startRow)) rowNum
                let targetCol := JNum.add (.fin (qOfInt range.startCol)) colNum
                if JNum.le targetRow (.fin (qOfInt range.endRow)) &&
                    JNum.le targetCol (.fin (qOfInt range.endCol)) &&
                    JNum.ge targetRow (.fin (qOfInt range.startRow)) &&
                    JNum.ge targetCol (.fin (qOfInt range.startCol)) then
                  match targetRow with
                  | .fin qr =>
                      if qIsInt qr then
                        let cell := cellAtJ sheet.data (qToInt qr) targetCol
                        match cell.bind Cell.formula with
                        | some f => withSt none (recFormula recur f sheetId)
                        | none => pure (valueOrEmpty (cell.map Cell.value))
                      else pure (valueOrEmpty none)
                  | _ => pure (valueOrEmpty none)
                else pure (.str (txt "#REF!")))
      (pure (.str (txt "#REF!")))

/-- `matchFunction`'s inner `getEvaluatedCellValue`
(formula-engine.ts:1056). -/
def getEvaluatedCellValue (recur : Call → EvalM Value) (sheet : Sheet)
    (sheetId : Str) (row col : Int) : EvalM (Option Value) :=
  match cellAt sheet.data row col with
  | none => pure none
  | some cell =>
      match cell.formula with
      | some f => do
          let v ← jsTry (withSt none (recFormula recur f sheetId)) (pure cell.value)
          pure (some v)
      | none => pure (some cell.value)

/-- `matchFunction`'s `valuesMatch` (formula-engine.ts:1069): strict
equality, then numeric comparison (`toNumber` maps almost everything to a
number, so two non-numeric strings compare `0 === 0`), then string
comparison. -/
def valuesMatch (cellVal : Option Value) (lookupVal : Value) : Bool :=
  if jsStrictEqO cellVal lookupVal then true
  else
    let cellNum := toNumberO cellVal
    let lookupNum := toNumber lookupVal
    if !cellNum.isNaN && !lookupNum.isNaN then JNum.eqJS cellNum lookupNum
    else toStringO cellVal == toStringJS lookupVal

/-- The scan of `matchFunction`: positions paired with their 1-based
answer. -/
def matchScan (recur : Call → EvalM Value) (sheet : Sheet) (sheetId : Str)
    (lookupValue : Value) : List ((Int × Int) × Int) → EvalM Value
  | [] => pure (.str (txt "#N/A"))
  | ((row, col), pos) :: rest => do
      let cellValue ← getEvaluatedCellValue recur sheet sheetId row col
      if valuesMatch cellValue lookupValue then pure (.num (.fin (qOfInt pos)))
      else matchScan recur sheet sheetId lookupValue rest

/-- `matchFunction` (formula-engine.ts:1038): errors in the lookup value
propagate; horizontal ranges scan the row, otherwise the first column is
scanned; all inside a `try` that yields `#N/A`. -/
def matchFunction (wb : Workbook) (recur : Call → EvalM Value)
    (args : List Str) (sheetId : Str) : EvalM Value := do
  if args.length < 2 then throwJS
  else
    jsTry
      (do
        let lookupValue ← withSt none (recExpr recur (args.getD 0 []) sheetId)
        if isErrStr lookupValue then pure lookupValue
        else do
          let range ← liftEx (parseRange (args.getD 1 []))
          match wb.sheets.find? (fun s => s.id == sheetId) with
          | none => pure (.str (txt "#N/A"))
          | some sheet =>
              let positions : List ((Int × Int) × Int) :=
                if range.startRow == range.endRow then
                  (idxRange range.startCol range.endCol).map
                    (fun col => ((range.startRow, col), (col - range.startCol + 1).toNat))
                else
                  (idxRange range.startRow range.endRow).map
                    (fun row => ((row, range.startCol), (row - range.startRow + 1).toNat))
              matchScan recur sheet sheetId lookupValue positions)
      (pure (.str (txt "#N/A")))

/-! ## Function library: financial -/

/-- The cash-flow loop of `npvFunction` (formula-engine.ts:1124):
`npv += values[i] / (1+rate)^i` for `i = 1, 2, …`. -/
def npvLoop (host : Host) (recur : Call → EvalM Value) (sheetId : Str)
    (rate : JNum) : List Str → Nat → JNum → EvalM JNum
  | [], _, acc => pure acc
  | arg :: rest, i, acc => do
      let value ← recExpr recur arg sheetId
      let term := JNum.div (toNumber value)
        (jsPow host (JNum.add (.fin 1) rate) (.fin (qOfInt i)))
      npvLoop host recur sheetId rate rest (i + 1) (JNum.add acc term)

/-- `npvFunction` (formula-engine.ts:1118). -/
def npvFunction (host : Host) (recur : Call → EvalM Value)
    (args : List Str) (sheetId : Str) : EvalM Value := do
  if args.length < 2 then throwJS
  else do
    let rateV ← recExpr recur (args.getD 0 []) sheetId
    let npv ← npvLoop host recur sheetId (toNumber rateV) (args.drop 1) 1 (.fin 0)
    pure (.num npv)

/-- The value-collection loop of `irrFunction` (formula-engine.ts:1136):
ranges via `getCellValues`, scalars via `evaluateExpression` (the set is
passed through). -/
def irrCollect (wb : Workbook) (recur : Call → EvalM Value) (sheetId : Str) :
    List Str → List JNum → EvalM (List JNum)
  | [], acc => pure acc
  | arg :: rest, acc =>
      if arg.contains ':' then do
        let range ← liftEx (parseRange arg)
        let values ← getCellValues wb recur sheetId range
        irrCollect wb recur sheetId rest (acc ++ values)
      else do
        let value ← recExpr recur arg sheetId
        irrCollect wb recur sheetId rest (acc ++ [toNumber value])

/-- One Newton-Raphson step: the `(npv, dnpv)` accumulation over the
indexed cash-flows. -/
def irrStep (host : Host) (values : List (JNum × Nat)) (rate : JNum) : JNum × JNum :=
  values.foldl
    (fun acc vj =>
      let power := jsPow host (JNum.add (.fin 1) rate) (.fin (qOfInt vj.2))
      (JNum.add acc.1 (JNum.div vj.1 power),
       JNum.sub acc.2 (JNum.div (JNum.mul (.fin (qOfInt vj.2)) vj.1)
         (JNum.mul power (JNum.add (.fin 1) rate)))))
    (.fin 0, .fin 0)

/-- The 100-iteration Newton-Raphson loop (formula-engine.ts:1150):
convergence when `|npv| < 1e-6`, else update the rate; `#NUM!` when the
iterations run out. -/
def irrNewton (host : Host) (values : List (JNum × Nat)) : Nat → JNum → Value
  | 0, _ => .str (txt "#NUM!")
  | k + 1, rate =>
      let s := irrStep host values rate
      if JNum.lt (JNum.absJ s.1) (.fin ⟨1, 1000000⟩) then .num rate
      else irrNewton host values k (JNum.sub rate (JNum.div s.1 s.2))

/-- `irrFunction` (formula-engine.ts:1132). -/
def irrFunction (host : Host) (wb : Workbook) (recur : Call → EvalM Value)
    (args : List Str) (sheetId : Str) : EvalM Value := do
  let values ← irrCollect wb recur sheetId args []
  if values.length < 2 then pure (.str (txt "#NUM!"))
  else pure (irrNewton host (values.enum.map (fun p => (p.2, p.1))) 100 (.fin ⟨1, 10⟩))

/-- `pmtFunction` (formula-engine.ts:1168). -/
def pmtFunction (host : Host) (recur : Call → EvalM Value)
    (args : List Str) (sheetId : Str) : EvalM Value := do
  if args.length < 3 then throwJS
  else do
    let rate ← (toNumber ·) <$> recExpr recur (args.getD 0 []) sheetId
    let nper ← (toNumber ·) <$> recExpr recur (args.getD 1 []) sheetId
    let pv ← (toNumber ·) <$> recExpr recur (args.getD 2 []) sheetId
    let fv ←
      if !(args.getD 3 []).isEmpty then (toNumber ·) <$> recExpr recur (args.getD 3 []) sheetId
      else pure (JNum.fin 0)
    let type ←
      if !(args.getD 4 []).isEmpty then (toNumber ·) <$> recExpr recur (args.getD 4 []) sheetId
      else pure (JNum.fin 0)
    if JNum.eqJS rate (.fin 0) then
      pure (.num (JNum.div (JNum.neg (JNum.add pv fv)) nper))
    else
      let pvif := jsPow host (JNum.add (.fin 1) rate) nper
      pure (.num (JNum.div
        (JNum.sub (JNum.mul (JNum.neg pv) pvif) fv)
        (JNum.mul (JNum.div (JNum.sub pvif (.fin 1)) rate)
          (JNum.add (.fin 1) (JNum.mul rate type)))))

/-- `pvFunction` (formula-engine.ts:1185). -/
def pvFunction (host : Host) (recur : Call → EvalM Value)
    (args : List Str) (sheetId : Str) : EvalM Value := do
  if args.length < 3 then throwJS
  else do
    let rate ← (toNumber ·) <$> recExpr recur (args.getD 0 []) sheetId
    let nper ← (toNumber ·) <$> recExpr recur (args.getD 1 []) sheetId
    let pmt ← (toNumber ·) <$> recExpr recur (args.getD 2 []) sheetId
    let fv ←
      if !(args.getD 3 []).isEmpty then (toNumber ·) <$> recExpr recur (args.getD 3 []) sheetId
      else pure (JNum.fin 0)
    let type ←
      if !(args.getD 4 []).isEmpty then (toNumber ·) <$> recExpr recur (args.getD 4 []) sheetId
      else pure (JNum.fin 0)
    if JNum.eqJS rate (.fin 0) then
      pure (.num (JNum.sub (JNum.mul (JNum.neg pmt) nper) fv))
    else
      let pvif := jsPow host (JNum.add (.fin 1) rate) nper
      pure (.num (JNum.div
        (JNum.sub
          (JNum.mul (JNum.neg pmt)
            (JNum.mul (JNum.div (JNum.sub pvif (.fin 1)) rate)
              (JNum.add (.fin 1) (JNum.mul rate type))))
          fv)
        pvif))

/-- `fvFunction` (formula-engine.ts:1202). -/
def fvFunction (host : Host) (recur : Call → EvalM Value)
    (args : List Str) (sheetId : Str) : EvalM Value := do
  if args.length < 3 then throwJS
  else do
    let rate ← (toNumber ·) <$> recExpr recur (args.getD 0 []) sheetId
    let nper ← (toNumber ·) <$> recExpr recur (args.getD 1 []) sheetId
    let pmt ← (toNumber ·) <$> recExpr recur (args.getD 2 []) sheetId
    let pv ←
      if !(args.getD 3 []).isEmpty then (toNumber ·) <$> recExpr recur (args.getD 3 []) sheetId
      else pure (JNum.fin 0)
    let type ←
      if !(args.getD 4 []).isEmpty then (toNumber ·) <$> recExpr recur (args.getD 4 []) sheetId
      else pure (JNum.fin 0)
    if JNum.eqJS rate (.fin 0) then
      pure (.num (JNum.sub (JNum.neg pv) (JNum.mul pmt nper)))
    else
      let fvif := jsPow host (JNum.add (.fin 1) rate) nper
      pure (.num (JNum.sub (JNum.mul (JNum.neg pv) fvif)
        (JNum.mul pmt
          (JNum.mul (JNum.div (JNum.sub fvif (.fin 1)) rate)
            (JNum.add (.fin 1) (JNum.mul rate type))))))

/-! ## Function library: date/time (host `Date` oracle) -/

/-- `todayFunction` (formula-engine.ts:1221): day serial since 1900-01-01
plus the classic +2 offset. -/
def todayFunction (host : Host) : Value := .num (.fin (qOfInt (host.todayDays + 2)))

/-- `nowFunction` (formula-engine.ts:1227). -/
def nowFunction (host : Host) : Value :=
  .num (JNum.add (.fin (qOfInt (host.nowDays + 2))) (.fin host.nowDayFrac))

/-- `dateFunction` (formula-engine.ts:1233). -/
def dateFunction (host : Host) (recur : Call → EvalM Value)
    (args : List Str) (sheetId : Str) : EvalM Value := do
  if args.length != 3 then throwJS
  else do
    let year ← (toNumber ·) <$> withSt none (recExpr recur (args.getD 0 []) sheetId)
    let month ← (toNumber ·) <$> withSt none (recExpr recur (args.getD 1 []) sheetId)
    let day ← (toNumber ·) <$> withSt none (recExpr recur (args.getD 2 []) sheetId)
    pure (.num (JNum.add (host.mkDateDays year month day) (.fin 2)))

/-- `yearFunction` (formula-engine.ts:1244). -/
def yearFunction (host : Host) (recur : Call → EvalM Value)
    (args : List Str) (sheetId : Str) : EvalM Value := do
  if args.length != 1 then throwJS
  else do
    let serialNumber ← (toNumber ·) <$> withSt none (recExpr recur (args.getD 0 []) sheetId)
    pure (.num (host.serialToYear serialNumber))

/-- `monthFunction` (formula-engine.ts:1252). -/
def monthFunction (host : Host) (recur : Call → EvalM Value)
    (args : List Str) (sheetId : Str) : EvalM Value := do
  if args.length != 1 then throwJS
  else do
    let serialNumber ← (toNumber ·) <$> withSt none (recExpr recur (args.getD 0 []) sheetId)
    pure (.num (host.serialToMonth serialNumber))

/-- `dayFunction` (formula-engine.ts:1260). -/
def dayFunction (host : Host) (recur : Call → EvalM Value)
    (args : List Str) (sheetId : Str) : EvalM Value := do
  if args.length != 1 then throwJS
  else do
    let serialNumber ← (toNumber ·) <$> withSt none (recExpr recur (args.getD 0 []) sheetId)
    pure (.num (host.serialToDay serialNumber))

/-! ## Function library: text -/

/-- `String.prototype.substring`: indices are integer-converted (NaN → 0,
`±Infinity` to the ends), clamped to `[0, length]`, and swapped when out
of order. -/
def subIdx (x : JNum) (len : Nat) : Nat :=
  match x with
  | .nan => 0
  | .negInf => 0
  | .inf => len
  | .fin q =>
      let t := qTrunc q
      if t < 0 then 0 else if t > (len : Int) then len else t.toNat

def jsSubstring (s : Str) (a b : JNum) : Str :=
  let ia := subIdx a s.length
  let ib := subIdx b s.length
  (s.take (max ia ib)).drop (min ia ib)

/-- `concatenateFunction` (formula-engine.ts:1270). -/
def concatenateLoop (recur : Call → EvalM Value) (sheetId : Str) :
    List Str → Str → EvalM Str
  | [], acc => pure acc
  | arg :: rest, acc => do
      let v ← withSt none (recExpr recur arg sheetId)
      concatenateLoop recur sheetId rest (acc ++ toStringJS v)

def concatenateFunction (recur : Call → EvalM Value)
    (args : List Str) (sheetId : Str) : EvalM Value := do
  let s ← concatenateLoop recur sheetId args []
  pure (.str s)

/-- `leftFunction` (formula-engine.ts:1274). -/
def leftFunction (recur : Call → EvalM Value)
    (args : List Str) (sheetId : Str) : EvalM Value := do
  if args.length < 1 then throwJS
  else do
    let text ← (toStringJS ·) <$> withSt none (recExpr recur (args.getD 0 []) sheetId)
    let numChars ←
      if !(args.getD 1 []).isEmpty then
        (toNumber ·) <$> withSt none (recExpr recur (args.getD 1 []) sheetId)
      else pure (JNum.fin 1)
    pure (.str (jsSubstring text (.fin 0) numChars))

/-- `rightFunction` (formula-engine.ts:1283). -/
def rightFunction (recur : Call → EvalM Value)
    (args : List Str) (sheetId : Str) : EvalM Value := do
  if args.length < 1 then throwJS
  else do
    let text ← (toStringJS ·) <$> withSt none (recExpr recur (args.getD 0 []) sheetId)
    let numChars ←
      if !(args.getD 1 []).isEmpty then
        (toNumber ·) <$> withSt none (recExpr recur (args.getD 1 []) sheetId)
      else pure (JNum.fin 1)
    let start := JNum.maxJ (.fin 0) (JNum.sub (.fin (qOfInt text.length)) numChars)
    pure (.str (jsSubstring text start (.fin (qOfInt text.length))))

/-- `midFunction` (formula-engine.ts:1292). -/
def midFunction (recur : Call → EvalM Value)
    (args : List Str) (sheetId : Str) : EvalM Value := do
  if args.length < 2 then throwJS
  else do
    let text ← (toStringJS ·) <$> withSt none (recExpr recur (args.getD 0 []) sheetId)
    let startNum ← (fun v => JNum.sub (toNumber v) (.fin 1)) <$>
      withSt none (recExpr recur (args.getD 1 []) sheetId)
    let numChars ←
      if !(args.getD 2 []).isEmpty then
        (toNumber ·) <$> withSt none (recExpr recur (args.getD 2 []) sheetId)
      else pure (JNum.fin (qOfInt text.length))
    pure (.str (jsSubstring text startNum (JNum.add startNum numChars)))

/-- `lenFunction` (formula-engine.ts:1302). -/
def lenFunction (recur : Call → EvalM Value)
    (args : List Str) (sheetId : Str) : EvalM Value := do
  if args.length != 1 then throwJS
  else do
    let text ← (toStringJS ·) <$> withSt none (recExpr recur (args.getD 0 []) sheetId)
    pure (.num (.fin (qOfInt text.length)))

/-- `upperFunction` (formula-engine.ts:1309). -/
def upperFunction (recur : Call → EvalM Value)
    (args : List Str) (sheetId : Str) : EvalM Value := do
  if args.length != 1 then throwJS
  else do
    let text ← (toStringJS ·) <$> withSt none (recExpr recur (args.getD 0 []) sheetId)
    pure (.str (toUpperStr text))

/-- `lowerFunction` (formula-engine.ts:1316). -/
def lowerFunction (recur : Call → EvalM Value)
    (args : List Str) (sheetId : Str) : EvalM Value := do
  if args.length != 1 then throwJS
  else do
    let text ← (toStringJS ·) <$> withSt none (recExpr recur (args.getD 0 []) sheetId)
    pure (.str (toLowerStr text))

/-- `replace(/\s+/g, ' ')`: collapse every whitespace run to one space. -/
def collapseWsAux : Bool → Str → Str
  | _, [] => []
  | prevWs, c :: rest =>
      if isWsChar c then
        if prevWs then collapseWsAux true rest else ' ' :: collapseWsAux true rest
      else c :: collapseWsAux false rest

/-- `trimFunction` (formula-engine.ts:1323): trim, then collapse interior
whitespace. -/
def trimFunction (recur : Call → EvalM Value)
    (args : List Str) (sheetId : Str) : EvalM Value := do
  if args.length != 1 then throwJS
  else do
    let text ← (toStringJS ·) <$> withSt none (recExpr recur (args.getD 0 []) sheetId)
    pure (.str (collapseWsAux false (strTrim text)))

/-! ## Function library: conditional aggregates -/

/-- `meetsCriteria` (formula-engine.ts:1526): comparison-operator
criteria, `*` wildcard at either end (case-insensitive), else strict
equality. -/
def meetsCriteria (cellValue : Option Value) (criteria : Value) : Bool :=
  let cellStr := toLowerStr (toStringO cellValue)
  let criteriaStr := toStringJS criteria
  if (txt ">=").isPrefixOf criteriaStr then
    JNum.ge (toNumberO cellValue) (toNumber (.str (criteriaStr.drop 2)))
  else if (txt "<=").isPrefixOf criteriaStr then
    JNum.le (toNumberO cellValue) (toNumber (.str (criteriaStr.drop 2)))
  else if (txt ">").isPrefixOf criteriaStr then
    JNum.gt (toNumberO cellValue) (toNumber (.str (criteriaStr.drop 1)))
  else if (txt "<").isPrefixOf criteriaStr then
    JNum.lt (toNumberO cellValue) (toNumber (.str (criteriaStr.drop 1)))
  else if (txt "=").isPrefixOf criteriaStr then
    jsStrictEqO cellValue (.str (criteriaStr.drop 1))
  else if (txt "*").isPrefixOf criteriaStr then
    (toLowerStr (criteriaStr.drop 1)).isSuffixOf cellStr
  else if criteriaStr.getLast? == some '*' then
    (toLowerStr criteriaStr.dropLast).isPrefixOf cellStr
  else jsStrictEqO cellValue criteria

/-- `sumIfFunction` (formula-engine.ts:1332): scan the criteria range
over raw stored values, adding the parallel cell of the sum range. -/
def sumIfFunction (wb : Workbook) (recur : Call → EvalM Value)
    (args : List Str) (sheetId : Str) : EvalM Value := do
  if args.length < 2 then throwJS
  else do
    let range ← liftEx (parseRange (args.getD 0 []))
    let criteria ← withSt none (recExpr recur (args.getD 1 []) sheetId)
    let sumRange ←
      if !(args.getD 2 []).isEmpty then liftEx (parseRange (args.getD 2 []))
      else pure range
    match wb.sheets.find? (fun s => s.id == sheetId) with
    | none => pure (.num (.fin 0))
    | some sheet =>
        let cells := (idxRange range.startRow range.endRow).flatMap
          (fun r => (idxRange range.startCol range.endCol).map (fun c => (r, c)))
        let total := cells.foldl
          (fun acc rc =>
            let cellValue := (cellAt sheet.data rc.1 rc.2).map Cell.value
            if meetsCriteria cellValue criteria then
              let sumRow := sumRange.startRow + (rc.1 - range.startRow)
              let sumCol := sumRange.startCol + (rc.2 - range.startCol)
              JNum.add acc (toNumberO ((cellAt sheet.data sumRow sumCol).map Cell.value))
            else acc)
          (JNum.fin 0)
        pure (.num total)

/-- `countIfFunction` (formula-engine.ts:1358). -/
def countIfFunction (wb : Workbook) (recur : Call → EvalM Value)
    (args : List Str) (sheetId : Str) : EvalM Value := do
  if args.length != 2 then throwJS
  else do
    let range ← liftEx (parseRange (args.getD 0 []))
    let criteria ← withSt none (recExpr recur (args.getD 1 []) sheetId)
    match wb.sheets.find? (fun s => s.id == sheetId) with
    | none => pure (.num (.fin 0))
    | some sheet =>
        let cells := (idxRange range.startRow range.endRow).flatMap
          (fun r => (idxRange range.startCol range.endCol).map (fun c => (r, c)))
        let count := (cells.filter
          (fun rc => meetsCriteria ((cellAt sheet.data rc.1 rc.2).map Cell.value) criteria)).length
        pure (.num (.fin (qOfInt count)))

/-- `averageIfFunction` (formula-engine.ts:1380). -/
def averageIfFunction (wb : Workbook) (recur : Call → EvalM Value)
    (args : List Str) (sheetId : Str) : EvalM Value := do
  if args.length < 2 then throwJS
  else do
    let range ← liftEx (parseRange (args.getD 0 []))
    let criteria ← withSt none (recExpr recur (args.getD 1 []) sheetId)
    let averageRange ←
      if !(args.getD 2 []).isEmpty then liftEx (parseRange (args.getD 2 []))
      else pure range
    match wb.sheets.find? (fun s => s.id == sheetId) with
    | none => pure (.num (.fin 0))
    | some sheet =>
        let cells := (idxRange range.startRow range.endRow).flatMap
          (fun r => (idxRange range.startCol range.endCol).map (fun c => (r, c)))
        let p := cells.foldl
          (fun (acc : JNum × Nat) rc =>
            let cellValue := (cellAt sheet.data rc.1 rc.2).map Cell.value
            if meetsCriteria cellValue criteria then
              let avgRow := averageRange.startRow + (rc.1 - range.startRow)
              let avgCol := averageRange.startCol + (rc.2 - range.startCol)
              (JNum.add acc.1 (toNumberO ((cellAt sheet.data avgRow avgCol).map Cell.value)),
               acc.2 + 1)
            else acc)
          (JNum.fin 0, 0)
        pure (.num (if p.2 > 0 then JNum.div p.1 (.fin (qOfInt p.2)) else .fin 0))

/-! ## Function library: math -/

/-- `roundFunction` (formula-engine.ts:1411). -/
def roundFunction (host : Host) (recur : Call → EvalM Value)
    (args : List Str) (sheetId : Str) : EvalM Value := do
  if args.length < 1 then throwJS
  else do
    let number ← (toNumber ·) <$> withSt none (recExpr recur (args.getD 0 []) sheetId)
    let digits ←
      if !(args.getD 1 []).isEmpty then
        (toNumber ·) <$> withSt none (recExpr recur (args.getD 1 []) sheetId)
      else pure (JNum.fin 0)
    let factor := jsPow host (.fin 10) digits
    pure (.num (JNum.div (JNum.roundJ (JNum.mul number factor)) factor))

/-- `roundUpFunction` (formula-engine.ts:1421). -/
def roundUpFunction (host : Host) (recur : Call → EvalM Value)
    (args : List Str) (sheetId : Str) : EvalM Value := do
  if args.length < 1 then throwJS
  else do
    let number ← (toNumber ·) <$> withSt none (recExpr recur (args.getD 0 []) sheetId)
    let digits ←
      if !(args.getD 1 []).isEmpty then
        (toNumber ·) <$> withSt none (recExpr recur (args.getD 1 []) sheetId)
      else pure (JNum.fin 0)
    let factor := jsPow host (.fin 10) digits
    pure (.num (JNum.div (JNum.ceilJ (JNum.mul number factor)) factor))

/-- `roundDownFunction` (formula-engine.ts:1431). -/
def roundDownFunction (host : Host) (recur : Call → EvalM Value)
    (args : List Str) (sheetId : Str) : EvalM Value := do
  if args.length < 1 then throwJS
  else do
    let number ← (toNumber ·) <$> withSt none (recExpr recur (args.getD 0 []) sheetId)
    let digits ←
      if !(args.getD 1 []).isEmpty then
        (toNumber ·) <$> withSt none (recExpr recur (args.getD 1 []) sheetId)
      else pure (JNum.fin 0)
    let factor := jsPow host (.fin 10) digits
    pure (.num (JNum.div (JNum.floorJ (JNum.mul number factor)) factor))

/-- `absFunction` (formula-engine.ts:1441). -/
def absFunction (recur : Call → EvalM Value)
    (args : List Str) (sheetId : Str) : EvalM Value := do
  if args.length != 1 then throwJS
  else do
    let number ← (toNumber ·) <$> withSt none (recExpr recur (args.getD 0 []) sheetId)
    pure (.num (JNum.absJ number))

/-- `sqrtFunction` (formula-engine.ts:1448): `Math.sqrt` (host oracle). -/
def sqrtFunction (host : Host) (recur : Call → EvalM Value)
    (args : List Str) (sheetId : Str) : EvalM Value := do
  if args.length != 1 then throwJS
  else do
    let number ← (toNumber ·) <$> withSt none (recExpr recur (args.getD 0 []) sheetId)
    pure (.num (host.sqrtFn number))

/-- `powerFunction` (formula-engine.ts:1455): the set argument *is*
passed through here. -/
def powerFunction (host : Host) (recur : Call → EvalM Value)
    (args : List Str) (sheetId : Str) : EvalM Value := do
  if args.length != 2 then throwJS
  else do
    let number ← (toNumber ·) <$> recExpr recur (args.getD 0 []) sheetId
    let power ← (toNumber ·) <$> recExpr recur (args.getD 1 []) sheetId
    pure (.num (jsPow host number power))

/-! ## Function library: reference -/

/-- `rowFunction` (formula-engine.ts:1466): no arguments returns the
constant 1 (the documented missing-context limitation); otherwise the
1-based row of the parsed reference, `#REF!` on a parse throw. -/
def rowFunction (args : List Str) : Value :=
  if args.length == 0 then .num (.fin 1)
  else
    match cellToIndices (strTrim (args.getD 0 [])) with
    | .ok rc => .num (.fin (qOfInt (rc.1 + 1)))
    | .error _ => .str (txt "#REF!")

/-- `columnFunction` (formula-engine.ts:1484). -/
def columnFunction (args : List Str) : Value :=
  if args.length == 0 then .num (.fin 1)
  else
    match cellToIndices (strTrim (args.getD 0 [])) with
    | .ok rc => .num (.fin (qOfInt (rc.2 + 1)))
    | .error _ => .str (txt "#REF!")

/-- `indirectFunction` (formula-engine.ts:1502): evaluate the reference
text (set passed through), then resolve it as a sheet-qualified or plain
reference; `#REF!` for a missing sheet, missing argument, or a throw. -/
def indirectFunction (wb : Workbook) (recur : Call → EvalM Value)
    (args : List Str) (sheetId : Str) : EvalM Value := do
  if args.length == 0 then pure (.str (txt "#REF!"))
  else do
    let refText ← (toStringJS ·) <$> recExpr recur (args.getD 0 []) sheetId
    jsTry
      (if refText.contains '\'' || refText.contains '.' then
        match parseSheetReference refText wb with
        | ⟨some targetSheetId, cellRef⟩ => getCellValueCore wb recur targetSheetId cellRef
        | ⟨none, _⟩ => pure (.str (txt "#REF!"))
      else getCellValueCore wb recur sheetId refText)
      (pure (.str (txt "#REF!")))

/-! ## The dispatcher (`evaluateFunction`) -/

/-- `evaluateFunction` (formula-engine.ts:570): parse the argument list,
then dispatch by name; an unknown name is a thrown error. -/
def evaluateFunction (host : Host) (wb : Workbook) (recur : Call → EvalM Value)
    (funcName argsStr sheetId : Str) : EvalM Value :=
  let args := parseArguments argsStr
  match String.mk funcName with
  | "SUM" => sumFunction wb recur args sheetId
  | "AVERAGE" => averageFunction wb recur args sheetId
  | "COUNT" => countFunction wb recur args sheetId
  | "COUNTA" => countAFunction wb recur args sheetId
  | "MAX" => maxFunction wb recur args sheetId
  | "MIN" => minFunction wb recur args sheetId
  | "STDEV" => stdevFunction host wb recur args sheetId
  | "VAR" => varFunction host wb recur args sheetId
  | "IF" => ifFunction recur args sheetId
  | "AND" => andFunction recur args sheetId
  | "OR" => orFunction recur args sheetId
  | "NOT" => notFunction recur args sheetId
  | "VLOOKUP" => vlookupFunction wb recur args sheetId
  | "HLOOKUP" => hlookupFunction wb recur args sheetId
  | "INDEX" => indexFunction wb recur args sheetId
  | "MATCH" => matchFunction wb recur args sheetId
  | "NPV" => npvFunction host recur args sheetId
  | "IRR" => irrFunction host wb recur args sheetId
  | "PMT" => pmtFunction host recur args sheetId
  | "PV" => pvFunction host recur args sheetId
  | "FV" => fvFunction host recur args sheetId
  | "TODAY" => pure (todayFunction host)
  | "NOW" => pure (nowFunction host)
  | "DATE" => dateFunction host recur args sheetId
  | "YEAR" => yearFunction host recur args sheetId
  | "MONTH" => monthFunction host recur args sheetId
  | "DAY" => dayFunction host recur args sheetId
  | "CONCATENATE" => concatenateFunction recur args sheetId
  | "LEFT" => leftFunction recur args sheetId
  | "RIGHT" => rightFunction recur args sheetId
  | "MID" => midFunction recur args sheetId
  | "LEN" => lenFunction recur args sheetId
  | "UPPER" => upperFunction recur args sheetId
  | "LOWER" => lowerFunction recur args sheetId
  | "TRIM" => trimFunction recur args sheetId
  | "SUMIF" => sumIfFunction wb recur args sheetId
  | "COUNTIF" => countIfFunction wb recur args sheetId
  | "AVERAGEIF" => averageIfFunction wb recur args sheetId
  | "ROUND" => roundFunction host recur args sheetId
  | "ROUNDUP" => roundUpFunction host recur args sheetId
  | "ROUNDDOWN" => roundDownFunction host recur args sheetId
  | "ABS" => absFunction recur args sheetId
  | "SQRT" => sqrtFunction host recur args sheetId
  | "POWER" => powerFunction host recur args sheetId
  | "ROW" => pure (rowFunction args)
  | "COLUMN" => pure (columnFunction args)
  | "INDIRECT" => indirectFunction wb recur args sheetId
  | _ => throwJS

/-! ## Nested-call replacement and concatenation -/

/-- The body of `replaceFunctionCalls` (formula-engine.ts:404): find the
first balanced `NAME(...)`, evaluate it (a throw substitutes the literal
`#ERROR!` text), splice `String(toNumber(result))` in, and restart the
scan on the rewritten text (via `recur`, since rewriting has no
structurally decreasing measure). -/
def replaceFunctionCallsCore (host : Host) (wb : Workbook)
    (recur : Call → EvalM Value) (expr sheetId : Str) : EvalM Str :=
  match findFirstCall expr with
  | none => pure expr
  | some (pre, funcName, argsStr, suf) => do
      let r ← attempt (evaluateFunction host wb recur funcName argsStr sheetId)
      match r with
      | .ok funcResult =>
          recRfcStr recur (pre ++ numToStr (toNumber funcResult) ++ suf) sheetId
      | .error .thrown =>
          recRfcStr recur (pre ++ txt "#ERROR!" ++ suf) sheetId
      | .error .fuelOut => throwFuel

/-- The part loop of `evaluateStringConcatenation`
(formula-engine.ts:386): blank parts are skipped, an error part is
returned as the whole result, other parts append their string form. -/
def concatLoop (recur : Call → EvalM Value) (sheetId : Str) :
    List Str → Str → EvalM Value
  | [], acc => pure (.str acc)
  | part :: rest, acc =>
      let trimmedPart := strTrim part
      if trimmedPart.isEmpty then concatLoop recur sheetId rest acc
      else do
        let partResult ← recExpr recur trimmedPart sheetId
        if isErrStr partResult then pure partResult
        else concatLoop recur sheetId rest (acc ++ toStringJS partResult)

/-- `evaluateStringConcatenation` (formula-engine.ts:381). -/
def evaluateStringConcatenation (recur : Call → EvalM Value)
    (expr sheetId : Str) : EvalM Value :=
  concatLoop recur sheetId (smartSplit expr '&') []

/-! ## Reference substitution -/

/-- The cross-sheet pass of `evaluateExpression`
(formula-engine.ts:269-297): for each matched token, resolve the sheet;
found sheets contribute their (error-propagating) cell value as numeric
text, missing sheets contribute the literal text `#REF!`; both are
substituted under `\b` word boundaries (so a leading `'` never
matches).  `.inr` is the early error return. -/
def sheetRefLoop (wb : Workbook) (recur : Call → EvalM Value) (sheetId : Str) :
    List Str → Str → EvalM (Str ⊕ Value)
  | [], result => pure (.inl result)
  | sheetRef :: rest, result => do
      match parseSheetReference sheetRef wb with
      | ⟨some targetSheetId, cellRef⟩ => do
          let cellValue ← getCellValueCore wb recur targetSheetId cellRef
          if isErrStr cellValue then pure (.inr cellValue)
          else
            let numValue := toNumber cellValue
            let replacement := if numValue.isNaN then txt "0" else numToStr numValue
            sheetRefLoop wb recur sheetId rest (replaceWB result sheetRef replacement)
      | ⟨none, _⟩ =>
          sheetRefLoop wb recur sheetId rest (replaceWB result sheetRef (txt "#REF!"))

/-- The same-sheet pass (formula-engine.ts:301-325): errors propagate
immediately, values are substituted as numeric text under `\b`
boundaries. -/
def cellRefLoop (wb : Workbook) (recur : Call → EvalM Value) (sheetId : Str) :
    List Str → Str → EvalM (Str ⊕ Value)
  | [], result => pure (.inl result)
  | cellRef :: rest, result => do
      let cellValue ← getCellValueCore wb recur sheetId cellRef
      if isErrStr cellValue then pure (.inr cellValue)
      else
        let numValue := toNumber cellValue
        let replacement := if numValue.isNaN then txt "0" else numToStr numValue
        cellRefLoop wb recur sheetId rest (replaceWB result cellRef replacement)

/-! ## Final classification of the substituted text -/

/-- `/^".*"$/` (`.` does not cross a newline; none occur here). -/
def isQuotedLit (s : Str) : Bool :=
  s.length ≥ 2 && s.head? == some '"' && s.getLast? == some '"' &&
    !(s.drop 1).dropLast.contains '\n'

/-- `/^\$\d+(\.\d+)?$/` -/
def isCurrencyLit (s : Str) : Bool :=
  match s with
  | '$' :: rest => isUnsignedNumber rest
  | _ => false

/-- `/^\d+(\.\d+)?%$/` -/
def isPercentLit (s : Str) : Bool :=
  s.getLast? == some '%' && isUnsignedNumber s.dropLast

/-- `/[+\-*\/()^]/.test` -/
def hasArithOp (s : Str) : Bool :=
  s.any (fun c => c == '+' || c == '-' || c == '*' || c == '/' ||
    c == '(' || c == ')' || c == '^')

/-- `replace(pat, '')` with a plain-string pattern removes only the first
occurrence. -/
def removeFirstChar (p : Char) : Str → Str
  | [] => []
  | c :: rest => if c == p then rest else c :: removeFirstChar p rest

/-- Steps 327-377 of `evaluateExpression`: classify the fully substituted
text — quoted string, currency, percentage, plain number, operator-free
simple value (currency/percent/number parse attempts, else the literal
string), otherwise arithmetic evaluation (of the *untrimmed* text). -/
def finalClassify (host : Host) (result : Str) : Value :=
  let trimmed := strTrim result
  if isQuotedLit trimmed then .str (trimmed.drop 1).dropLast
  else if isCurrencyLit trimmed then .num (jsParseFloat (removeFirstChar '$' trimmed))
  else if isPercentLit trimmed then
    .num (JNum.div (jsParseFloat (removeFirstChar '%' trimmed)) (.fin ⟨100, 1⟩))
  else if isPlainNumber trimmed then .num (jsParseFloat trimmed)
  else if !hasArithOp trimmed then
    -- simple value: currency, percentage, number, else literal string
    let afterCurrency : Option Value :=
      if trimmed.head? == some '$' then
        let n := jsParseFloat (trimmed.filter (fun c => !(c == '$' || c == ',')))
        if !n.isNaN then some (.num n) else none
      else none
    match afterCurrency with
    | some v => v
    | none =>
        let afterPercent : Option Value :=
          if trimmed.getLast? == some '%' then
            let n := jsParseFloat (removeFirstChar '%' trimmed)
            if !n.isNaN then some (.num (JNum.div n (.fin ⟨100, 1⟩))) else none
          else none
        match afterPercent with
        | some v => v
        | none =>
            let n := jsParseFloat trimmed
            if !n.isNaN then .num n else .str trimmed
  else evaluateArithmetic host result

/-! ## `evaluateExpression` and `evaluateFormula` -/

/-- `evaluateExpression` (formula-engine.ts:229): a whole-expression
function call dispatches directly; a `&` anywhere goes to concatenation;
otherwise nested calls are replaced, cross-sheet then same-sheet
references are substituted (errors returning early), and the residue is
classified. -/
def evaluateExpressionCore (host : Host) (wb : Workbook)
    (recur : Call → EvalM Value) (expr sheetId : Str) : EvalM Value :=
  match wholeFunc expr with
  | some (funcName, argsStr) => evaluateFunction host wb recur funcName argsStr sheetId
  | none =>
      if expr.contains '&' then evaluateStringConcatenation recur expr sheetId
      else do
        let result ← recRfcStr recur expr sheetId
        let afterSheets ← sheetRefLoop wb recur sheetId (sheetRefMatches result) result
        match afterSheets with
        | .inr errValue => pure errValue
        | .inl result1 => do
            let afterCells ← cellRefLoop wb recur sheetId (cellRefMatches result1) result1
            match afterCells with
            | .inr errValue => pure errValue
            | .inl result2 => pure (finalClassify host result2)

/-- `evaluateFormula` (formula-engine.ts:204): non-`=` text passes
through; a missing sheet is `#REF!`; `null`/`undefined` results map to 0;
any thrown error maps to `#ERROR!`.  (The unused `currentRow`/`currentCol`
parameters of the source are omitted.) -/
def evaluateFormulaCore (wb : Workbook) (recur : Call → EvalM Value)
    (formula sheetId : Str) : EvalM Value :=
  if formula.isEmpty || !(formula.head? == some '=') then pure (.str formula)
  else
    let expr := strTrim (formula.drop 1)
    match wb.sheets.find? (fun s => s.id == sheetId) with
    | none => pure (.str (txt "#REF!"))
    | some _ =>
        jsTry
          (do
            let result ← recExpr recur expr sheetId
            match result with
            | .null => pure (.num (.fin 0))
            | v => pure v)
          (pure (.str (txt "#ERROR!")))

/-! ## Tying the knot -/

/-- The fuelled interpreter: one unit of fuel per re-entry into the three
mutually recursive entry points.  (`.rfc` wraps its string in `Value.str`;
`recRfcStr` unwraps it.) -/
def exec (host : Host) (wb : Workbook) : Nat → Call → EvalM Value
  | 0, _ => throwFuel
  | fuel + 1, c =>
      let recur := exec host wb fuel
      match c with
      | .formula f sheetId => evaluateFormulaCore wb recur f sheetId
      | .expr e sheetId => evaluateExpressionCore host wb recur e sheetId
      | .rfc e sheetId => do
          let s ← replaceFunctionCallsCore host wb recur e sheetId
          pure (.str s)

/-- `evaluateFormula`, fuelled.  Run as
`evaluateFormula host wb fuel formula sheetId st`; the public call sites
pass `st = none` (the `evaluatingCells` parameter is `undefined` at the
top level). -/
def evaluateFormula (host : Host) (wb : Workbook) (fuel : Nat)
    (formula sheetId : Str) : EvalM Value :=
  exec host wb fuel (.formula formula sheetId)

/-- `evaluateExpression`, fuelled. -/
def evaluateExpression (host : Host) (wb : Workbook) (fuel : Nat)
    (expr sheetId : Str) : EvalM Value :=
  exec host wb fuel (.expr expr sheetId)

/-- `getCellValue`, fuelled. -/
def getCellValue (host : Host) (wb : Workbook) (fuel : Nat)
    (sheetId cellRef : Str) : EvalM Value :=
  getCellValueCore wb (exec host wb fuel) sheetId cellRef

/-- `replaceFunctionCalls`, fuelled. -/
def replaceFunctionCalls (host : Host) (wb : Workbook) (fuel : Nat)
    (expr sheetId : Str) : EvalM Str :=
  replaceFunctionCallsCore host wb (exec host wb fuel) expr sheetId


/-- Decidable equality for `Except` results (used by concrete witness
computations). -/
instance {e a : Type} [DecidableEq e] [DecidableEq a] : DecidableEq (Except e a) :=
  fun x y =>
    match x, y with
    | .ok v, .ok w =>
        if h : v = w then isTrue (by rw [h]) else isFalse (fun hh => h (Except.ok.inj hh))
    | .error v, .error w =>
        if h : v = w then isTrue (by rw [h]) else isFalse (fun hh => h (Except.error.inj hh))
    | .ok _, .error _ => isFalse (fun hh => Except.noConfusion hh)
    | .error _, .ok _ => isFalse (fun hh => Except.noConfusion hh)

/-! # Fixtures

Small concrete workbooks used by the concrete evaluations below. -/

/-- A numeric literal cell. -/
def cellNum (n : Int) : Cell := ⟨.num (.fin (qOfInt n)), none⟩

/-- A string literal cell. -/
def cellStr (s : String) : Cell := ⟨.str (txt s), none⟩

/-- A formula cell (stored value `null`, always recomputed). -/
def cellFormula (f : String) : Cell := ⟨.null, some (txt f)⟩

/-- An empty cell. -/
def cellEmpty : Cell := ⟨.null, none⟩

/-- One sheet `s1`: `A1 = 10`, `B1 = 0`. -/
def wbDiv : Workbook := ⟨[⟨txt "s1", txt "Sheet1", [[cellNum 10, cellNum 0]]⟩]⟩

/-- One sheet `s1`: `A1` holds `=B1`, `B1` holds `=A1`. -/
def wbCirc : Workbook :=
  ⟨[⟨txt "s1", txt "Sheet1", [[cellFormula "=B1", cellFormula "=A1"]]⟩]⟩

/-- Sheet `s1` (empty) plus a sheet named `Data` whose `B2` is `42`. -/
def wbData : Workbook :=
  ⟨[⟨txt "s1", txt "Sheet1", [[cellEmpty]]⟩,
    ⟨txt "d1", txt "Data", [[cellEmpty, cellEmpty], [cellEmpty, cellNum 42]]⟩]⟩

/-- One sheet `s1`: `A1` holds the literal error string `#REF!`, `B1 = 5`. -/
def wbErrLit : Workbook :=
  ⟨[⟨txt "s1", txt "Sheet1", [[cellStr "#REF!", cellNum 5]]⟩]⟩

/-- One sheet `s1`: `A1` holds `=Missing.B2` (no sheet named `Missing`). -/
def wbErrFormula : Workbook :=
  ⟨[⟨txt "s1", txt "Sheet1", [[cellFormula "=Missing.B2"]]⟩]⟩

/-! # Claim C5 (cross-sheet references) -/

/-- **C5, code bug.**  The spec promises that `='Data'.B2` evaluates to
the referenced cell's value (42 here), and that a missing sheet yields
`#REF!`.  The code computes the referenced value but substitutes it with
`new RegExp('\\b' + escapedRef + '\\b')`; `\b` cannot match before the
leading `'` of a quoted reference (a word boundary needs a word character
on exactly one side), so the token is never replaced, the later same-sheet
pass rewrites the embedded `B2` against the *current* sheet, and the
expression surfaces as the literal text `'Data'.0`.  The unquoted form
(second conjunct) substitutes fine, showing the intent; the quoted form of
the spec's own test is the slip.  Missing sheets (third/fourth conjuncts)
substitute the `#REF!` *text* rather than short-circuiting, so only the
bare unquoted reference surfaces as `#REF!`; in a compound expression the
arithmetic whitelist then reports `#ERROR!`. -/
theorem C5_quoted_sheet_reference_bug :
    evaluateFormula host0 wbData 20 (txt "='Data'.B2") (txt "s1") none
      = (.ok (.str (txt "'Data'.0")), none) ∧
    evaluateFormula host0 wbData 20 (txt "=Data.B2") (txt "s1") none
      = (.ok (.num (.fin ⟨42, 1⟩)), none) ∧
    evaluateFormula host0 wbData 20 (txt "=Missing.B2") (txt "s1") none
      = (.ok (.str (txt "#REF!")), none) ∧
    evaluateFormula host0 wbData 20 (txt "=Missing.B2+1") (txt "s1") none
      = (.ok (.str (txt "#ERROR!")), none) :=
  ⟨rfl, rfl, rfl, rfl⟩

/-! # Claim C1 (error propagation through SUM and nested calls) -/

/-- **C1, counterexample.**  `A1` stores the error sentinel `#REF!`, yet
`=SUM(A1)` evaluates to the number 0: `sumFunction` adds
`toNumber(getCellValue(...))`, and `toNumber` maps every `#`-string to 0.
The claim's promised result `#REF!` is therefore false on the code. -/
theorem C1_sum_coerces_error_counterexample :
    evaluateFormula host0 wbErrLit 20 (txt "=SUM(A1)") (txt "s1") none
      = (.ok (.num (.fin 0)), none) :=
  rfl

/-! # Claim C4 (lazy IF branches) -/

/-- **C4, counterexample.**  With a true condition the spec says the
false branch is never evaluated, so `=IF(1=1,2,NOFN(3))` would return 2;
the code evaluates both branches eagerly, the unknown function `NOFN`
throws, and the whole formula surfaces as `#ERROR!`. -/
theorem C4_if_eager_counterexample :
    evaluateFormula host0 wbDiv 20 (txt "=IF(1=1,2,NOFN(3))") (txt "s1") none
      = (.ok (.str (txt "#ERROR!")), none) :=
  rfl

/-! # Monad-application lemmas (shared proof infrastructure) -/

theorem bind_app {a b : Type} (m : EvalM a) (k : a → EvalM b) (st : St) :
    (m >>= k) st = match m st with
      | (.ok x, s1) => k x s1
      | (.error e, s1) => (.error e, s1) := rfl

theorem pure_app {a : Type} (x : a) (st : St) : (pure x : EvalM a) st = (.ok x, st) := rfl

theorem jsTry_app {a : Type} (m handler : EvalM a) (st : St) :
    jsTry m handler st = match m st with
      | (.error .thrown, s1) => handler s1
      | r => r := rfl

/-! # Claim C3 (circular-reference guard) -/

/-- **C3, confirmed.**  First conjunct: whenever the referenced cell
exists and its key is already in the in-flight set, `getCellValue`
answers `#CIRCULAR!` with the set unchanged — for *every* `recur`, i.e.
without recursing into any evaluation.  Second conjunct: on the workbook
with `A1 = "=B1"` and `B1 = "=A1"`, evaluating `=B1` (as if stored in A1)
terminates with `#CIRCULAR!` (fuel 10 is ample; no stack overflow can
occur in the fuelled model). -/
theorem C3_circular_guard :
    (∀ (wb : Workbook) (recur : Call → EvalM Value) (sheetId cellRef : Str)
      (S : List Str) (rc : Int × Int) (sheet : Sheet) (cell : Cell),
      cellToIndices cellRef = .ok rc →
      wb.sheets.find? (fun s => s.id == sheetId) = some sheet →
      cellAt sheet.data rc.1 rc.2 = some cell →
      (sheetId ++ ':' :: cellRef) ∈ S →
      getCellValueCore wb recur sheetId cellRef (some S)
        = (.ok (.str (txt "#CIRCULAR!")), some S)) ∧
    evaluateFormula host0 wbCirc 10 (txt "=B1") (txt "s1") none
      = (.ok (.str (txt "#CIRCULAR!")), none) := by
  refine ⟨?_, rfl⟩
  intro wb recur sheetId cellRef S rc sheet cell h1 h2 h3 h4
  unfold getCellValueCore
  rw [jsTry_app]
  simp only [bind_app, liftEx, h1, pure_app, h2, h3, getSt]
  simp only [Option.getD_some, if_pos h4, pure_app]

/-- Witness for C3: the guard fires on a concrete in-flight set. -/
theorem C3_circular_guard_witness :
    getCellValueCore wbCirc (exec host0 wbCirc 5) (txt "s1") (txt "B1")
      (some [txt "s1:B1"])
      = (.ok (.str (txt "#CIRCULAR!")), some [txt "s1:B1"]) :=
  C3_circular_guard.1 wbCirc (exec host0 wbCirc 5) (txt "s1") (txt "B1")
    [txt "s1:B1"] (0, 1) _ _ rfl rfl rfl (by decide)

/-! # Claim C10 (getCellValue zero fallbacks) -/

/-- **C10, confirmed.**  `getCellValue` returns the number 0 (never an
error sentinel) when: the reference fails to parse (the thrown error is
caught); the sheet id is unknown; the cell is missing from the grid; or
the cell is formula-free and stores `null`, `""` or `0` (all falsy, so
`cell.value || 0` collapses to 0).  The formula-free case assumes the
cell's key is not in the in-flight set (true in every reachable state,
since only cells *with* formulas are ever added). -/
theorem C10_getCellValue_zero_fallbacks :
    (∀ (wb : Workbook) (recur : Call → EvalM Value) (sheetId cellRef : Str) (st : St),
      cellToIndices cellRef = .error .thrown →
      getCellValueCore wb recur sheetId cellRef st = (.ok (.num (.fin 0)), st)) ∧
    (∀ (wb : Workbook) (recur : Call → EvalM Value) (sheetId cellRef : Str) (st : St)
      (rc : Int × Int),
      cellToIndices cellRef = .ok rc →
      wb.sheets.find? (fun s => s.id == sheetId) = none →
      getCellValueCore wb recur sheetId cellRef st = (.ok (.num (.fin 0)), st)) ∧
    (∀ (wb : Workbook) (recur : Call → EvalM Value) (sheetId cellRef : Str) (st : St)
      (rc : Int × Int) (sheet : Sheet),
      cellToIndices cellRef = .ok rc →
      wb.sheets.find? (fun s => s.id == sheetId) = some sheet →
      cellAt sheet.data rc.1 rc.2 = none →
      getCellValueCore wb recur sheetId cellRef st = (.ok (.num (.fin 0)), st)) ∧
    (∀ (wb : Workbook) (recur : Call → EvalM Value) (sheetId cellRef : Str) (st : St)
      (rc : Int × Int) (sheet : Sheet) (cell : Cell),
      cellToIndices cellRef = .ok rc →
      wb.sheets.find? (fun s => s.id == sheetId) = some sheet →
      cellAt sheet.data rc.1 rc.2 = some cell →
      (sheetId ++ ':' :: cellRef) ∉ st.getD [] →
      cell.formula = none →
      (cell.value = .null ∨ cell.value = .str [] ∨ cell.value = .num (.fin 0)) →
      getCellValueCore wb recur sheetId cellRef st = (.ok (.num (.fin 0)), st)) := by
  refine ⟨?_, ?_, ?_, ?_⟩
  · intro wb recur sheetId cellRef st h1
    unfold getCellValueCore
    rw [jsTry_app]
    simp only [bind_app, liftEx, h1, pure_app]
  · intro wb recur sheetId cellRef st rc h1 h2
    unfold getCellValueCore
    rw [jsTry_app]
    simp only [bind_app, liftEx, h1, pure_app, h2]
  · intro wb recur sheetId cellRef st rc sheet h1 h2 h3
    unfold getCellValueCore
    rw [jsTry_app]
    simp only [bind_app, liftEx, h1, pure_app, h2, h3]
  · intro wb recur sheetId cellRef st rc sheet cell h1 h2 h3 h4 h5 h6
    unfold getCellValueCore
    rw [jsTry_app]
    simp only [bind_app, liftEx, h1, pure_app, h2, h3, getSt, if_neg h4, h5]
    rcases h6 with h | h | h <;> rw [h] <;> rfl

/-- Witness for C10: all four fallbacks at concrete inputs — a malformed
reference, an unknown sheet id, an out-of-grid cell, and `B1 = 0`. -/
theorem C10_getCellValue_zero_fallbacks_witness :
    getCellValueCore wbDiv (exec host0 wbDiv 5) (txt "s1") (txt "1A") none
      = (.ok (.num (.fin 0)), none) ∧
    getCellValueCore wbDiv (exec host0 wbDiv 5) (txt "nope") (txt "A1") none
      = (.ok (.num (.fin 0)), none) ∧
    getCellValueCore wbDiv (exec host0 wbDiv 5) (txt "s1") (txt "C9") none
      = (.ok (.num (.fin 0)), none) ∧
    getCellValueCore wbDiv (exec host0 wbDiv 5) (txt "s1") (txt "B1") none
      = (.ok (.num (.fin 0)), none) :=
  ⟨C10_getCellValue_zero_fallbacks.1 _ _ _ _ _ rfl,
   C10_getCellValue_zero_fallbacks.2.1 _ _ _ _ _ (0, 0) rfl rfl,
   C10_getCellValue_zero_fallbacks.2.2.1 _ _ _ _ _ (8, 2) _ rfl rfl rfl,
   C10_getCellValue_zero_fallbacks.2.2.2 _ _ _ _ _ (0, 1) _ _ rfl rfl rfl
     (by simp) rfl (.inr (.inr rfl))⟩

/-! # Claim C2 (no exception escapes evaluateFormula) -/

/-- No thrown error ever leaves `evaluateFormulaCore`, whatever the
recursive interpreter does: the function either answers before the `try`
or catches `.thrown` inside it. -/
theorem evaluateFormulaCore_no_thrown (wb : Workbook) (recur : Call → EvalM Value)
    (f sheetId : Str) (st : St) :
    (evaluateFormulaCore wb recur f sheetId st).1 ≠ .error .thrown := by
  unfold evaluateFormulaCore
  split
  · simp [pure_app]
  · split
    · simp [pure_app]
    · rw [jsTry_app]
      rcases hm : (recExpr recur (strTrim (f.drop 1)) sheetId >>= fun result =>
          match result with
          | .null => pure (.num (.fin 0))
          | v => pure v) st with ⟨r, s1⟩
      rcases r with e | v
      · cases e <;> simp [pure_app]
      · simp


/-- **C2, confirmed.**  First conjunct: `evaluateFormula` never surfaces
a thrown JavaScript exception, at any fuel, for any input (its result is
a scalar, or the embedding's fuel marker).  Second conjunct: when the
expression pipeline throws, the catch converts it to `#ERROR!`.  Third
conjunct: a `null` expression result is mapped to 0. -/
theorem C2_no_exception_escapes :
    (∀ (host : Host) (wb : Workbook) (fuel : Nat) (f sheetId : Str) (st : St),
      (evaluateFormula host wb fuel f sheetId st).1 ≠ .error .thrown) ∧
    (∀ (wb : Workbook) (recur : Call → EvalM Value) (rest sheetId : Str) (st s1 : St)
      (sheet : Sheet),
      wb.sheets.find? (fun s => s.id == sheetId) = some sheet →
      recExpr recur (strTrim rest) sheetId st = (.error .thrown, s1) →
      evaluateFormulaCore wb recur ('=' :: rest) sheetId st
        = (.ok (.str (txt "#ERROR!")), s1)) ∧
    (∀ (wb : Workbook) (recur : Call → EvalM Value) (rest sheetId : Str) (st s1 : St)
      (sheet : Sheet),
      wb.sheets.find? (fun s => s.id == sheetId) = some sheet →
      recExpr recur (strTrim rest) sheetId st = (.ok .null, s1) →
      evaluateFormulaCore wb recur ('=' :: rest) sheetId st
        = (.ok (.num (.fin 0)), s1)) := by
  refine ⟨?_, ?_, ?_⟩
  · intro host wb fuel f sheetId st
    cases fuel with
    | zero => simp [evaluateFormula, exec, throwFuel]
    | succ n => exact evaluateFormulaCore_no_thrown wb (exec host wb n) f sheetId st
  · intro wb recur rest sheetId st s1 sheet hfind hexpr
    unfold evaluateFormulaCore
    have hcond : (List.isEmpty ('=' :: rest) || !(List.head? ('=' :: rest) == some '=')) = false := by
      simp
    rw [if_neg (by simp [hcond])]
    simp only [List.drop_succ_cons, List.drop_zero, hfind]
    rw [jsTry_app]
    simp only [bind_app, hexpr, pure_app]
  · intro wb recur rest sheetId st s1 sheet hfind hexpr
    unfold evaluateFormulaCore
    rw [if_neg (by simp)]
    simp only [List.drop_succ_cons, List.drop_zero, hfind]
    rw [jsTry_app]
    simp only [bind_app, hexpr, pure_app]

/-- Witness for C2: a formula calling the unknown function `FOO` throws
inside the pipeline and surfaces as `#ERROR!`. -/
theorem C2_no_exception_escapes_witness :
    evaluateFormulaCore wbDiv (exec host0 wbDiv 5) ('=' :: txt "FOO(1)") (txt "s1") none
      = (.ok (.str (txt "#ERROR!")), none) :=
  C2_no_exception_escapes.2.1 wbDiv (exec host0 wbDiv 5) (txt "FOO(1)") (txt "s1")
    none none _ rfl rfl

/-! # Claim C9 (cellToIndices against the reference grammar) -/

/-- Spec-side value of a column-letter run: bijective base 26 with
`A = 1, …, Z = 26` (most significant first). -/
def bijBase26 : Str → Nat
  | [] => 0
  | c :: rest => (c.toNat - 64) * 26 ^ rest.length + bijBase26 rest

/-- Spec-side decimal value of a digit run. -/
def decDigits : Str → Nat
  | [] => 0
  | c :: rest => (c.toNat - 48) * 10 ^ rest.length + decDigits rest

theorem foldl_base26 (l : Str) (n : Nat) :
    l.foldl (fun a c => a * 26 + (c.toNat - 64)) n = n * 26 ^ l.length + bijBase26 l := by
  induction l generalizing n with
  | nil => simp [bijBase26]
  | cons c rest ih =>
      rw [List.foldl_cons, ih, bijBase26]
      simp [List.length_cons, pow_succ]
      ring

theorem foldl_base10 (l : Str) (n : Nat) :
    l.foldl (fun a c => a * 10 + (c.toNat - 48)) n = n * 10 ^ l.length + decDigits l := by
  induction l generalizing n with
  | nil => simp [decDigits]
  | cons c rest ih =>
      rw [List.foldl_cons, ih, decDigits]
      simp [List.length_cons, pow_succ]
      ring

theorem upper_not_dollar {c : Char} (hc : isUpperA c = true) : (!(c == '$')) = true := by
  by_cases h : c = '$'
  · subst h; exact absurd hc (by decide)
  · simp [h]

theorem digit_not_dollar {c : Char} (hc : isDigitA c = true) : (!(c == '$')) = true := by
  by_cases h : c = '$'
  · subst h; exact absurd hc (by decide)
  · simp [h]

theorem digit_not_upper {c : Char} (hc : isDigitA c = true) : isUpperA c = false := by
  simp only [isDigitA, Bool.and_eq_true, decide_eq_true_eq] at hc
  have h : ¬ (65 ≤ c.toNat) := by omega
  simp [isUpperA, h]

theorem takeWhile_upper_append (letters digits : Str)
    (hl : letters.all isUpperA = true) (hd0 : digits ≠ [])
    (hd : digits.all isDigitA = true) :
    (letters ++ digits).takeWhile isUpperA = letters := by
  induction letters with
  | nil =>
      cases digits with
      | nil => exact absurd rfl hd0
      | cons d rest =>
          simp only [List.all_cons, Bool.and_eq_true] at hd
          simp [List.takeWhile_cons, digit_not_upper hd.1]
  | cons c rest ih =>
      simp only [List.all_cons, Bool.and_eq_true] at hl
      simp [List.takeWhile_cons, hl.1, ih hl.2]

/-- **C9, confirmed.**  First conjunct: for every text of the shape
`[$]? letters [$]? digits`, `cellToIndices` yields the zero-based column
`bijBase26(letters) - 1` and the zero-based row `decimal(digits) - 1`.
Second conjunct: if the `$`-stripped text is not `[A-Z]+[0-9]+`, parsing
fails with the thrown invalid-reference error. -/
theorem C9_cellToIndices_spec :
    (∀ (p q letters digits : Str),
      (p = [] ∨ p = txt "$") → (q = [] ∨ q = txt "$") →
      letters ≠ [] → letters.all isUpperA = true →
      digits ≠ [] → digits.all isDigitA = true →
      cellToIndices (p ++ letters ++ q ++ digits)
        = .ok ((decDigits digits : Int) - 1, (bijBase26 letters : Int) - 1)) ∧
    (∀ cell : Str,
      (¬ ∃ letters digits : Str,
        cell.filter (fun c => !(c == '$')) = letters ++ digits ∧
        letters ≠ [] ∧ letters.all isUpperA = true ∧
        digits ≠ [] ∧ digits.all isDigitA = true) →
      cellToIndices cell = .error .thrown) := by
  constructor
  · intro p q letters digits hp hq hl0 hl hd0 hd
    have hfl : letters.filter (fun c => !(c == '$')) = letters :=
      List.filter_eq_self.mpr (fun c hc => upper_not_dollar (List.all_eq_true.mp hl c hc))
    have hfd : digits.filter (fun c => !(c == '$')) = digits :=
      List.filter_eq_self.mpr (fun c hc => digit_not_dollar (List.all_eq_true.mp hd c hc))
    have hfp : p.filter (fun c => !(c == '$')) = [] := by
      rcases hp with h | h <;> subst h <;> rfl
    have hfq : q.filter (fun c => !(c == '$')) = [] := by
      rcases hq with h | h <;> subst h <;> rfl
    have hclean : (p ++ letters ++ q ++ digits).filter (fun c => !(c == '$'))
        = letters ++ digits := by
      simp [List.filter_append, hfl, hfd, hfp, hfq]
    have htake : (letters ++ digits).takeWhile isUpperA = letters :=
      takeWhile_upper_append letters digits hl hd0 hd
    have hdrop : (letters ++ digits).drop letters.length = digits := List.drop_left _ _
    simp only [cellToIndices, hclean, htake, hdrop]
    rw [if_neg (by simp [List.isEmpty_iff, hl0, hd0, hd])]
    rw [digitsToNat, foldl_base10, foldl_base26]
    simp
  · intro cell hno
    rcases h : cellToIndices cell with e | rc
    · -- the only error the function produces is `.thrown`
      simp only [cellToIndices] at h
      split at h
      · exact h ▸ rfl
      · exact absurd h (by simp)
    · exfalso
      apply hno
      simp only [cellToIndices] at h
      split at h
      · exact absurd h (by simp)
      · next hguard =>
          have hg := Bool.eq_false_iff.mpr hguard
          rw [Bool.or_eq_false_iff, Bool.or_eq_false_iff] at hg
          have hg1 := hg.1.1
          have hg2 := hg.1.2
          have hg3' := hg.2
          have hg3 : ((cell.filter (fun c => !(c == '$'))).drop
              ((cell.filter (fun c => !(c == '$'))).takeWhile isUpperA).length).all
                isDigitA = true := by
            cases hall : ((cell.filter (fun c => !(c == '$'))).drop
                ((cell.filter (fun c => !(c == '$'))).takeWhile isUpperA).length).all
                  isDigitA with
            | true => rfl
            | false => rw [hall] at hg3'; exact absurd hg3' (by decide)
          have hsplit : (cell.filter (fun c => !(c == '$'))).takeWhile isUpperA ++
              (cell.filter (fun c => !(c == '$'))).drop
                ((cell.filter (fun c => !(c == '$'))).takeWhile isUpperA).length
              = cell.filter (fun c => !(c == '$')) := by
            have hp := List.prefix_iff_eq_take.mp
              (List.takeWhile_prefix (l := cell.filter (fun c => !(c == '$'))) isUpperA)
            nth_rewrite 1 [hp]
            exact List.take_append_drop _ _
          exact ⟨(cell.filter (fun c => !(c == '$'))).takeWhile isUpperA,
                 (cell.filter (fun c => !(c == '$'))).drop
                   ((cell.filter (fun c => !(c == '$'))).takeWhile isUpperA).length,
                 hsplit.symm,
                 List.isEmpty_eq_false.mp hg1,
                 List.all_eq_true.mpr (fun c hc => List.mem_takeWhile_imp hc),
                 List.isEmpty_eq_false.mp hg2,
                 hg3⟩

/-- Witness for C9: `$B$12` parses to row 11, column 1, and the empty
text fails. -/
theorem C9_cellToIndices_spec_witness :
    cellToIndices (txt "$B$12") = .ok (11, 1) ∧
    cellToIndices [] = .error .thrown := by
  constructor
  · have h := C9_cellToIndices_spec.1 (txt "$") (txt "$") (txt "B") (txt "12")
      (.inr rfl) (.inr rfl) (by decide) (by decide) (by decide) (by decide)
    rw [show txt "$B$12" = txt "$" ++ txt "B" ++ txt "$" ++ txt "12" from rfl] at *
    rw [h]
    decide
  · refine C9_cellToIndices_spec.2 [] ?_
    rintro ⟨l, d, heq, hl, -, hd, -⟩
    have : l ++ d = [] := heq.symm
    exact hl (List.append_eq_nil.mp this).1

/-! # Claim C8 (classification of arithmetic results) -/

/-- Spec-side classification: `±Infinity` → `#DIV/0!`, other non-finite
(NaN) → `#NUM!`, otherwise the finite numeric result itself. -/
def specClassifyArith : JNum → Value
  | .inf => .str (txt "#DIV/0!")
  | .negInf => .str (txt "#DIV/0!")
  | .nan => .str (txt "#NUM!")
  | .fin q => .num (.fin q)

/-- **C8, confirmed.**  First conjunct: whenever the sanitised expression
survives the whitelist and balance checks and the host grammar evaluates
it to a number `r`, `evaluateArithmetic` returns exactly the spec's
classification of `r`.  Second conjunct: the spec's concrete test —
`=A1/B1` with `A1 = 10`, `B1 = 0` — produces `#DIV/0!` through the full
pipeline. -/
theorem C8_arithmetic_classification :
    (∀ (host : Host) (expr e0 e1 e2 e3 : Str) (r : JNum),
      e0 = expr.filter (fun c => !isWsChar c) →
      isPlainNumber e0 = false →
      e0 ≠ [] →
      e1 = currencyReplace e0.length e0 →
      e2 = percentReplace e1.length e1 →
      e3 = caretReplace e2 →
      e3.all validArithChar = true →
      parensBalanced e3 0 = true →
      jsEvalStr host e3 = .ok r →
      evaluateArithmetic host expr = specClassifyArith r) ∧
    evaluateFormula host0 wbDiv 10 (txt "=A1/B1") (txt "s1") none
      = (.ok (.str (txt "#DIV/0!")), none) := by
  refine ⟨?_, rfl⟩
  intro host expr e0 e1 e2 e3 r h0 hplain hne h1 h2 h3 hvalid hbal hok
  unfold evaluateArithmetic
  rw [← h0]
  simp only []
  rw [hplain]
  simp only [Bool.false_eq_true, if_false]
  have hne' : e0.isEmpty = false := List.isEmpty_eq_false.mpr hne
  rw [hne']
  simp only [Bool.false_eq_true, if_false]
  rw [← h1, ← h2, ← h3, hvalid, hbal]
  simp only [Bool.not_true, Bool.false_eq_true, if_false, hok]
  cases r <;> rfl

/-- Witness for C8: `10/0` evaluates to `Infinity` in the host grammar
and is classified as `#DIV/0!`. -/
theorem C8_arithmetic_classification_witness :
    evaluateArithmetic host0 (txt "10/0") = specClassifyArith .inf ∧
    specClassifyArith .inf = .str (txt "#DIV/0!") :=
  ⟨C8_arithmetic_classification.1 host0 (txt "10/0") (txt "10/0") (txt "10/0")
      (txt "10/0") (txt "10/0") .inf rfl (by decide) (by decide) (by decide)
      (by decide) (by decide) (by decide) (by decide) rfl,
   rfl⟩

/-! # Claim C4, amended -/

/-- **C4, amended.**  `IF` evaluates its condition, then always evaluates
*both* branch arguments (empty ones defaulting to `true`/`false`), and
only then selects.  First conjunct: an exception thrown by the
false-branch argument fails the whole call even though the condition and
true branch already succeeded.  Second conjunct: when everything
succeeds, the selected value is returned. -/
theorem C4_if_eager_amended :
    (∀ (recur : Call → EvalM Value) (a0 a1 a2 sheetId : Str) (st s1 s2 s3 : St)
      (c : Bool) (v1 : Value),
      a1 ≠ [] → a2 ≠ [] →
      evaluateCondition recur a0 sheetId st = (.ok c, s1) →
      recExpr recur a1 sheetId s1 = (.ok v1, s2) →
      recExpr recur a2 sheetId s2 = (.error .thrown, s3) →
      ifFunction recur [a0, a1, a2] sheetId st = (.error .thrown, s3)) ∧
    (∀ (recur : Call → EvalM Value) (a0 a1 a2 sheetId : Str) (st s1 s2 s3 : St)
      (c : Bool) (v1 v2 : Value),
      a1 ≠ [] → a2 ≠ [] →
      evaluateCondition recur a0 sheetId st = (.ok c, s1) →
      recExpr recur a1 sheetId s1 = (.ok v1, s2) →
      recExpr recur a2 sheetId s2 = (.ok v2, s3) →
      ifFunction recur [a0, a1, a2] sheetId st = (.ok (if c then v1 else v2), s3)) := by
  constructor
  · intro recur a0 a1 a2 sheetId st s1 s2 s3 c v1 ha1 ha2 hcond hv1 hv2
    unfold ifFunction
    rw [if_neg (by simp)]
    simp only [List.getD_cons_zero, List.getD_cons_succ, bind_app, hcond,
      List.isEmpty_eq_false.mpr ha1, List.isEmpty_eq_false.mpr ha2,
      Bool.not_false, if_true, hv1, hv2]
  · intro recur a0 a1 a2 sheetId st s1 s2 s3 c v1 v2 ha1 ha2 hcond hv1 hv2
    unfold ifFunction
    rw [if_neg (by simp)]
    simp only [List.getD_cons_zero, List.getD_cons_succ, bind_app, hcond,
      List.isEmpty_eq_false.mpr ha1, List.isEmpty_eq_false.mpr ha2,
      Bool.not_false, if_true, hv1, hv2, pure_app]

/-- Witness for C4's amended claim: condition `1=1` is true, the true
branch evaluates to 2, yet the unknown function in the false branch
fails the call. -/
theorem C4_if_eager_amended_witness :
    ifFunction (exec host0 wbDiv 5) [txt "1=1", txt "2", txt "NOFN(3)"] (txt "s1") none
      = (.error .thrown, none) :=
  C4_if_eager_amended.1 (exec host0 wbDiv 5) (txt "1=1") (txt "2") (txt "NOFN(3)")
    (txt "s1") none none none none true (.num (.fin ⟨2, 1⟩))
    (by decide) (by decide) rfl rfl rfl

/-! # Claim C1 (error propagation), amended -/

/-- `parseFloat` rejects any string starting with `#`. -/
theorem jsParseFloat_hash (xs : Str) : jsParseFloat ('#' :: xs) = .nan := by
  have hdw : ('#' :: xs).dropWhile isWsChar = '#' :: xs := by
    rw [List.dropWhile_cons, if_neg (by decide)]
  have hsign : signSplit ('#' :: xs) = (false, '#' :: xs) := by
    simp only [signSplit, List.head?_cons]
    rw [if_neg (by decide), if_neg (by decide)]
  have hinf : (txt "Infinity").isPrefixOf ('#' :: xs) = false := rfl
  have hdec : parseDecCore ('#' :: xs) = none := by
    have htw : ('#' :: xs).takeWhile isDigitA = [] := by
      rw [List.takeWhile_cons, if_neg (by decide)]
    have hdot : (('#' :: xs).head? == some '.') = false := rfl
    simp only [parseDecCore, htw, List.length_nil, List.drop_zero, hdot]
    simp
  simp only [jsParseFloat, hdw, hsign, hinf, hdec]
  rfl

/-- `toNumber` maps every string starting with `#` — in particular every
error sentinel — to the number 0. -/
theorem toNumber_hash (xs : Str) : toNumber (.str ('#' :: xs)) = .fin 0 := by
  have hfil : ('#' :: xs).filter (fun c => !(c == '$' || c == ',' || isWsChar c))
      = '#' :: xs.filter (fun c => !(c == '$' || c == ',' || isWsChar c)) := by
    rw [List.filter_cons, if_pos (by decide)]
  simp only [toNumber, hfil]
  cases hxs : xs.filter (fun c => !(c == '$' || c == ',' || isWsChar c)) with
  | nil => rfl
  | cons y ys =>
      by_cases h : (('#' :: y :: ys).getLast? == some '%') = true
      · rw [if_pos h, List.dropLast_cons₂, jsParseFloat_hash]
        rfl
      · rw [if_neg h, jsParseFloat_hash]
        rfl

/-- **C1, amended.**  What survives of the claim, and what fails.
Conjunct 1: `toNumber` sends every `#`-string to 0 — the root coercion.
Conjunct 2 (general): in the same-sheet substitution pass, as soon as a
referenced cell's value is an error sentinel, that exact value is
returned early (`.inr`) — the sentinel does propagate unchanged through
cell references in expressions.  Conjuncts 3-4 (concrete): `=A1` with
`A1 = "#REF!"` surfaces `#REF!`, and so does the concatenation
`="Total: "&A1`.  Conjuncts 5-7 (the failures): `=SUM(A1)+1` is 1 — the
error fed to SUM became 0, not `#REF!`; a nested `IF(1=1,A1,2)` inside a
larger expression is spliced back as the text `0`
(`String(toNumber(result))`), so `=IF(1=1,A1,2)+1` is 1, not an error. -/
theorem C1_error_propagation_amended :
    (∀ xs : Str, toNumber (.str ('#' :: xs)) = .fin 0) ∧
    (∀ (wb : Workbook) (recur : Call → EvalM Value) (sheetId r : Str)
       (rest : List Str) (acc : Str) (st : St) (v : Value) (st' : St),
       getCellValueCore wb recur sheetId r st = (.ok v, st') →
       isErrStr v = true →
       cellRefLoop wb recur sheetId (r :: rest) acc st = (.ok (.inr v), st')) ∧
    evaluateFormula host0 wbErrLit 20 (txt "=A1") (txt "s1") none
      = (.ok (.str (txt "#REF!")), none) ∧
    evaluateFormula host0 wbErrLit 20 (txt "=\"Total: \"&A1") (txt "s1") none
      = (.ok (.str (txt "#REF!")), none) ∧
    evaluateFormula host0 wbErrLit 20 (txt "=SUM(A1)+1") (txt "s1") none
      = (.ok (.num (.fin 1)), none) ∧
    replaceFunctionCalls host0 wbErrLit 20 (txt "IF(1=1,A1,2)+1") (txt "s1") none
      = (.ok (txt "0+1"), none) ∧
    evaluateFormula host0 wbErrLit 20 (txt "=IF(1=1,A1,2)+1") (txt "s1") none
      = (.ok (.num (.fin 1)), none) := by
  refine ⟨toNumber_hash, ?_, rfl, rfl, rfl, rfl, rfl⟩
  intro wb recur sheetId r rest acc st v st' hget herr
  simp only [cellRefLoop, bind_app, hget]
  rw [if_pos herr, pure_app]

/-- Witness for the amended C1: the general propagation conjunct fires on
the concrete workbook whose `A1` stores `#REF!`. -/
theorem C1_error_propagation_amended_witness :
    cellRefLoop wbErrLit (exec host0 wbErrLit 5) (txt "s1") [txt "A1"] (txt "A1") none
      = (.ok (.inr (.str (txt "#REF!"))), none) :=
  C1_error_propagation_amended.2.1 wbErrLit (exec host0 wbErrLit 5) (txt "s1")
    (txt "A1") [] (txt "A1") none (.str (txt "#REF!")) none rfl rfl

/-! # Claim C7 (string concatenation with error propagation) -/

/-- **C7, confirmed.**  Conjunct 1 (dispatch): an expression that is not a
whole function call but contains `&` goes to `evaluateStringConcatenation`,
whose parts are `smartSplit expr '&'`.  Conjunct 2 (nesting-awareness,
concrete): the splitter ignores `&` inside quotes and parentheses.
Conjuncts 3-5 (the loop, general): a blank part is skipped; a part whose
evaluation yields a non-error value appends its string form to the
accumulator and continues; a part whose evaluation yields an error
sentinel makes the loop return *that very value* at once.  Conjunct 6
(the spec's own test, concrete): on the workbook whose `A1` holds
`=Missing.B2` (which evaluates to `#REF!`), the formula `="Total: "&A1`
yields `#REF!`, not `Total: #REF!`. -/
theorem C7_concat_error_propagation :
    (∀ (host : Host) (wb : Workbook) (recur : Call → EvalM Value) (expr sheetId : Str),
       wholeFunc expr = none → expr.contains '&' = true →
       evaluateExpressionCore host wb recur expr sheetId
         = concatLoop recur sheetId (smartSplit expr '&') []) ∧
    smartSplit (txt "CONCATENATE(A1&B1,\"x\")&2") '&'
      = [txt "CONCATENATE(A1&B1,\"x\")", txt "2"] ∧
    (∀ (recur : Call → EvalM Value) (sheetId part : Str) (rest : List Str) (acc : Str),
       (strTrim part).isEmpty = true →
       concatLoop recur sheetId (part :: rest) acc
         = concatLoop recur sheetId rest acc) ∧
    (∀ (recur : Call → EvalM Value) (sheetId part : Str) (rest : List Str)
       (acc : Str) (st : St) (v : Value) (st' : St),
       (strTrim part).isEmpty = false →
       recExpr recur (strTrim part) sheetId st = (.ok v, st') →
       isErrStr v = false →
       concatLoop recur sheetId (part :: rest) acc st
         = concatLoop recur sheetId rest (acc ++ toStringJS v) st') ∧
    (∀ (recur : Call → EvalM Value) (sheetId part : Str) (rest : List Str)
       (acc : Str) (st : St) (v : Value) (st' : St),
       (strTrim part).isEmpty = false →
       recExpr recur (strTrim part) sheetId st = (.ok v, st') →
       isErrStr v = true →
       concatLoop recur sheetId (part :: rest) acc st = (.ok v, st')) ∧
    evaluateFormula host0 wbErrFormula 10 (txt "=\"Total: \"&A1") (txt "s1") none
      = (.ok (.str (txt "#REF!")), none) := by
  refine ⟨?_, rfl, ?_, ?_, ?_, rfl⟩
  · intro host wb recur expr sheetId h1 h2
    simp only [evaluateExpressionCore, h1, h2, if_true, evaluateStringConcatenation]
  · intro recur sheetId part rest acc h1
    simp only [concatLoop, h1, if_true]
  · intro recur sheetId part rest acc st v st' h1 h2 h3
    simp only [concatLoop, h1, Bool.false_eq_true, if_false, bind_app, h2, h3]
  · intro recur sheetId part rest acc st v st' h1 h2 h3
    simp only [concatLoop, h1, Bool.false_eq_true, if_false, bind_app, h2, h3,
      if_true, pure_app]

/-- Witness for C7: the error-short-circuit conjunct fires concretely —
the first part `A1` of `A1&B1` errors out on the workbook whose `A1`
holds `=Missing.B2`, and `B1` is never reached. -/
theorem C7_concat_error_propagation_witness :
    (strTrim (txt "A1")).isEmpty = false ∧
    concatLoop (exec host0 wbErrFormula 8) (txt "s1") [txt "A1", txt "B1"] [] none
      = (.ok (.str (txt "#REF!")), none) :=
  ⟨rfl, C7_concat_error_propagation.2.2.2.2.1 (exec host0 wbErrFormula 8) (txt "s1")
    (txt "A1") [txt "B1"] [] none (.str (txt "#REF!")) none rfl rfl rfl⟩

/-! # Claim C6: state preservation machinery

`Pres m` says the computation's final `evaluatingCells` state always
equals its initial one, whatever the outcome (value, thrown error, or
fuel exhaustion).  Every monad combinator except `setSt` preserves the
state outright; the two `setSt`s of `getCellValueCore` cancel under its
membership guard. -/

def Pres {α : Type} (m : EvalM α) : Prop := ∀ st, (m st).2 = st

theorem presPure {α : Type} (x : α) : Pres (pure x : EvalM α) := fun _ => rfl

theorem presThrowJS {α : Type} : Pres (throwJS : EvalM α) := fun _ => rfl

theorem presThrowFuel {α : Type} : Pres (throwFuel : EvalM α) := fun _ => rfl

theorem presGetSt : Pres getSt := fun _ => rfl

theorem presWithSt {α : Type} (tmp : St) (m : EvalM α) : Pres (withSt tmp m) :=
  fun _ => rfl

theorem presLiftEx {α : Type} (e : Except Err α) : Pres (liftEx e) := by
  rcases e with e | a <;> exact fun _ => rfl

theorem presBind {α β : Type} {m : EvalM α} {k : α → EvalM β}
    (hm : Pres m) (hk : ∀ a, Pres (k a)) : Pres (m >>= k) := by
  intro st
  have h1 := hm st
  rw [bind_app]
  rcases hres : m st with ⟨e | a, s1⟩ <;> rw [hres] at h1
  · exact h1
  · rw [hk a s1]; exact h1

theorem presJsTry {α : Type} {m handler : EvalM α}
    (hm : Pres m) (hh : Pres handler) : Pres (jsTry m handler) := by
  intro st
  have h1 := hm st
  rw [jsTry_app]
  rcases hres : m st with ⟨e | a, s1⟩ <;> rw [hres] at h1
  · rcases e
    · rw [hh s1]; exact h1
    · exact h1
  · exact h1

theorem presAttempt {α : Type} {m : EvalM α} (hm : Pres m) :
    Pres (attempt m) := fun st => hm st

/-- The shared-set discipline of `getCellValue` (formula-engine.ts:119):
the key is added before the recursive formula evaluation and erased
afterwards (also when the recursion threw, since the reified `attempt`
models the mutation surviving into the `catch`), so the whole call leaves
the set exactly as it found it. -/
theorem presGetCellValueCore (wb : Workbook) (recur : Call → EvalM Value)
    (sheetId cellRef : Str) (hR : ∀ c, Pres (recur c)) :
    Pres (getCellValueCore wb recur sheetId cellRef) := by
  intro st
  unfold getCellValueCore
  rw [jsTry_app]
  rcases hci : cellToIndices cellRef with e | rc
  · rcases e <;> simp [bind_app, liftEx, hci, pure_app]
  · simp only [bind_app, liftEx, hci, pure_app]
    rcases hfind : wb.sheets.find? (fun s => s.id == sheetId) with _ | sheet
    · simp [hfind, pure_app]
    · rcases hcell : cellAt sheet.data rc.1 rc.2 with _ | cell
      · simp [hfind, hcell, pure_app]
      · simp only [hfind, hcell, bind_app, getSt]
        by_cases hmem : (sheetId ++ ':' :: cellRef) ∈ st.getD []
        · rw [if_pos hmem]
        · rw [if_neg hmem]
          rcases hf : cell.formula with _ | f
          · simp [hf, pure_app]
          · have hrec := hR (.formula f sheetId)
              (some (st.getD [] ++ [sheetId ++ ':' :: cellRef]))
            simp only [hf, bind_app, setSt, attempt, recFormula, getSt, pure_app]
            simp only [hrec, Option.getD_some]
            have hrestore :
                st.map (fun _ =>
                  (st.getD [] ++ [sheetId ++ ':' :: cellRef]).erase
                    (sheetId ++ ':' :: cellRef)) = st := by
              rcases st with _ | S
              · rfl
              · have hS : (sheetId ++ ':' :: cellRef) ∉ S := hmem
                simp [List.erase_append_right _ hS, List.erase_cons_head]
            rcases hr : (recur (.formula f sheetId)
                (some (st.getD [] ++ [sheetId ++ ':' :: cellRef]))).1 with e | v
            · rcases e <;> simp [hr, hrestore, pure_app, throwFuel]
            · simp [hr, hrestore, pure_app]

theorem presRecExpr {recur : Call → EvalM Value} {e sheetId : Str}
    (hR : ∀ c, Pres (recur c)) : Pres (recExpr recur e sheetId) := hR _

theorem presRecFormula {recur : Call → EvalM Value} {f sheetId : Str}
    (hR : ∀ c, Pres (recur c)) : Pres (recFormula recur f sheetId) := hR _

theorem presRecRfcStr {recur : Call → EvalM Value} {e sheetId : Str}
    (hR : ∀ c, Pres (recur c)) : Pres (recRfcStr recur e sheetId) := by
  unfold recRfcStr
  repeat' first
    | exact hR _
    | with_reducible apply presBind
    | with_reducible apply presPure
    | with_reducible intro x
    | split
    | simp only []

theorem presGetCellValuesLoop {recur : Call → EvalM Value} {sheet : Sheet}
    {sheetId : Str} (hR : ∀ c, Pres (recur c)) :
    ∀ l : List (Int × Int), Pres (getCellValuesLoop recur sheet sheetId l) := by
  intro l
  induction l with
  | nil => exact presPure _
  | cons p rest ih =>
      unfold getCellValuesLoop
      repeat' first
        | exact ih
        | exact hR _
        | with_reducible apply presBind
        | with_reducible apply presJsTry
        | with_reducible apply presWithSt
        | with_reducible apply presPure
        | with_reducible intro x
        | split
        | simp only []

theorem presGetCellValues {wb : Workbook} {recur : Call → EvalM Value}
    {sheetId : Str} {range : RangeT} (hR : ∀ c, Pres (recur c)) :
    Pres (getCellValues wb recur sheetId range) := by
  unfold getCellValues
  repeat' first
    | with_reducible exact presGetCellValuesLoop hR _
    | with_reducible apply presPure
    | split
    | simp only []

theorem presCondOpLoop {recur : Call → EvalM Value} {expr sheetId : Str}
    (hR : ∀ c, Pres (recur c)) :
    ∀ ops : List Str, Pres (condOpLoop recur expr sheetId ops) := by
  intro ops
  induction ops with
  | nil => exact presPure _
  | cons op rest ih =>
      unfold condOpLoop
      repeat' first
        | exact ih
        | with_reducible exact presRecExpr hR
        | with_reducible apply presBind
        | with_reducible apply presPure
        | with_reducible intro x
        | split
        | simp only []

theorem presEvaluateCondition {recur : Call → EvalM Value} {expr sheetId : Str}
    (hR : ∀ c, Pres (recur c)) : Pres (evaluateCondition recur expr sheetId) := by
  unfold evaluateCondition
  repeat' first
    | with_reducible exact presCondOpLoop hR _
    | with_reducible exact presRecExpr hR
    | with_reducible apply presBind
    | with_reducible apply presPure
    | with_reducible intro x
    | split
    | simp only []

theorem presAggArgValue {wb : Workbook} {recur : Call → EvalM Value}
    {sheetId arg : Str} (hR : ∀ c, Pres (recur c)) :
    Pres (aggArgValue wb recur sheetId arg) := by
  unfold aggArgValue
  repeat' first
    | with_reducible apply presWithSt
    | with_reducible apply presPure
    | split
    | simp only []

theorem presSumLoop {wb : Workbook} {recur : Call → EvalM Value} {sheetId : Str}
    (hR : ∀ c, Pres (recur c)) :
    ∀ (l : List Str) (acc : JNum), Pres (sumLoop wb recur sheetId l acc) := by
  intro l
  induction l with
  | nil => intro acc; exact presPure _
  | cons a rest ih =>
      intro acc
      unfold sumLoop
      repeat' first
        | exact ih _
        | with_reducible exact presGetCellValues hR
        | with_reducible exact presAggArgValue hR
        | with_reducible apply presBind
        | with_reducible apply presLiftEx
        | with_reducible apply presPure
        | with_reducible intro x
        | split
        | simp only []

theorem presSumFunction {wb : Workbook} {recur : Call → EvalM Value}
    {args : List Str} {sheetId : Str} (hR : ∀ c, Pres (recur c)) :
    Pres (sumFunction wb recur args sheetId) := by
  unfold sumFunction
  repeat' first
    | with_reducible exact presSumLoop hR _ _
    | with_reducible apply presBind
    | with_reducible apply presPure
    | with_reducible intro x

theorem presIfFunction {recur : Call → EvalM Value} {args : List Str}
    {sheetId : Str} (hR : ∀ c, Pres (recur c)) :
    Pres (ifFunction recur args sheetId) := by
  unfold ifFunction
  repeat' first
    | with_reducible exact presEvaluateCondition hR
    | with_reducible exact presRecExpr hR
    | with_reducible apply presBind
    | with_reducible apply presPure
    | with_reducible apply presThrowJS
    | with_reducible intro x
    | split
    | simp only []

theorem presAndLoop {recur : Call → EvalM Value} {sheetId : Str}
    (hR : ∀ c, Pres (recur c)) :
    ∀ l : List Str, Pres (andLoop recur sheetId l) := by
  intro l
  induction l with
  | nil => exact presPure _
  | cons a rest ih =>
      unfold andLoop
      repeat' first
        | exact ih
        | with_reducible exact presRecExpr hR
        | with_reducible apply presBind
        | with_reducible apply presPure
        | with_reducible intro x
        | split
        | simp only []

theorem presAndFunction {recur : Call → EvalM Value} {args : List Str}
    {sheetId : Str} (hR : ∀ c, Pres (recur c)) :
    Pres (andFunction recur args sheetId) := by
  unfold andFunction
  repeat' first
    | with_reducible exact presAndLoop hR _
    | with_reducible apply presBind
    | with_reducible apply presPure
    | with_reducible intro x

theorem presOrLoop {recur : Call → EvalM Value} {sheetId : Str}
    (hR : ∀ c, Pres (recur c)) :
    ∀ l : List Str, Pres (orLoop recur sheetId l) := by
  intro l
  induction l with
  | nil => exact presPure _
  | cons a rest ih =>
      unfold orLoop
      repeat' first
        | exact ih
        | with_reducible exact presRecExpr hR
        | with_reducible apply presBind
        | with_reducible apply presPure
        | with_reducible intro x
        | split
        | simp only []

theorem presOrFunction {recur : Call → EvalM Value} {args : List Str}
    {sheetId : Str} (hR : ∀ c, Pres (recur c)) :
    Pres (orFunction recur args sheetId) := by
  unfold orFunction
  repeat' first
    | with_reducible exact presOrLoop hR _
    | with_reducible apply presBind
    | with_reducible apply presPure
    | with_reducible intro x

theorem presNotFunction {recur : Call → EvalM Value} {args : List Str}
    {sheetId : Str} (hR : ∀ c, Pres (recur c)) :
    Pres (notFunction recur args sheetId) := by
  unfold notFunction
  repeat' first
    | with_reducible exact presRecExpr hR
    | with_reducible apply presBind
    | with_reducible apply presPure
    | with_reducible apply presThrowJS
    | with_reducible intro x
    | split
    | simp only []

theorem presVlookupFunction {wb : Workbook} {recur : Call → EvalM Value}
    {args : List Str} {sheetId : Str} (hR : ∀ c, Pres (recur c)) :
    Pres (vlookupFunction wb recur args sheetId) := by
  unfold vlookupFunction
  repeat' first
    | with_reducible exact presRecExpr hR
    | with_reducible apply presBind
    | with_reducible apply presWithSt
    | with_reducible apply presLiftEx
    | with_reducible apply presPure
    | with_reducible apply presThrowJS
    | with_reducible intro x
    | split
    | simp only []

theorem map_app {a b : Type} (f : a → b) (m : EvalM a) (st : St) :
    (f <$> m) st = match m st with
      | (.ok x, s1) => (.ok (f x), s1)
      | (.error e, s1) => (.error e, s1) := rfl

theorem presMap {a b : Type} (f : a → b) {m : EvalM a} (hm : Pres m) :
    Pres (f <$> m) := by
  intro st
  have h1 := hm st
  rw [map_app]
  rcases hres : m st with ⟨e | x, s1⟩ <;> rw [hres] at h1 <;> exact h1

theorem presAverageLoop {wb : Workbook} {recur : Call → EvalM Value} {sheetId : Str}
    (hR : ∀ c, Pres (recur c)) :
    ∀ (l : List Str) (acc : JNum) (n : Nat), Pres (averageLoop wb recur sheetId l acc n) := by
  intro l
  induction l with
  | nil => intro acc n; exact presPure _
  | cons a rest ih =>
      intro acc n; unfold averageLoop
      repeat' first
        | exact ih _ _
        | with_reducible exact presGetCellValues hR
        | with_reducible exact presAggArgValue hR
        | with_reducible apply presBind
        | with_reducible apply presJsTry
        | with_reducible apply presAttempt
        | with_reducible apply presWithSt
        | with_reducible apply presMap
        | with_reducible apply presPure
        | with_reducible apply presThrowJS
        | with_reducible apply presThrowFuel
        | with_reducible apply presLiftEx
        | with_reducible apply presGetSt
        | with_reducible intro x
        | split
        | simp only []

theorem presAverageFunction {wb : Workbook} {recur : Call → EvalM Value} {args : List Str} {sheetId : Str} 
    (hR : ∀ c, Pres (recur c)) :
    Pres (averageFunction wb recur args sheetId) := by
  unfold averageFunction
  repeat' first
    | with_reducible exact presAverageLoop hR _ _ _
    | with_reducible apply presBind
    | with_reducible apply presJsTry
    | with_reducible apply presAttempt
    | with_reducible apply presWithSt
    | with_reducible apply presMap
    | with_reducible apply presPure
    | with_reducible apply presThrowJS
    | with_reducible apply presThrowFuel
    | with_reducible apply presLiftEx
    | with_reducible apply presGetSt
    | with_reducible intro x
    | split
    | simp only []

theorem presCountLoop {wb : Workbook} {recur : Call → EvalM Value} {sheetId : Str}
    (hR : ∀ c, Pres (recur c)) :
    ∀ (l : List Str) (n : Nat), Pres (countLoop wb recur sheetId l n) := by
  intro l
  induction l with
  | nil => intro n; exact presPure _
  | cons a rest ih =>
      intro n; unfold countLoop
      repeat' first
        | exact ih _
        | with_reducible exact presGetCellValues hR
        | with_reducible exact presAggArgValue hR
        | with_reducible apply presBind
        | with_reducible apply presJsTry
        | with_reducible apply presAttempt
        | with_reducible apply presWithSt
        | with_reducible apply presMap
        | with_reducible apply presPure
        | with_reducible apply presThrowJS
        | with_reducible apply presThrowFuel
        | with_reducible apply presLiftEx
        | with_reducible apply presGetSt
        | with_reducible intro x
        | split
        | simp only []

theorem presCountFunction {wb : Workbook} {recur : Call → EvalM Value} {args : List Str} {sheetId : Str} 
    (hR : ∀ c, Pres (recur c)) :
    Pres (countFunction wb recur args sheetId) := by
  unfold countFunction
  repeat' first
    | with_reducible exact presCountLoop hR _ _
    | with_reducible apply presBind
    | with_reducible apply presJsTry
    | with_reducible apply presAttempt
    | with_reducible apply presWithSt
    | with_reducible apply presMap
    | with_reducible apply presPure
    | with_reducible apply presThrowJS
    | with_reducible apply presThrowFuel
    | with_reducible apply presLiftEx
    | with_reducible apply presGetSt
    | with_reducible intro x
    | split
    | simp only []

theorem presCountALoop {wb : Workbook} {recur : Call → EvalM Value} {sheetId : Str}
    (hR : ∀ c, Pres (recur c)) :
    ∀ (l : List Str) (n : Nat), Pres (countALoop wb recur sheetId l n) := by
  intro l
  induction l with
  | nil => intro n; exact presPure _
  | cons a rest ih =>
      intro n; unfold countALoop
      repeat' first
        | exact ih _
        | with_reducible apply presBind
        | with_reducible apply presJsTry
        | with_reducible apply presAttempt
        | with_reducible apply presWithSt
        | with_reducible apply presMap
        | with_reducible apply presPure
        | with_reducible apply presThrowJS
        | with_reducible apply presThrowFuel
        | with_reducible apply presLiftEx
        | with_reducible apply presGetSt
        | with_reducible intro x
        | split
        | simp only []

theorem presCountAFunction {wb : Workbook} {recur : Call → EvalM Value} {args : List Str} {sheetId : Str} 
    (hR : ∀ c, Pres (recur c)) :
    Pres (countAFunction wb recur args sheetId) := by
  unfold countAFunction
  repeat' first
    | with_reducible exact presCountALoop hR _ _
    | with_reducible apply presBind
    | with_reducible apply presJsTry
    | with_reducible apply presAttempt
    | with_reducible apply presWithSt
    | with_reducible apply presMap
    | with_reducible apply presPure
    | with_reducible apply presThrowJS
    | with_reducible apply presThrowFuel
    | with_reducible apply presLiftEx
    | with_reducible apply presGetSt
    | with_reducible intro x
    | split
    | simp only []

theorem presMaxLoop {wb : Workbook} {recur : Call → EvalM Value} {sheetId : Str}
    (hR : ∀ c, Pres (recur c)) :
    ∀ (l : List Str) (acc : JNum), Pres (maxLoop wb recur sheetId l acc) := by
  intro l
  induction l with
  | nil => intro acc; exact presPure _
  | cons a rest ih =>
      intro acc; unfold maxLoop
      repeat' first
        | exact ih _
        | with_reducible exact presGetCellValues hR
        | with_reducible exact presAggArgValue hR
        | with_reducible apply presBind
        | with_reducible apply presJsTry
        | with_reducible apply presAttempt
        | with_reducible apply presWithSt
        | with_reducible apply presMap
        | with_reducible apply presPure
        | with_reducible apply presThrowJS
        | with_reducible apply presThrowFuel
        | with_reducible apply presLiftEx
        | with_reducible apply presGetSt
        | with_reducible intro x
        | split
        | simp only []

theorem presMaxFunction {wb : Workbook} {recur : Call → EvalM Value} {args : List Str} {sheetId : Str} 
    (hR : ∀ c, Pres (recur c)) :
    Pres (maxFunction wb recur args sheetId) := by
  unfold maxFunction
  repeat' first
    | with_reducible exact presMaxLoop hR _ _
    | with_reducible apply presBind
    | with_reducible apply presJsTry
    | with_reducible apply presAttempt
    | with_reducible apply presWithSt
    | with_reducible apply presMap
    | with_reducible apply presPure
    | with_reducible apply presThrowJS
    | with_reducible apply presThrowFuel
    | with_reducible apply presLiftEx
    | with_reducible apply presGetSt
    | with_reducible intro x
    | split
    | simp only []

theorem presMinLoop {wb : Workbook} {recur : Call → EvalM Value} {sheetId : Str}
    (hR : ∀ c, Pres (recur c)) :
    ∀ (l : List Str) (acc : JNum), Pres (minLoop wb recur sheetId l acc) := by
  intro l
  induction l with
  | nil => intro acc; exact presPure _
  | cons a rest ih =>
      intro acc; unfold minLoop
      repeat' first
        | exact ih _
        | with_reducible exact presGetCellValues hR
        | with_reducible exact presAggArgValue hR
        | with_reducible apply presBind
        | with_reducible apply presJsTry
        | with_reducible apply presAttempt
        | with_reducible apply presWithSt
        | with_reducible apply presMap
        | with_reducible apply presPure
        | with_reducible apply presThrowJS
        | with_reducible apply presThrowFuel
        | with_reducible apply presLiftEx
        | with_reducible apply presGetSt
        | with_reducible intro x
        | split
        | simp only []

theorem presMinFunction {wb : Workbook} {recur : Call → EvalM Value} {args : List Str} {sheetId : Str} 
    (hR : ∀ c, Pres (recur c)) :
    Pres (minFunction wb recur args sheetId) := by
  unfold minFunction
  repeat' first
    | with_reducible exact presMinLoop hR _ _
    | with_reducible apply presBind
    | with_reducible apply presJsTry
    | with_reducible apply presAttempt
    | with_reducible apply presWithSt
    | with_reducible apply presMap
    | with_reducible apply presPure
    | with_reducible apply presThrowJS
    | with_reducible apply presThrowFuel
    | with_reducible apply presLiftEx
    | with_reducible apply presGetSt
    | with_reducible intro x
    | split
    | simp only []

theorem presStdevCollect {wb : Workbook} {recur : Call → EvalM Value} {sheetId : Str}
    (hR : ∀ c, Pres (recur c)) :
    ∀ (l : List Str) (acc : List JNum), Pres (stdevCollect wb recur sheetId l acc) := by
  intro l
  induction l with
  | nil => intro acc; exact presPure _
  | cons a rest ih =>
      intro acc; unfold stdevCollect
      repeat' first
        | exact ih _
        | with_reducible exact presGetCellValues hR
        | with_reducible exact presAggArgValue hR
        | with_reducible apply presBind
        | with_reducible apply presJsTry
        | with_reducible apply presAttempt
        | with_reducible apply presWithSt
        | with_reducible apply presMap
        | with_reducible apply presPure
        | with_reducible apply presThrowJS
        | with_reducible apply presThrowFuel
        | with_reducible apply presLiftEx
        | with_reducible apply presGetSt
        | with_reducible intro x
        | split
        | simp only []

theorem presStdevFunction {host : Host} {wb : Workbook} {recur : Call → EvalM Value} {args : List Str} {sheetId : Str} 
    (hR : ∀ c, Pres (recur c)) :
    Pres (stdevFunction host wb recur args sheetId) := by
  unfold stdevFunction
  repeat' first
    | with_reducible exact presStdevCollect hR _ _
    | with_reducible apply presBind
    | with_reducible apply presJsTry
    | with_reducible apply presAttempt
    | with_reducible apply presWithSt
    | with_reducible apply presMap
    | with_reducible apply presPure
    | with_reducible apply presThrowJS
    | with_reducible apply presThrowFuel
    | with_reducible apply presLiftEx
    | with_reducible apply presGetSt
    | with_reducible intro x
    | split
    | simp only []

theorem presVarFunction {host : Host} {wb : Workbook} {recur : Call → EvalM Value} {args : List Str} {sheetId : Str} 
    (hR : ∀ c, Pres (recur c)) :
    Pres (varFunction host wb recur args sheetId) := by
  unfold varFunction
  repeat' first
    | with_reducible exact presStdevFunction hR
    | with_reducible apply presBind
    | with_reducible apply presJsTry
    | with_reducible apply presAttempt
    | with_reducible apply presWithSt
    | with_reducible apply presMap
    | with_reducible apply presPure
    | with_reducible apply presThrowJS
    | with_reducible apply presThrowFuel
    | with_reducible apply presLiftEx
    | with_reducible apply presGetSt
    | with_reducible intro x
    | split
    | simp only []

theorem presHlookupFunction {wb : Workbook} {recur : Call → EvalM Value} {args : List Str} {sheetId : Str} 
    (hR : ∀ c, Pres (recur c)) :
    Pres (hlookupFunction wb recur args sheetId) := by
  unfold hlookupFunction
  repeat' first
    | with_reducible apply presBind
    | with_reducible apply presJsTry
    | with_reducible apply presAttempt
    | with_reducible apply presWithSt
    | with_reducible apply presMap
    | with_reducible apply presPure
    | with_reducible apply presThrowJS
    | with_reducible apply presThrowFuel
    | with_reducible apply presLiftEx
    | with_reducible apply presGetSt
    | with_reducible intro x
    | split
    | simp only []

theorem presIndexFunction {wb : Workbook} {recur : Call → EvalM Value} {args : List Str} {sheetId : Str} 
    (hR : ∀ c, Pres (recur c)) :
    Pres (indexFunction wb recur args sheetId) := by
  unfold indexFunction
  repeat' first
    | with_reducible apply presBind
    | with_reducible apply presJsTry
    | with_reducible apply presAttempt
    | with_reducible apply presWithSt
    | with_reducible apply presMap
    | with_reducible apply presPure
    | with_reducible apply presThrowJS
    | with_reducible apply presThrowFuel
    | with_reducible apply presLiftEx
    | with_reducible apply presGetSt
    | with_reducible intro x
    | split
    | simp only []

theorem presGetEvaluatedCellValue {recur : Call → EvalM Value} {sheet : Sheet} {sheetId : Str} {row col : Int}
    (hR : ∀ c, Pres (recur c)) :
    Pres (getEvaluatedCellValue recur sheet sheetId row col) := by
  unfold getEvaluatedCellValue
  repeat' first
    | with_reducible apply presBind
    | with_reducible apply presJsTry
    | with_reducible apply presAttempt
    | with_reducible apply presWithSt
    | with_reducible apply presMap
    | with_reducible apply presPure
    | with_reducible apply presThrowJS
    | with_reducible apply presThrowFuel
    | with_reducible apply presLiftEx
    | with_reducible apply presGetSt
    | with_reducible intro x
    | split
    | simp only []

theorem presMatchScan {recur : Call → EvalM Value} {sheet : Sheet} {sheetId : Str} {lookupValue : Value}
    (hR : ∀ c, Pres (recur c)) :
    ∀ l : List ((Int × Int) × Int), Pres (matchScan recur sheet sheetId lookupValue l) := by
  intro l
  induction l with
  | nil => exact presPure _
  | cons a rest ih =>
      unfold matchScan
      repeat' first
        | exact ih
        | with_reducible exact presGetEvaluatedCellValue hR
        | with_reducible apply presBind
        | with_reducible apply presJsTry
        | with_reducible apply presAttempt
        | with_reducible apply presWithSt
        | with_reducible apply presMap
        | with_reducible apply presPure
        | with_reducible apply presThrowJS
        | with_reducible apply presThrowFuel
        | with_reducible apply presLiftEx
        | with_reducible apply presGetSt
        | with_reducible intro x
        | split
        | simp only []

theorem presMatchFunction {wb : Workbook} {recur : Call → EvalM Value} {args : List Str} {sheetId : Str} 
    (hR : ∀ c, Pres (recur c)) :
    Pres (matchFunction wb recur args sheetId) := by
  unfold matchFunction
  repeat' first
    | with_reducible exact presMatchScan hR _
    | with_reducible apply presBind
    | with_reducible apply presJsTry
    | with_reducible apply presAttempt
    | with_reducible apply presWithSt
    | with_reducible apply presMap
    | with_reducible apply presPure
    | with_reducible apply presThrowJS
    | with_reducible apply presThrowFuel
    | with_reducible apply presLiftEx
    | with_reducible apply presGetSt
    | with_reducible intro x
    | split
    | simp only []

theorem presNpvLoop {host : Host} {recur : Call → EvalM Value} {sheetId : Str} {rate : JNum}
    (hR : ∀ c, Pres (recur c)) :
    ∀ (l : List Str) (i : Nat) (acc : JNum), Pres (npvLoop host recur sheetId rate l i acc) := by
  intro l
  induction l with
  | nil => intro i acc; exact presPure _
  | cons a rest ih =>
      intro i acc; unfold npvLoop
      repeat' first
        | exact ih _ _
        | with_reducible exact presRecExpr hR
        | with_reducible apply presBind
        | with_reducible apply presJsTry
        | with_reducible apply presAttempt
        | with_reducible apply presWithSt
        | with_reducible apply presMap
        | with_reducible apply presPure
        | with_reducible apply presThrowJS
        | with_reducible apply presThrowFuel
        | with_reducible apply presLiftEx
        | with_reducible apply presGetSt
        | with_reducible intro x
        | split
        | simp only []

theorem presNpvFunction {host : Host} {recur : Call → EvalM Value} {args : List Str} {sheetId : Str} 
    (hR : ∀ c, Pres (recur c)) :
    Pres (npvFunction host recur args sheetId) := by
  unfold npvFunction
  repeat' first
    | with_reducible exact presNpvLoop hR _ _ _
    | with_reducible exact presRecExpr hR
    | with_reducible apply presBind
    | with_reducible apply presJsTry
    | with_reducible apply presAttempt
    | with_reducible apply presWithSt
    | with_reducible apply presMap
    | with_reducible apply presPure
    | with_reducible apply presThrowJS
    | with_reducible apply presThrowFuel
    | with_reducible apply presLiftEx
    | with_reducible apply presGetSt
    | with_reducible intro x
    | split
    | simp only []

theorem presIrrCollect {wb : Workbook} {recur : Call → EvalM Value} {sheetId : Str}
    (hR : ∀ c, Pres (recur c)) :
    ∀ (l : List Str) (acc : List JNum), Pres (irrCollect wb recur sheetId l acc) := by
  intro l
  induction l with
  | nil => intro acc; exact presPure _
  | cons a rest ih =>
      intro acc; unfold irrCollect
      repeat' first
        | exact ih _
        | with_reducible exact presGetCellValues hR
        | with_reducible exact presRecExpr hR
        | with_reducible apply presBind
        | with_reducible apply presJsTry
        | with_reducible apply presAttempt
        | with_reducible apply presWithSt
        | with_reducible apply presMap
        | with_reducible apply presPure
        | with_reducible apply presThrowJS
        | with_reducible apply presThrowFuel
        | with_reducible apply presLiftEx
        | with_reducible apply presGetSt
        | with_reducible intro x
        | split
        | simp only []

theorem presIrrFunction {host : Host} {wb : Workbook} {recur : Call → EvalM Value} {args : List Str} {sheetId : Str} 
    (hR : ∀ c, Pres (recur c)) :
    Pres (irrFunction host wb recur args sheetId) := by
  unfold irrFunction
  repeat' first
    | with_reducible exact presIrrCollect hR _ _
    | with_reducible apply presBind
    | with_reducible apply presJsTry
    | with_reducible apply presAttempt
    | with_reducible apply presWithSt
    | with_reducible apply presMap
    | with_reducible apply presPure
    | with_reducible apply presThrowJS
    | with_reducible apply presThrowFuel
    | with_reducible apply presLiftEx
    | with_reducible apply presGetSt
    | with_reducible intro x
    | split
    | simp only []

theorem presPmtFunction {host : Host} {recur : Call → EvalM Value} {args : List Str} {sheetId : Str} 
    (hR : ∀ c, Pres (recur c)) :
    Pres (pmtFunction host recur args sheetId) := by
  unfold pmtFunction
  repeat' first
    | with_reducible exact presRecExpr hR
    | with_reducible apply presBind
    | with_reducible apply presJsTry
    | with_reducible apply presAttempt
    | with_reducible apply presWithSt
    | with_reducible apply presMap
    | with_reducible apply presPure
    | with_reducible apply presThrowJS
    | with_reducible apply presThrowFuel
    | with_reducible apply presLiftEx
    | with_reducible apply presGetSt
    | with_reducible intro x
    | split
    | simp only []

theorem presPvFunction {host : Host} {recur : Call → EvalM Value} {args : List Str} {sheetId : Str} 
    (hR : ∀ c, Pres (recur c)) :
    Pres (pvFunction host recur args sheetId) := by
  unfold pvFunction
  repeat' first
    | with_reducible exact presRecExpr hR
    | with_reducible apply presBind
    | with_reducible apply presJsTry
    | with_reducible apply presAttempt
    | with_reducible apply presWithSt
    | with_reducible apply presMap
    | with_reducible apply presPure
    | with_reducible apply presThrowJS
    | with_reducible apply presThrowFuel
    | with_reducible apply presLiftEx
    | with_reducible apply presGetSt
    | with_reducible intro x
    | split
    | simp only []

theorem presFvFunction {host : Host} {recur : Call → EvalM Value} {args : List Str} {sheetId : Str} 
    (hR : ∀ c, Pres (recur c)) :
    Pres (fvFunction host recur args sheetId) := by
  unfold fvFunction
  repeat' first
    | with_reducible exact presRecExpr hR
    | with_reducible apply presBind
    | with_reducible apply presJsTry
    | with_reducible apply presAttempt
    | with_reducible apply presWithSt
    | with_reducible apply presMap
    | with_reducible apply presPure
    | with_reducible apply presThrowJS
    | with_reducible apply presThrowFuel
    | with_reducible apply presLiftEx
    | with_reducible apply presGetSt
    | with_reducible intro x
    | split
    | simp only []

theorem presDateFunction {host : Host} {recur : Call → EvalM Value} {args : List Str} {sheetId : Str} 
    (hR : ∀ c, Pres (recur c)) :
    Pres (dateFunction host recur args sheetId) := by
  unfold dateFunction
  repeat' first
    | with_reducible apply presBind
    | with_reducible apply presJsTry
    | with_reducible apply presAttempt
    | with_reducible apply presWithSt
    | with_reducible apply presMap
    | with_reducible apply presPure
    | with_reducible apply presThrowJS
    | with_reducible apply presThrowFuel
    | with_reducible apply presLiftEx
    | with_reducible apply presGetSt
    | with_reducible intro x
    | split
    | simp only []

theorem presYearFunction {host : Host} {recur : Call → EvalM Value} {args : List Str} {sheetId : Str} 
    (hR : ∀ c, Pres (recur c)) :
    Pres (yearFunction host recur args sheetId) := by
  unfold yearFunction
  repeat' first
    | with_reducible apply presBind
    | with_reducible apply presJsTry
    | with_reducible apply presAttempt
    | with_reducible apply presWithSt
    | with_reducible apply presMap
    | with_reducible apply presPure
    | with_reducible apply presThrowJS
    | with_reducible apply presThrowFuel
    | with_reducible apply presLiftEx
    | with_reducible apply presGetSt
    | with_reducible intro x
    | split
    | simp only []

theorem presMonthFunction {host : Host} {recur : Call → EvalM Value} {args : List Str} {sheetId : Str} 
    (hR : ∀ c, Pres (recur c)) :
    Pres (monthFunction host recur args sheetId) := by
  unfold monthFunction
  repeat' first
    | with_reducible apply presBind
    | with_reducible apply presJsTry
    | with_reducible apply presAttempt
    | with_reducible apply presWithSt
    | with_reducible apply presMap
    | with_reducible apply presPure
    | with_reducible apply presThrowJS
    | with_reducible apply presThrowFuel
    | with_reducible apply presLiftEx
    | with_reducible apply presGetSt
    | with_reducible intro x
    | split
    | simp only []

theorem presDayFunction {host : Host} {recur : Call → EvalM Value} {args : List Str} {sheetId : Str} 
    (hR : ∀ c, Pres (recur c)) :
    Pres (dayFunction host recur args sheetId) := by
  unfold dayFunction
  repeat' first
    | with_reducible apply presBind
    | with_reducible apply presJsTry
    | with_reducible apply presAttempt
    | with_reducible apply presWithSt
    | with_reducible apply presMap
    | with_reducible apply presPure
    | with_reducible apply presThrowJS
    | with_reducible apply presThrowFuel
    | with_reducible apply presLiftEx
    | with_reducible apply presGetSt
    | with_reducible intro x
    | split
    | simp only []

theorem presConcatenateLoop {recur : Call → EvalM Value} {sheetId : Str}
    (hR : ∀ c, Pres (recur c)) :
    ∀ (l : List Str) (acc : Str), Pres (concatenateLoop recur sheetId l acc) := by
  intro l
  induction l with
  | nil => intro acc; exact presPure _
  | cons a rest ih =>
      intro acc; unfold concatenateLoop
      repeat' first
        | exact ih _
        | with_reducible apply presBind
        | with_reducible apply presJsTry
        | with_reducible apply presAttempt
        | with_reducible apply presWithSt
        | with_reducible apply presMap
        | with_reducible apply presPure
        | with_reducible apply presThrowJS
        | with_reducible apply presThrowFuel
        | with_reducible apply presLiftEx
        | with_reducible apply presGetSt
        | with_reducible intro x
        | split
        | simp only []

theorem presConcatenateFunction {recur : Call → EvalM Value} {args : List Str} {sheetId : Str} 
    (hR : ∀ c, Pres (recur c)) :
    Pres (concatenateFunction recur args sheetId) := by
  unfold concatenateFunction
  repeat' first
    | with_reducible exact presConcatenateLoop hR _ _
    | with_reducible apply presBind
    | with_reducible apply presJsTry
    | with_reducible apply presAttempt
    | with_reducible apply presWithSt
    | with_reducible apply presMap
    | with_reducible apply presPure
    | with_reducible apply presThrowJS
    | with_reducible apply presThrowFuel
    | with_reducible apply presLiftEx
    | with_reducible apply presGetSt
    | with_reducible intro x
    | split
    | simp only []

theorem presLeftFunction {recur : Call → EvalM Value} {args : List Str} {sheetId : Str} 
    (hR : ∀ c, Pres (recur c)) :
    Pres (leftFunction recur args sheetId) := by
  unfold leftFunction
  repeat' first
    | with_reducible apply presBind
    | with_reducible apply presJsTry
    | with_reducible apply presAttempt
    | with_reducible apply presWithSt
    | with_reducible apply presMap
    | with_reducible apply presPure
    | with_reducible apply presThrowJS
    | with_reducible apply presThrowFuel
    | with_reducible apply presLiftEx
    | with_reducible apply presGetSt
    | with_reducible intro x
    | split
    | simp only []

theorem presRightFunction {recur : Call → EvalM Value} {args : List Str} {sheetId : Str} 
    (hR : ∀ c, Pres (recur c)) :
    Pres (rightFunction recur args sheetId) := by
  unfold rightFunction
  repeat' first
    | with_reducible apply presBind
    | with_reducible apply presJsTry
    | with_reducible apply presAttempt
    | with_reducible apply presWithSt
    | with_reducible apply presMap
    | with_reducible apply presPure
    | with_reducible apply presThrowJS
    | with_reducible apply presThrowFuel
    | with_reducible apply presLiftEx
    | with_reducible apply presGetSt
    | with_reducible intro x
    | split
    | simp only []

theorem presMidFunction {recur : Call → EvalM Value} {args : List Str} {sheetId : Str} 
    (hR : ∀ c, Pres (recur c)) :
    Pres (midFunction recur args sheetId) := by
  unfold midFunction
  repeat' first
    | with_reducible apply presBind
    | with_reducible apply presJsTry
    | with_reducible apply presAttempt
    | with_reducible apply presWithSt
    | with_reducible apply presMap
    | with_reducible apply presPure
    | with_reducible apply presThrowJS
    | with_reducible apply presThrowFuel
    | with_reducible apply presLiftEx
    | with_reducible apply presGetSt
    | with_reducible intro x
    | split
    | simp only []

theorem presLenFunction {recur : Call → EvalM Value} {args : List Str} {sheetId : Str} 
    (hR : ∀ c, Pres (recur c)) :
    Pres (lenFunction recur args sheetId) := by
  unfold lenFunction
  repeat' first
    | with_reducible apply presBind
    | with_reducible apply presJsTry
    | with_reducible apply presAttempt
    | with_reducible apply presWithSt
    | with_reducible apply presMap
    | with_reducible apply presPure
    | with_reducible apply presThrowJS
    | with_reducible apply presThrowFuel
    | with_reducible apply presLiftEx
    | with_reducible apply presGetSt
    | with_reducible intro x
    | split
    | simp only []

theorem presUpperFunction {recur : Call → EvalM Value} {args : List Str} {sheetId : Str} 
    (hR : ∀ c, Pres (recur c)) :
    Pres (upperFunction recur args sheetId) := by
  unfold upperFunction
  repeat' first
    | with_reducible apply presBind
    | with_reducible apply presJsTry
    | with_reducible apply presAttempt
    | with_reducible apply presWithSt
    | with_reducible apply presMap
    | with_reducible apply presPure
    | with_reducible apply presThrowJS
    | with_reducible apply presThrowFuel
    | with_reducible apply presLiftEx
    | with_reducible apply presGetSt
    | with_reducible intro x
    | split
    | simp only []

theorem presLowerFunction {recur : Call → EvalM Value} {args : List Str} {sheetId : Str} 
    (hR : ∀ c, Pres (recur c)) :
    Pres (lowerFunction recur args sheetId) := by
  unfold lowerFunction
  repeat' first
    | with_reducible apply presBind
    | with_reducible apply presJsTry
    | with_reducible apply presAttempt
    | with_reducible apply presWithSt
    | with_reducible apply presMap
    | with_reducible apply presPure
    | with_reducible apply presThrowJS
    | with_reducible apply presThrowFuel
    | with_reducible apply presLiftEx
    | with_reducible apply presGetSt
    | with_reducible intro x
    | split
    | simp only []

theorem presTrimFunction {recur : Call → EvalM Value} {args : List Str} {sheetId : Str} 
    (hR : ∀ c, Pres (recur c)) :
    Pres (trimFunction recur args sheetId) := by
  unfold trimFunction
  repeat' first
    | with_reducible apply presBind
    | with_reducible apply presJsTry
    | with_reducible apply presAttempt
    | with_reducible apply presWithSt
    | with_reducible apply presMap
    | with_reducible apply presPure
    | with_reducible apply presThrowJS
    | with_reducible apply presThrowFuel
    | with_reducible apply presLiftEx
    | with_reducible apply presGetSt
    | with_reducible intro x
    | split
    | simp only []

theorem presSumIfFunction {wb : Workbook} {recur : Call → EvalM Value} {args : List Str} {sheetId : Str} 
    (hR : ∀ c, Pres (recur c)) :
    Pres (sumIfFunction wb recur args sheetId) := by
  unfold sumIfFunction
  repeat' first
    | with_reducible apply presBind
    | with_reducible apply presJsTry
    | with_reducible apply presAttempt
    | with_reducible apply presWithSt
    | with_reducible apply presMap
    | with_reducible apply presPure
    | with_reducible apply presThrowJS
    | with_reducible apply presThrowFuel
    | with_reducible apply presLiftEx
    | with_reducible apply presGetSt
    | with_reducible intro x
    | split
    | simp only []

theorem presCountIfFunction {wb : Workbook} {recur : Call → EvalM Value} {args : List Str} {sheetId : Str} 
    (hR : ∀ c, Pres (recur c)) :
    Pres (countIfFunction wb recur args sheetId) := by
  unfold countIfFunction
  repeat' first
    | with_reducible apply presBind
    | with_reducible apply presJsTry
    | with_reducible apply presAttempt
    | with_reducible apply presWithSt
    | with_reducible apply presMap
    | with_reducible apply presPure
    | with_reducible apply presThrowJS
    | with_reducible apply presThrowFuel
    | with_reducible apply presLiftEx
    | with_reducible apply presGetSt
    | with_reducible intro x
    | split
    | simp only []

theorem presAverageIfFunction {wb : Workbook} {recur : Call → EvalM Value} {args : List Str} {sheetId : Str} 
    (hR : ∀ c, Pres (recur c)) :
    Pres (averageIfFunction wb recur args sheetId) := by
  unfold averageIfFunction
  repeat' first
    | with_reducible apply presBind
    | with_reducible apply presJsTry
    | with_reducible apply presAttempt
    | with_reducible apply presWithSt
    | with_reducible apply presMap
    | with_reducible apply presPure
    | with_reducible apply presThrowJS
    | with_reducible apply presThrowFuel
    | with_reducible apply presLiftEx
    | with_reducible apply presGetSt
    | with_reducible intro x
    | split
    | simp only []

theorem presRoundFunction {host : Host} {recur : Call → EvalM Value} {args : List Str} {sheetId : Str} 
    (hR : ∀ c, Pres (recur c)) :
    Pres (roundFunction host recur args sheetId) := by
  unfold roundFunction
  repeat' first
    | with_reducible apply presBind
    | with_reducible apply presJsTry
    | with_reducible apply presAttempt
    | with_reducible apply presWithSt
    | with_reducible apply presMap
    | with_reducible apply presPure
    | with_reducible apply presThrowJS
    | with_reducible apply presThrowFuel
    | with_reducible apply presLiftEx
    | with_reducible apply presGetSt
    | with_reducible intro x
    | split
    | simp only []

theorem presRoundUpFunction {host : Host} {recur : Call → EvalM Value} {args : List Str} {sheetId : Str} 
    (hR : ∀ c, Pres (recur c)) :
    Pres (roundUpFunction host recur args sheetId) := by
  unfold roundUpFunction
  repeat' first
    | with_reducible apply presBind
    | with_reducible apply presJsTry
    | with_reducible apply presAttempt
    | with_reducible apply presWithSt
    | with_reducible apply presMap
    | with_reducible apply presPure
    | with_reducible apply presThrowJS
    | with_reducible apply presThrowFuel
    | with_reducible apply presLiftEx
    | with_reducible apply presGetSt
    | with_reducible intro x
    | split
    | simp only []

theorem presRoundDownFunction {host : Host} {recur : Call → EvalM Value} {args : List Str} {sheetId : Str} 
    (hR : ∀ c, Pres (recur c)) :
    Pres (roundDownFunction host recur args sheetId) := by
  unfold roundDownFunction
  repeat' first
    | with_reducible apply presBind
    | with_reducible apply presJsTry
    | with_reducible apply presAttempt
    | with_reducible apply presWithSt
    | with_reducible apply presMap
    | with_reducible apply presPure
    | with_reducible apply presThrowJS
    | with_reducible apply presThrowFuel
    | with_reducible apply presLiftEx
    | with_reducible apply presGetSt
    | with_reducible intro x
    | split
    | simp only []

theorem presSqrtFunction {host : Host} {recur : Call → EvalM Value} {args : List Str} {sheetId : Str} 
    (hR : ∀ c, Pres (recur c)) :
    Pres (sqrtFunction host recur args sheetId) := by
  unfold sqrtFunction
  repeat' first
    | with_reducible apply presBind
    | with_reducible apply presJsTry
    | with_reducible apply presAttempt
    | with_reducible apply presWithSt
    | with_reducible apply presMap
    | with_reducible apply presPure
    | with_reducible apply presThrowJS
    | with_reducible apply presThrowFuel
    | with_reducible apply presLiftEx
    | with_reducible apply presGetSt
    | with_reducible intro x
    | split
    | simp only []

theorem presAbsFunction {recur : Call → EvalM Value} {args : List Str} {sheetId : Str} 
    (hR : ∀ c, Pres (recur c)) :
    Pres (absFunction recur args sheetId) := by
  unfold absFunction
  repeat' first
    | with_reducible apply presBind
    | with_reducible apply presJsTry
    | with_reducible apply presAttempt
    | with_reducible apply presWithSt
    | with_reducible apply presMap
    | with_reducible apply presPure
    | with_reducible apply presThrowJS
    | with_reducible apply presThrowFuel
    | with_reducible apply presLiftEx
    | with_reducible apply presGetSt
    | with_reducible intro x
    | split
    | simp only []

theorem presPowerFunction {host : Host} {recur : Call → EvalM Value} {args : List Str} {sheetId : Str} 
    (hR : ∀ c, Pres (recur c)) :
    Pres (powerFunction host recur args sheetId) := by
  unfold powerFunction
  repeat' first
    | with_reducible exact presRecExpr hR
    | with_reducible apply presBind
    | with_reducible apply presJsTry
    | with_reducible apply presAttempt
    | with_reducible apply presWithSt
    | with_reducible apply presMap
    | with_reducible apply presPure
    | with_reducible apply presThrowJS
    | with_reducible apply presThrowFuel
    | with_reducible apply presLiftEx
    | with_reducible apply presGetSt
    | with_reducible intro x
    | split
    | simp only []

theorem presIndirectFunction {wb : Workbook} {recur : Call → EvalM Value} {args : List Str} {sheetId : Str} 
    (hR : ∀ c, Pres (recur c)) :
    Pres (indirectFunction wb recur args sheetId) := by
  unfold indirectFunction
  repeat' first
    | with_reducible exact presRecExpr hR
    | with_reducible exact presGetCellValueCore _ _ _ _ hR
    | with_reducible apply presBind
    | with_reducible apply presJsTry
    | with_reducible apply presAttempt
    | with_reducible apply presWithSt
    | with_reducible apply presMap
    | with_reducible apply presPure
    | with_reducible apply presThrowJS
    | with_reducible apply presThrowFuel
    | with_reducible apply presLiftEx
    | with_reducible apply presGetSt
    | with_reducible intro x
    | split
    | simp only []

set_option maxHeartbeats 4000000 in
theorem presEvaluateFunction {host : Host} {wb : Workbook} {recur : Call → EvalM Value} {funcName argsStr sheetId : Str}
    (hR : ∀ c, Pres (recur c)) :
    Pres (evaluateFunction host wb recur funcName argsStr sheetId) := by
  unfold evaluateFunction
  repeat' first
    | with_reducible exact presSumFunction hR
    | with_reducible exact presAverageFunction hR
    | with_reducible exact presCountFunction hR
    | with_reducible exact presCountAFunction hR
    | with_reducible exact presMaxFunction hR
    | with_reducible exact presMinFunction hR
    | with_reducible exact presStdevFunction hR
    | with_reducible exact presVarFunction hR
    | with_reducible exact presIfFunction hR
    | with_reducible exact presAndFunction hR
    | with_reducible exact presOrFunction hR
    | with_reducible exact presNotFunction hR
    | with_reducible exact presVlookupFunction hR
    | with_reducible exact presHlookupFunction hR
    | with_reducible exact presIndexFunction hR
    | with_reducible exact presMatchFunction hR
    | with_reducible exact presNpvFunction hR
    | with_reducible exact presIrrFunction hR
    | with_reducible exact presPmtFunction hR
    | with_reducible exact presPvFunction hR
    | with_reducible exact presFvFunction hR
    | with_reducible exact presDateFunction hR
    | with_reducible exact presYearFunction hR
    | with_reducible exact presMonthFunction hR
    | with_reducible exact presDayFunction hR
    | with_reducible exact presConcatenateFunction hR
    | with_reducible exact presLeftFunction hR
    | with_reducible exact presRightFunction hR
    | with_reducible exact presMidFunction hR
    | with_reducible exact presLenFunction hR
    | with_reducible exact presUpperFunction hR
    | with_reducible exact presLowerFunction hR
    | with_reducible exact presTrimFunction hR
    | with_reducible exact presSumIfFunction hR
    | with_reducible exact presCountIfFunction hR
    | with_reducible exact presAverageIfFunction hR
    | with_reducible exact presRoundFunction hR
    | with_reducible exact presRoundUpFunction hR
    | with_reducible exact presRoundDownFunction hR
    | with_reducible exact presAbsFunction hR
    | with_reducible exact presSqrtFunction hR
    | with_reducible exact presPowerFunction hR
    | with_reducible exact presIndirectFunction hR
    | with_reducible apply presBind
    | with_reducible apply presJsTry
    | with_reducible apply presAttempt
    | with_reducible apply presWithSt
    | with_reducible apply presMap
    | with_reducible apply presPure
    | with_reducible apply presThrowJS
    | with_reducible apply presThrowFuel
    | with_reducible apply presLiftEx
    | with_reducible apply presGetSt
    | with_reducible intro x
    | split
    | simp only []

theorem presReplaceFunctionCallsCore {host : Host} {wb : Workbook} {recur : Call → EvalM Value} {expr sheetId : Str}
    (hR : ∀ c, Pres (recur c)) :
    Pres (replaceFunctionCallsCore host wb recur expr sheetId) := by
  unfold replaceFunctionCallsCore
  repeat' first
    | with_reducible exact presEvaluateFunction hR
    | with_reducible exact presRecRfcStr hR
    | with_reducible apply presBind
    | with_reducible apply presJsTry
    | with_reducible apply presAttempt
    | with_reducible apply presWithSt
    | with_reducible apply presMap
    | with_reducible apply presPure
    | with_reducible apply presThrowJS
    | with_reducible apply presThrowFuel
    | with_reducible apply presLiftEx
    | with_reducible apply presGetSt
    | with_reducible intro x
    | split
    | simp only []

theorem presConcatLoop {recur : Call → EvalM Value} {sheetId : Str}
    (hR : ∀ c, Pres (recur c)) :
    ∀ (l : List Str) (acc : Str), Pres (concatLoop recur sheetId l acc) := by
  intro l
  induction l with
  | nil => intro acc; exact presPure _
  | cons a rest ih =>
      intro acc; unfold concatLoop
      repeat' first
        | exact ih _
        | with_reducible exact presRecExpr hR
        | with_reducible apply presBind
        | with_reducible apply presJsTry
        | with_reducible apply presAttempt
        | with_reducible apply presWithSt
        | with_reducible apply presMap
        | with_reducible apply presPure
        | with_reducible apply presThrowJS
        | with_reducible apply presThrowFuel
        | with_reducible apply presLiftEx
        | with_reducible apply presGetSt
        | with_reducible intro x
        | split
        | simp only []

theorem presEvaluateStringConcatenation {recur : Call → EvalM Value} {expr sheetId : Str}
    (hR : ∀ c, Pres (recur c)) :
    Pres (evaluateStringConcatenation recur expr sheetId) := by
  unfold evaluateStringConcatenation
  repeat' first
    | with_reducible exact presConcatLoop hR _ _
    | with_reducible apply presBind
    | with_reducible apply presJsTry
    | with_reducible apply presAttempt
    | with_reducible apply presWithSt
    | with_reducible apply presMap
    | with_reducible apply presPure
    | with_reducible apply presThrowJS
    | with_reducible apply presThrowFuel
    | with_reducible apply presLiftEx
    | with_reducible apply presGetSt
    | with_reducible intro x
    | split
    | simp only []

theorem presSheetRefLoop {wb : Workbook} {recur : Call → EvalM Value} {sheetId : Str}
    (hR : ∀ c, Pres (recur c)) :
    ∀ (l : List Str) (acc : Str), Pres (sheetRefLoop wb recur sheetId l acc) := by
  intro l
  induction l with
  | nil => intro acc; exact presPure _
  | cons a rest ih =>
      intro acc; unfold sheetRefLoop
      repeat' first
        | exact ih _
        | with_reducible exact presGetCellValueCore _ _ _ _ hR
        | with_reducible apply presBind
        | with_reducible apply presJsTry
        | with_reducible apply presAttempt
        | with_reducible apply presWithSt
        | with_reducible apply presMap
        | with_reducible apply presPure
        | with_reducible apply presThrowJS
        | with_reducible apply presThrowFuel
        | with_reducible apply presLiftEx
        | with_reducible apply presGetSt
        | with_reducible intro x
        | split
        | simp only []

theorem presCellRefLoop {wb : Workbook} {recur : Call → EvalM Value} {sheetId : Str}
    (hR : ∀ c, Pres (recur c)) :
    ∀ (l : List Str) (acc : Str), Pres (cellRefLoop wb recur sheetId l acc) := by
  intro l
  induction l with
  | nil => intro acc; exact presPure _
  | cons a rest ih =>
      intro acc; unfold cellRefLoop
      repeat' first
        | exact ih _
        | with_reducible exact presGetCellValueCore _ _ _ _ hR
        | with_reducible apply presBind
        | with_reducible apply presJsTry
        | with_reducible apply presAttempt
        | with_reducible apply presWithSt
        | with_reducible apply presMap
        | with_reducible apply presPure
        | with_reducible apply presThrowJS
        | with_reducible apply presThrowFuel
        | with_reducible apply presLiftEx
        | with_reducible apply presGetSt
        | with_reducible intro x
        | split
        | simp only []

theorem presEvaluateExpressionCore {host : Host} {wb : Workbook} {recur : Call → EvalM Value} {expr sheetId : Str}
    (hR : ∀ c, Pres (recur c)) :
    Pres (evaluateExpressionCore host wb recur expr sheetId) := by
  unfold evaluateExpressionCore
  repeat' first
    | with_reducible exact presEvaluateFunction hR
    | with_reducible exact presEvaluateStringConcatenation hR
    | with_reducible exact presRecRfcStr hR
    | with_reducible exact presSheetRefLoop hR _ _
    | with_reducible exact presCellRefLoop hR _ _
    | with_reducible apply presBind
    | with_reducible apply presJsTry
    | with_reducible apply presAttempt
    | with_reducible apply presWithSt
    | with_reducible apply presMap
    | with_reducible apply presPure
    | with_reducible apply presThrowJS
    | with_reducible apply presThrowFuel
    | with_reducible apply presLiftEx
    | with_reducible apply presGetSt
    | with_reducible intro x
    | split
    | simp only []

theorem presEvaluateFormulaCore {wb : Workbook} {recur : Call → EvalM Value} {formula sheetId : Str}
    (hR : ∀ c, Pres (recur c)) :
    Pres (evaluateFormulaCore wb recur formula sheetId) := by
  unfold evaluateFormulaCore
  repeat' first
    | with_reducible exact presRecExpr hR
    | with_reducible apply presBind
    | with_reducible apply presJsTry
    | with_reducible apply presAttempt
    | with_reducible apply presWithSt
    | with_reducible apply presMap
    | with_reducible apply presPure
    | with_reducible apply presThrowJS
    | with_reducible apply presThrowFuel
    | with_reducible apply presLiftEx
    | with_reducible apply presGetSt
    | with_reducible intro x
    | split
    | simp only []

theorem presExec (host : Host) (wb : Workbook) :
    ∀ (fuel : Nat) (c : Call), Pres (exec host wb fuel c) := by
  intro fuel
  induction fuel with
  | zero => intro c; exact presThrowFuel
  | succ n ih =>
      intro c
      unfold exec
      rcases c with ⟨f, sheetId⟩ | ⟨e, sheetId⟩ | ⟨e, sheetId⟩
      · exact presEvaluateFormulaCore ih
      · exact presEvaluateExpressionCore ih
      · repeat' first
          | with_reducible exact presReplaceFunctionCallsCore ih
          | with_reducible apply presBind
          | with_reducible apply presPure
          | with_reducible intro x
          | split
          | simp only []

/-- **C6, confirmed.**  The shared `evaluatingCells` set is restored by
every run of the engine.  Conjunct 1: any interpreter call (formula,
expression, or nested-call rewriting), at any fuel, returns the state it
was given — whether it produces a value, throws, or runs out of fuel.
Conjunct 2: `getCellValue` itself restores the caller's set on success,
caught-throw, and guard paths alike (the key added before the recursive
evaluation is erased afterwards).  Conjunct 3: a top-level
`evaluateFormula` call, entered with the `undefined` set of the public
call sites, leaves it `undefined` — the set is empty again once the
top-level call returns, regardless of outcome. -/
theorem C6_evaluating_cells_restored :
    (∀ (host : Host) (wb : Workbook) (fuel : Nat) (c : Call) (st : St),
       (exec host wb fuel c st).2 = st) ∧
    (∀ (host : Host) (wb : Workbook) (fuel : Nat) (sheetId cellRef : Str) (st : St),
       (getCellValue host wb fuel sheetId cellRef st).2 = st) ∧
    (∀ (host : Host) (wb : Workbook) (fuel : Nat) (f sheetId : Str),
       (evaluateFormula host wb fuel f sheetId none).2 = none) :=
  ⟨fun host wb fuel c st => presExec host wb fuel c st,
   fun host wb fuel sheetId cellRef st =>
     presGetCellValueCore wb (exec host wb fuel) sheetId cellRef
       (presExec host wb fuel) st,
   fun host wb fuel f sheetId => presExec host wb fuel (.formula f sheetId) none⟩

end FormulaEngine
